import Mathlib

/-!
Verification development for the vnas-stats datafeed pipeline.

The development shallowly embeds the two core binaries:

* the datafeed processor (src/backend/datafeed_processor): queue batch
  processing, the per-snapshot session reconciler and writer, and the
  payload archive, from main.rs and database/queries.rs.  That crate's
  helpers.rs module and the SQL migrations are not part of the sources;
  definitions taken from them are modelled from the specification and
  carry a doc comment starting with the words Modelled from the spec.
* the datafeed fetcher (src/backend/datafeed_fetcher/src/main.rs): the
  in-memory fallback buffer drain, the health endpoint and the
  updatedAt extraction of fetch_datafeed.

Conventions of the embedding:

* timestamps (chrono DateTime of Utc) are integers counting nanoseconds
  since the epoch; Postgres stores microseconds, which is where the
  microsecond-truncation comparison of login times comes from;
* UUIDs are natural numbers drawn from a generator counter that is
  threaded through every function which calls Uuid::now_v7;
* tables are lists of row structures mirroring the SQL column lists;
* the database engine behaviour that the Rust code relies on but does
  not itself spell out (the partial unique index on active controller
  CIDs) is modelled as an explicit check inside the INSERT.
-/

namespace VnasStats

deriving instance DecidableEq for Except

/-- Timestamps are nanoseconds since the Unix epoch, as used by chrono. -/
abbrev Timestamp := Int

/-! ### Association-list maps

Rust HashMap values are modelled as association lists.  ainsert
overwrites (like HashMap::insert), aerase removes the binding (like
HashMap::remove), alookup finds the first binding. -/

/-- Lookup of a key in an association list, first binding wins. -/
def alookup {κ ν : Type} [DecidableEq κ] : List (κ × ν) → κ → Option ν
  | [], _ => none
  | e :: rest, k => if e.1 = k then some e.2 else alookup rest k

/-- Removal of every binding of a key from an association list. -/
def aerase {κ ν : Type} [DecidableEq κ] : List (κ × ν) → κ → List (κ × ν)
  | [], _ => []
  | e :: rest, k => if e.1 = k then aerase rest k else e :: aerase rest k

/-- Insertion that overwrites any previous binding of the key. -/
def ainsert {κ ν : Type} [DecidableEq κ] (m : List (κ × ν)) (k : κ) (v : ν) : List (κ × ν) :=
  (k, v) :: aerase m k

/-- Keys of an association list. -/
def akeys {κ ν : Type} (m : List (κ × ν)) : List κ := m.map (·.1)

/-! ### Data model of the upstream feed (shared/src/vnas/datafeed.rs)

The Role, Position and facility-type details and the numeric frequency
values are carried opaquely by the feed and never read by the processor
or the fetcher; they are omitted from the embedding. -/

/-- User rating enumeration from the shared datafeed DTOs. -/
inductive UserRating where
  | observer
  | student1
  | student2
  | student3
  | controller1
  | controller2
  | controller3
  | instructor1
  | instructor2
  | instructor3
  | supervisor
  | administrator

deriving DecidableEq

/-- VATSIM block of a controller record (shared/src/vnas/datafeed.rs VatsimData). -/
structure VatsimData where
  cid : String
  real_name : String
  controller_info : String
  user_rating : UserRating
  requested_rating : UserRating
  callsign : String

deriving DecidableEq

/-- One controller record of a datafeed snapshot (shared/src/vnas/datafeed.rs Controller). -/
structure Controller where
  artcc_id : String
  primary_facility_id : String
  primary_position_id : String
  is_active : Bool
  is_observer : Bool
  login_time : Timestamp
  vatsim_data : VatsimData

deriving DecidableEq

/-- A parsed datafeed snapshot (shared/src/vnas/datafeed.rs DatafeedRoot). -/
structure DatafeedRoot where
  updated_at : Timestamp
  controllers : List Controller

deriving DecidableEq

/-- The processor consumes the raw queued JSON payload only through
serde_json::from_value::<DatafeedRoot>; a payload is therefore modelled
by the outcome of that decode: either the decoded snapshot or an opaque
malformed document. -/
inductive Value where
  | valid (root : DatafeedRoot)
  | malformed

deriving DecidableEq

/-- Model of serde_json::from_value::<DatafeedRoot> applied to a queued payload. -/
def from_value_datafeed_root : Value → Except Unit DatafeedRoot
  | .valid root => .ok root
  | .malformed => .error ()

/-! ### Database rows (datafeed_processor/src/database/models.rs and the SQL
column lists in database/queries.rs) -/

/-- Row of the controller_sessions table. -/
structure ControllerSessionRow where
  id : Nat
  cid : Int
  login_time : Timestamp
  start_time : Timestamp
  end_time : Option Timestamp
  duration : Option Timestamp
  last_seen : Timestamp
  is_active : Bool
  is_observer : Bool
  name : String
  user_rating : UserRating
  requested_rating : UserRating
  connected_callsign : String
  primary_position_id : String
  callsign_session_id : Nat
  position_session_id : Nat

deriving DecidableEq

/-- Row of the callsign_sessions table.  The prefix and suffix columns are
called pfx and sfx because their SQL names are Lean keywords. -/
structure CallsignSessionRow where
  id : Nat
  pfx : String
  sfx : String
  start_time : Timestamp
  end_time : Option Timestamp
  duration : Option Timestamp
  last_seen : Timestamp
  is_active : Bool
  created_at : Timestamp

deriving DecidableEq

/-- Row of the position_sessions table. -/
structure PositionSessionRow where
  id : Nat
  position_id : String
  start_time : Timestamp
  end_time : Option Timestamp
  duration : Option Timestamp
  last_seen : Timestamp
  is_active : Bool
  created_at : Timestamp

deriving DecidableEq

/-- Row of the datafeed_queue table (database/models.rs QueuedDatafeed). -/
structure QueuedDatafeed where
  id : Nat
  updated_at : Timestamp
  payload : Value
  created_at : Timestamp

deriving DecidableEq

/-- Row of the datafeed_payloads archive table.  Compression is modelled as
the identity on the opaque payload; the original byte size column is
omitted because no byte-level serialization is modelled. -/
structure DatafeedPayloadRow where
  id : Nat
  updated_at : Timestamp
  payload_compressed : Value
  compression_algo : String
  created_at : Timestamp

deriving DecidableEq

/-- Row of the datafeed_messages audit table. -/
structure DatafeedMessageRow where
  id : Nat
  queue_id : Nat
  payload_id : Nat
  enqueued_at : Timestamp
  processed_at : Timestamp

deriving DecidableEq

/-- The relational state owned by the pipeline. -/
structure Db where
  controller_sessions : List ControllerSessionRow
  callsign_sessions : List CallsignSessionRow
  position_sessions : List PositionSessionRow
  datafeed_queue : List QueuedDatafeed
  datafeed_payloads : List DatafeedPayloadRow
  datafeed_messages : List DatafeedMessageRow

deriving DecidableEq

/-- The empty database. -/
def Db.empty : Db := ⟨[], [], [], [], [], []⟩

/-- Error type of database/queries.rs.  The db constructor stands for
sqlx::Error; the only database error that the sequential model can
produce is the violation of the partial unique index on
controller_sessions (cid) WHERE is_active, raised inside INSERT. -/
inductive QueryError where
  | uniqueActiveCid (cid : Int)

deriving DecidableEq

/-! ### Ghost trace of write statements

Each write primitive appends one event to a ghost trace so that the
ordering of statements inside a snapshot transaction can be stated.  The
trace has no effect on the database state. -/

/-- One executed SQL write statement. -/
inductive DbOp where
  | completeControllers (ids : List Nat)
  | updateController (id : Nat)
  | insertController (id : Nat)
  | updateCallsignSeen (id : Nat)
  | insertCallsign (id : Nat)
  | completeCallsigns (ids : List Nat)
  | updatePositionSeen (id : Nat)
  | insertPosition (id : Nat)
  | completePositions (ids : List Nat)

deriving DecidableEq

/-! ### Query primitives (datafeed_processor/src/database/queries.rs)

Each function is the pure state transformer of the SQL statement it is
named after.  UPDATE statements touch every row whose id matches and are
no-ops when no row matches, like SQL. -/

/-- Row transformer of the SET clause of complete_controller_sessions. -/
def closeControllerRow (ids : List Nat) (ended_at : Timestamp)
    (r : ControllerSessionRow) : ControllerSessionRow :=
  if r.id ∈ ids then
    { r with is_active := false, end_time := some ended_at,
             duration := some (ended_at - r.start_time), last_seen := ended_at }
  else r

/-- UPDATE of complete_controller_sessions: close every controller session
whose id is listed. -/
def complete_controller_sessions (db : Db) (ids : List Nat) (ended_at : Timestamp) : Db :=
  { db with controller_sessions := db.controller_sessions.map (closeControllerRow ids ended_at) }

/-- Row transformer of the SET clause of update_active_controller_session. -/
def updateControllerRow (session_id : Nat) (c : Controller) (seen_at : Timestamp)
    (r : ControllerSessionRow) : ControllerSessionRow :=
  if r.id = session_id then
    { r with last_seen := seen_at, is_observer := c.is_observer,
             name := c.vatsim_data.real_name,
             user_rating := c.vatsim_data.user_rating,
             requested_rating := c.vatsim_data.requested_rating,
             connected_callsign := c.vatsim_data.callsign,
             primary_position_id := c.primary_position_id }
  else r

/-- UPDATE of update_active_controller_session: refresh last_seen and the
mutable descriptive columns of the controller session row. -/
def update_active_controller_session (db : Db) (session_id : Nat) (c : Controller)
    (seen_at : Timestamp) : Db :=
  { db with controller_sessions :=
      db.controller_sessions.map (updateControllerRow session_id c seen_at) }

/-- INSERT of insert_controller_session.  The generator supplies the new
UUID.  Raising uniqueActiveCid when another active session with the same
CID exists is Modelled from the spec: the migrations carrying the partial
unique index on controller_sessions (cid) WHERE is_active are not in the
sources, and spec section 6 documents the index. -/
def insert_controller_session (gen : Nat) (db : Db) (c : Controller) (cid : Int)
    (seen_at : Timestamp) (callsign_session_id position_session_id : Nat) :
    Except QueryError (Nat × Nat × Db) :=
  if db.controller_sessions.any fun r => r.is_active && r.cid == cid then
    .error (.uniqueActiveCid cid)
  else
    .ok (gen, gen + 1,
      { db with controller_sessions := db.controller_sessions ++
          [{ id := gen, cid := cid, login_time := c.login_time, start_time := seen_at,
             end_time := none, duration := none, last_seen := seen_at, is_active := true,
             is_observer := c.is_observer, name := c.vatsim_data.real_name,
             user_rating := c.vatsim_data.user_rating,
             requested_rating := c.vatsim_data.requested_rating,
             connected_callsign := c.vatsim_data.callsign,
             primary_position_id := c.primary_position_id,
             callsign_session_id := callsign_session_id,
             position_session_id := position_session_id }] })

/-- Row transformer touching last_seen of one callsign session. -/
def touchCallsignRow (id : Nat) (seen_at : Timestamp) (r : CallsignSessionRow) :
    CallsignSessionRow :=
  if r.id = id then { r with last_seen := seen_at } else r

/-- UPDATE of update_callsign_session_last_seen. -/
def update_callsign_session_last_seen (db : Db) (id : Nat) (seen_at : Timestamp) : Db :=
  { db with callsign_sessions := db.callsign_sessions.map (touchCallsignRow id seen_at) }

/-- Row transformer of the SET clause of complete_callsign_sessions. -/
def closeCallsignRow (ids : List Nat) (ended_at : Timestamp) (r : CallsignSessionRow) :
    CallsignSessionRow :=
  if r.id ∈ ids then
    { r with is_active := false, end_time := some ended_at,
             duration := some (ended_at - r.start_time), last_seen := ended_at }
  else r

/-- UPDATE of complete_callsign_sessions. -/
def complete_callsign_sessions (db : Db) (ids : List Nat) (ended_at : Timestamp) : Db :=
  { db with callsign_sessions := db.callsign_sessions.map (closeCallsignRow ids ended_at) }

/-- SELECT plus INSERT of get_or_create_callsign_session: reuse the active
row with the key, advancing last_seen, or insert a new active row.  The
returned flag reports whether a row was inserted; the Rust function
returns only the id, and the flag is the information its caller
ensure_callsign_session derives for new_callsign_session_ids. -/
def get_or_create_callsign_session (gen : Nat) (db : Db) (pfx sfx : String)
    (seen_at : Timestamp) : Nat × Bool × Nat × Db :=
  match (db.callsign_sessions.find? fun r => r.is_active && r.pfx == pfx && r.sfx == sfx) with
  | some row => (row.id, false, gen, update_callsign_session_last_seen db row.id seen_at)
  | none =>
      (gen, true, gen + 1,
        { db with callsign_sessions := db.callsign_sessions ++
            [{ id := gen, pfx := pfx, sfx := sfx, start_time := seen_at, end_time := none,
               duration := none, last_seen := seen_at, is_active := true,
               created_at := seen_at }] })

/-- Row transformer touching last_seen of one position session. -/
def touchPositionRow (id : Nat) (seen_at : Timestamp) (r : PositionSessionRow) :
    PositionSessionRow :=
  if r.id = id then { r with last_seen := seen_at } else r

/-- UPDATE of update_position_session_last_seen. -/
def update_position_session_last_seen (db : Db) (id : Nat) (seen_at : Timestamp) : Db :=
  { db with position_sessions := db.position_sessions.map (touchPositionRow id seen_at) }

/-- Row transformer of the SET clause of complete_position_sessions. -/
def closePositionRow (ids : List Nat) (ended_at : Timestamp) (r : PositionSessionRow) :
    PositionSessionRow :=
  if r.id ∈ ids then
    { r with is_active := false, end_time := some ended_at,
             duration := some (ended_at - r.start_time), last_seen := ended_at }
  else r

/-- UPDATE of complete_position_sessions. -/
def complete_position_sessions (db : Db) (ids : List Nat) (ended_at : Timestamp) : Db :=
  { db with position_sessions := db.position_sessions.map (closePositionRow ids ended_at) }

/-- SELECT plus INSERT of get_or_create_position_session. -/
def get_or_create_position_session (gen : Nat) (db : Db) (position_id : String)
    (seen_at : Timestamp) : Nat × Bool × Nat × Db :=
  match (db.position_sessions.find? fun r => r.is_active && r.position_id == position_id) with
  | some row => (row.id, false, gen, update_position_session_last_seen db row.id seen_at)
  | none =>
      (gen, true, gen + 1,
        { db with position_sessions := db.position_sessions ++
            [{ id := gen, position_id := position_id, start_time := seen_at, end_time := none,
               duration := none, last_seen := seen_at, is_active := true,
               created_at := seen_at }] })

/-- SELECT of get_active_controller_session_keys. -/
def get_active_controller_session_keys (db : Db) : List ControllerSessionRow :=
  db.controller_sessions.filter (·.is_active)

/-- SELECT of get_active_callsign_sessions. -/
def get_active_callsign_sessions (db : Db) : List CallsignSessionRow :=
  db.callsign_sessions.filter (·.is_active)

/-- SELECT of get_active_position_sessions. -/
def get_active_position_sessions (db : Db) : List PositionSessionRow :=
  db.position_sessions.filter (·.is_active)

/-- SELECT of fetch_datafeed_batch: up to limit queue rows in ascending
updated_at order under FOR UPDATE SKIP LOCKED.  The single-consumer model
sees no competing locks; ORDER BY is modelled with a deterministic
insertion sort on updated_at. -/
def fetch_datafeed_batch (db : Db) (limit : Nat) : List QueuedDatafeed :=
  (db.datafeed_queue.insertionSort fun a b => a.updated_at ≤ b.updated_at).take limit

/-- INSERT ON CONFLICT DO NOTHING of upsert_datafeed_payload, returning the
payload id and whether a new row was inserted. -/
def upsert_datafeed_payload (gen : Nat) (db : Db) (m : QueuedDatafeed) :
    Nat × Bool × Nat × Db :=
  match (db.datafeed_payloads.find? fun p => p.updated_at == m.updated_at) with
  | some p => (p.id, false, gen, db)
  | none =>
      (gen, true, gen + 1,
        { db with datafeed_payloads := db.datafeed_payloads ++
            [{ id := gen, updated_at := m.updated_at, payload_compressed := m.payload,
               compression_algo := "zstd", created_at := m.created_at }] })

/-- INSERT of insert_datafeed_message. -/
def insert_datafeed_message (gen : Nat) (db : Db) (queue_id payload_id : Nat)
    (enqueued_at processed_at : Timestamp) : Nat × Db :=
  (gen + 1,
    { db with datafeed_messages := db.datafeed_messages ++
        [{ id := gen, queue_id := queue_id, payload_id := payload_id,
           enqueued_at := enqueued_at, processed_at := processed_at }] })

/-- DELETE of delete_queued_datafeed. -/
def delete_queued_datafeed (db : Db) (id : Nat) : Db :=
  { db with datafeed_queue := db.datafeed_queue.filter fun r => r.id ≠ id }

/-! ### Helper module of the processor

The helpers module of src/backend/datafeed_processor is not among the
sources (main.rs imports it and error.rs declares its error types), so
its definitions are modelled from spec sections 4.5, 4.6 and 4.7.  The
names, the ActiveState field names and the ControllerAction variants are
exactly the ones main.rs imports and uses. -/

/-- Error type ControllerParseError of error.rs. -/
inductive ControllerParseError where
  | cidError (cid : String)
  | callsignError (callsign : String) (parts : Nat)

deriving DecidableEq

/-- Result of parse_controller_parts as used by main.rs. -/
structure ParsedController where
  cid : Int
  pfx : String
  sfx : String
  position_id : String

deriving DecidableEq

/-- Model of Rust str::parse::<i32>: optional sign, at least one digit,
digits only, value within the i32 range. -/
def parseI32 (s : String) : Option Int :=
  let sd : Int × List Char :=
    match s.data with
    | '-' :: rest => (-1, rest)
    | '+' :: rest => (1, rest)
    | cs => (1, cs)
  if sd.2 = [] then none
  else if sd.2.all Char.isDigit then
    let n : Nat := sd.2.foldl (fun acc c => acc * 10 + (c.toNat - 48)) 0
    let v : Int := sd.1 * n
    if -2147483648 ≤ v ∧ v ≤ 2147483647 then some v else none
  else none

/-- Modelled from the spec: parse_controller_parts of the missing helpers
module.  Spec 4.6 rule 1: parse the cid string as an integer and split
the callsign on underscores into two or three segments, prefix first and
suffix last; any other shape fails for that record only.  The error
variants are the ones declared in error.rs. -/
def parse_controller_parts (c : Controller) : Except ControllerParseError ParsedController :=
  match parseI32 c.vatsim_data.cid with
  | none => .error (.cidError c.vatsim_data.cid)
  | some cid =>
    match (c.vatsim_data.callsign.data.splitOn '_').map (fun l => String.mk l) with
    | [p, s] => .ok ⟨cid, p, s, c.primary_position_id⟩
    | [p, _, s] => .ok ⟨cid, p, s, c.primary_position_id⟩
    | parts => .error (.callsignError c.vatsim_data.callsign parts.length)

/-- Modelled from the spec: login_times_match of the missing helpers
module.  Spec 4.6: login times match exactly when they agree at
microsecond precision; timestamps are nanoseconds, so both sides are
floor-divided by 1000. -/
def login_times_match (a b : Timestamp) : Bool :=
  a.ediv 1000 == b.ediv 1000

/-- Per-CID entry of the active-by-CID map (spec 4.5). -/
structure ActiveControllerState where
  controller_session_id : Nat
  login_time : Timestamp
  callsign_session_id : Nat
  position_id : String
  position_session_id : Nat
  connected_callsign : String

deriving DecidableEq

/-- The three active-set structures loaded at the start of a snapshot.
The field names are the ones main.rs destructures. -/
structure ActiveState where
  active_by_cid : List (Int × ActiveControllerState)
  active_callsign_sessions : List Nat
  active_callsign_sessions_map : List ((String × String) × Nat)
  active_position_sessions : List (String × Nat)

deriving DecidableEq

/-- Collection of a row list into a map, later rows overwriting earlier
ones, like collecting an iterator of pairs into a HashMap. -/
def amap_of {α κ ν : Type} [DecidableEq κ] (key : α → κ) (val : α → ν)
    (rows : List α) : List (κ × ν) :=
  rows.foldl (fun m r => ainsert m (key r) (val r)) []

/-- The active-by-CID map entry built from a controller session row. -/
def entryOf (r : ControllerSessionRow) : ActiveControllerState :=
  { controller_session_id := r.id, login_time := r.login_time,
    callsign_session_id := r.callsign_session_id,
    position_id := r.primary_position_id,
    position_session_id := r.position_session_id,
    connected_callsign := r.connected_callsign }

/-- Modelled from the spec: load_active_state of the missing helpers
module, spec 4.5.  Rehydrates the active controller sessions into a map
keyed by CID, the active callsign sessions into an id list and a map
keyed by (prefix, suffix), and the active position sessions into a map
keyed by position id.  Map collection gives later rows the last word,
like collecting an iterator into a HashMap. -/
def load_active_state (db : Db) : ActiveState :=
  { active_by_cid := amap_of (·.cid) entryOf (get_active_controller_session_keys db),
    active_callsign_sessions := (get_active_callsign_sessions db).map (·.id),
    active_callsign_sessions_map :=
      amap_of (fun r => (r.pfx, r.sfx)) (·.id) (get_active_callsign_sessions db),
    active_position_sessions :=
      amap_of (·.position_id) (·.id) (get_active_position_sessions db) }

/-- Reason attached to a Close action (helpers module, used by main.rs). -/
inductive ControllerCloseReason where
  | missingFromDatafeed
  | deactivatedPosition
  | reconnectedOrChangedPosition

deriving DecidableEq

/-- Plan entry of the reconciler (helpers module, variants and fields as
constructed and matched in main.rs). -/
inductive ControllerAction where
  | updateExisting (session_id : Nat) (controller : Controller)
      (callsign_session_id : Nat) (position_session_id : Nat)
  | createNew (controller : Controller) (callsign_key : String × String)
      (position_id : String) (cid : Int)
  | close (session_id : Nat) (cid : Int) (callsign_session_id : Nat)
      (position_session_id : Nat) (connected_callsign : String)
      (reason : ControllerCloseReason)

deriving DecidableEq

/-- Modelled from the spec: ensure_callsign_session of the missing
helpers module, spec 4.7.  Look up the (prefix, suffix) map; on a hit
advance last_seen of the mapped session; on a miss acquire-or-create an
active row through get_or_create_callsign_session and insert it into the
map.  Returns the session id, whether a row was created, the advanced
generator, the new database and map, and the ghost trace of the writes. -/
def ensure_callsign_session (gen : Nat) (db : Db)
    (csMap : List ((String × String) × Nat)) (key : String × String)
    (seen_at : Timestamp) :
    Nat × Bool × Nat × Db × List ((String × String) × Nat) × List DbOp :=
  match alookup csMap key with
  | some id =>
      (id, false, gen, update_callsign_session_last_seen db id seen_at, csMap,
        [.updateCallsignSeen id])
  | none =>
      match get_or_create_callsign_session gen db key.1 key.2 seen_at with
      | (id, created, gen', db') =>
          (id, created, gen', db', ainsert csMap key id,
            if created then [.insertCallsign id] else [.updateCallsignSeen id])

/-- Modelled from the spec: ensure_position_session of the missing
helpers module, spec 4.7, symmetric to the callsign version with the
position-id map. -/
def ensure_position_session (gen : Nat) (db : Db) (posMap : List (String × Nat))
    (position_id : String) (seen_at : Timestamp) :
    Nat × Bool × Nat × Db × List (String × Nat) × List DbOp :=
  match alookup posMap position_id with
  | some id =>
      (id, false, gen, update_position_session_last_seen db id seen_at, posMap,
        [.updatePositionSeen id])
  | none =>
      match get_or_create_position_session gen db position_id seen_at with
      | (id, created, gen', db') =>
          (id, created, gen', db', ainsert posMap position_id id,
            if created then [.insertPosition id] else [.updatePositionSeen id])

/-- Modelled from the spec: finalize_callsign_sessions of the missing
helpers module, spec phase C.  Every callsign session id of the loaded
active set that is not in the seen set active_callsign_ids is closed
with the snapshot timestamp; the closed ids are returned. -/
def finalize_callsign_sessions (db : Db) (loaded : List Nat) (seen : List Nat)
    (ended_at : Timestamp) : Db × List Nat × List DbOp :=
  let to_close := loaded.filter fun id => id ∉ seen
  if to_close.isEmpty then (db, to_close, [])
  else (complete_callsign_sessions db to_close ended_at, to_close,
    [.completeCallsigns to_close])

/-- Modelled from the spec: finalize_position_sessions of the missing
helpers module, spec phase C.  main.rs hands it the position map that
ensure_position_session extends during phase B; every mapped session
whose position id is not in the seen set active_position_ids is closed. -/
def finalize_position_sessions (db : Db) (posMap : List (String × Nat))
    (seen : List String) (ended_at : Timestamp) : Db × List Nat × List DbOp :=
  let to_close := (posMap.filter fun e => e.1 ∉ seen).map (·.2)
  if to_close.isEmpty then (db, to_close, [])
  else (complete_position_sessions db to_close ended_at, to_close,
    [.completePositions to_close])

/-! ### The reconciler first pass (main.rs lines 313 to 425)

The loop body over datafeed.controllers is reconcile_step; the mutable
loop state gathers the shrinking active-by-CID map, the growing action
plan and the two seen-this-snapshot sets that the first pass already
feeds for updateExisting actions. -/

/-- Mutable state of the first pass over the snapshot records. -/
structure ReconcileState where
  active_by_cid : List (Int × ActiveControllerState)
  controller_actions : List ControllerAction
  active_callsign_ids : List Nat
  active_position_ids : List String

deriving DecidableEq

/-- One iteration of the first-pass loop of process_datafeed_payload:
skip unparseable records; for an active record consume the map entry and
classify into updateExisting or close-plus-createNew or createNew; for
an inactive record with a consumed entry emit close. -/
def reconcile_step (st : ReconcileState) (c : Controller) : ReconcileState :=
  match parse_controller_parts c with
  | .error _ => st
  | .ok parts =>
    if c.is_active then
      match alookup st.active_by_cid parts.cid with
      | some existing =>
        if login_times_match existing.login_time c.login_time &&
            existing.position_id == parts.position_id then
          { st with
            active_by_cid := aerase st.active_by_cid parts.cid,
            controller_actions := st.controller_actions ++
              [.updateExisting existing.controller_session_id c
                existing.callsign_session_id existing.position_session_id],
            active_callsign_ids :=
              st.active_callsign_ids.insert existing.callsign_session_id,
            active_position_ids :=
              st.active_position_ids.insert existing.position_id }
        else
          { st with
            active_by_cid := aerase st.active_by_cid parts.cid,
            controller_actions := st.controller_actions ++
              [.close existing.controller_session_id parts.cid
                 existing.callsign_session_id existing.position_session_id
                 existing.connected_callsign .reconnectedOrChangedPosition,
               .createNew c (parts.pfx, parts.sfx) parts.position_id parts.cid] }
      | none =>
        { st with controller_actions := st.controller_actions ++
            [.createNew c (parts.pfx, parts.sfx) parts.position_id parts.cid] }
    else
      match alookup st.active_by_cid parts.cid with
      | some existing =>
        { st with
          active_by_cid := aerase st.active_by_cid parts.cid,
          controller_actions := st.controller_actions ++
            [.close existing.controller_session_id parts.cid
               existing.callsign_session_id existing.position_session_id
               existing.connected_callsign .deactivatedPosition] }
      | none => st

/-- The leftover close action for a map entry that survived the first
pass (main.rs lines 416 to 425). -/
def close_missing (e : Int × ActiveControllerState) : ControllerAction :=
  .close e.2.controller_session_id e.1 e.2.callsign_session_id
    e.2.position_session_id e.2.connected_callsign .missingFromDatafeed

/-- The full first pass plus the leftover closes: the ordered action plan
and the seen sets primed by the first pass. -/
def reconcile (abc : List (Int × ActiveControllerState)) (controllers : List Controller) :
    ReconcileState :=
  let st := controllers.foldl reconcile_step
    { active_by_cid := abc, controller_actions := [],
      active_callsign_ids := [], active_position_ids := [] }
  { st with controller_actions :=
      st.controller_actions ++ st.active_by_cid.map close_missing }

/-- Session id of a close action, for the phase A batch. -/
def closeSessionId : ControllerAction → Option Nat
  | .close session_id _ _ _ _ _ => some session_id
  | _ => none

/-! ### Phase B: applying updates and creates (main.rs lines 446 to 519) -/

/-- Mutable state of the second-pass loop: the generator, the database,
the two shared-session maps that ensure extends, the seen and
newly-created sets, and the ghost trace. -/
structure ApplyState where
  gen : Nat
  db : Db
  csMap : List ((String × String) × Nat)
  posMap : List (String × Nat)
  active_callsign_ids : List Nat
  active_position_ids : List String
  new_callsign_session_ids : List Nat
  new_position_session_ids : List Nat
  trace : List DbOp

deriving DecidableEq

/-- One iteration of the second-pass loop over the action plan:
updateExisting advances last_seen on the two shared sessions and the
controller session; createNew ensures the shared sessions and inserts
the controller session; close was handled in phase A and does nothing. -/
def apply_action (st : ApplyState) (a : ControllerAction) (updated_at : Timestamp) :
    Except QueryError ApplyState :=
  match a with
  | .updateExisting session_id c callsign_session_id position_session_id =>
    let db1 := update_callsign_session_last_seen st.db callsign_session_id updated_at
    let db2 := update_position_session_last_seen db1 position_session_id updated_at
    let db3 := update_active_controller_session db2 session_id c updated_at
    .ok { st with
      db := db3,
      active_callsign_ids := st.active_callsign_ids.insert callsign_session_id,
      active_position_ids := st.active_position_ids.insert c.primary_position_id,
      trace := st.trace ++
        [.updateCallsignSeen callsign_session_id,
         .updatePositionSeen position_session_id,
         .updateController session_id] }
  | .createNew c callsign_key position_id cid =>
    match ensure_callsign_session st.gen st.db st.csMap callsign_key updated_at with
    | (callsign_session_id, callsign_created, gen1, db1, csMap1, ops1) =>
      match ensure_position_session gen1 db1 st.posMap position_id updated_at with
      | (position_session_id, position_created, gen2, db2, posMap1, ops2) =>
        match insert_controller_session gen2 db2 c cid updated_at
            callsign_session_id position_session_id with
        | .error e => .error e
        | .ok (ctrl_id, gen3, db3) =>
          .ok { gen := gen3, db := db3, csMap := csMap1, posMap := posMap1,
                active_callsign_ids := st.active_callsign_ids.insert callsign_session_id,
                active_position_ids := st.active_position_ids.insert position_id,
                new_callsign_session_ids :=
                  if callsign_created then
                    st.new_callsign_session_ids.insert callsign_session_id
                  else st.new_callsign_session_ids,
                new_position_session_ids :=
                  if position_created then
                    st.new_position_session_ids.insert position_session_id
                  else st.new_position_session_ids,
                trace := st.trace ++ ops1 ++ ops2 ++ [.insertController ctrl_id] }
  | .close _ _ _ _ _ _ => .ok st

/-- The second-pass loop over the whole action plan. -/
def apply_actions (st : ApplyState) (actions : List ControllerAction)
    (updated_at : Timestamp) : Except QueryError ApplyState :=
  match actions with
  | [] => .ok st
  | a :: rest =>
    match apply_action st a updated_at with
    | .error e => .error e
    | .ok st' => apply_actions st' rest updated_at

/-- Everything process_datafeed_payload produces besides the database:
the advanced generator, the ghost trace, the action plan and the sets
that the logging tail consumes. -/
structure SnapshotResult where
  gen : Nat
  db : Db
  trace : List DbOp
  controller_actions : List ControllerAction
  active_callsign_ids : List Nat
  active_position_ids : List String
  new_callsign_session_ids : List Nat
  new_position_session_ids : List Nat
  closed_callsign_session_ids : List Nat
  closed_position_session_ids : List Nat

deriving DecidableEq

/-- The per-snapshot transaction of process_datafeed_payload (main.rs
lines 294 to 555): load the active state, run the reconciler first pass
and the leftover closes, close controller sessions (phase A), apply
updates and creates (phase B), finalize the shared sessions (phase C).
An error is the rollback of the whole snapshot transaction. -/
def process_datafeed_payload (gen : Nat) (db : Db) (datafeed : DatafeedRoot) :
    Except QueryError SnapshotResult :=
  let existing := load_active_state db
  let rec1 := reconcile existing.active_by_cid datafeed.controllers
  let actions := rec1.controller_actions
  let close_ids := actions.filterMap closeSessionId
  let dbA := if close_ids.isEmpty then db
    else complete_controller_sessions db close_ids datafeed.updated_at
  let traceA : List DbOp := if close_ids.isEmpty then [] else [.completeControllers close_ids]
  match apply_actions
      { gen := gen, db := dbA,
        csMap := existing.active_callsign_sessions_map,
        posMap := existing.active_position_sessions,
        active_callsign_ids := rec1.active_callsign_ids,
        active_position_ids := rec1.active_position_ids,
        new_callsign_session_ids := [], new_position_session_ids := [],
        trace := traceA } actions datafeed.updated_at with
  | .error e => .error e
  | .ok stB =>
    match finalize_callsign_sessions stB.db existing.active_callsign_sessions
        stB.active_callsign_ids datafeed.updated_at with
    | (dbC1, closed_cs, opsC1) =>
      match finalize_position_sessions dbC1 stB.posMap
          stB.active_position_ids datafeed.updated_at with
      | (dbC2, closed_ps, opsC2) =>
        .ok { gen := stB.gen, db := dbC2, trace := stB.trace ++ opsC1 ++ opsC2,
              controller_actions := actions,
              active_callsign_ids := stB.active_callsign_ids,
              active_position_ids := stB.active_position_ids,
              new_callsign_session_ids := stB.new_callsign_session_ids,
              new_position_session_ids := stB.new_position_session_ids,
              closed_callsign_session_ids := closed_cs,
              closed_position_session_ids := closed_ps }

/-! ### The batch loop (main.rs process_pending_datafeeds, lines 234 to 292)

One loop iteration opens an outer transaction from the pool, claims a
batch, and walks its messages.  For every message it upserts the payload
archive row, runs process_datafeed_payload when the payload is new,
inserts the audit row and deletes the queue row; the archive, audit and
queue writes live in the outer transaction while process_datafeed_payload
opens its own transaction on the pool and commits it itself.  The model
therefore carries two database values: committed, the state every fresh
pool connection sees, and txDb, the outer transaction's working state.
The inner transaction reads committed and publishes into committed;
committing the outer transaction merges its queue, archive and audit
tables over committed (the two transactions write disjoint tables). -/

/-- State of one outer batch transaction. -/
structure PState where
  committed : Db
  txDb : Db
  gen : Nat

deriving DecidableEq

/-- Errors of the batch loop body (error.rs PayloadProcessingError). -/
inductive ProcessError where
  | deserializeError
  | payloadError (e : QueryError)

deriving DecidableEq

/-- Commit of the outer transaction: its queue, archive and audit tables
become durable over the committed session tables. -/
def commit_outer (committed txDb : Db) : Db :=
  { committed with
    datafeed_queue := txDb.datafeed_queue,
    datafeed_payloads := txDb.datafeed_payloads,
    datafeed_messages := txDb.datafeed_messages }

/-- Body of the message loop of process_pending_datafeeds (lines 249 to
285): deserialize, upsert the archive row, process the snapshot when the
payload is new, insert the audit row, delete the queue row. -/
def process_one_message (now : Timestamp) (st : PState) (m : QueuedDatafeed) :
    Except ProcessError PState :=
  match from_value_datafeed_root m.payload with
  | .error _ => .error .deserializeError
  | .ok root =>
    match upsert_datafeed_payload st.gen st.txDb m with
    | (payload_id, new_payload, gen1, txDb1) =>
      match (if new_payload then
          (process_datafeed_payload gen1 st.committed root).map fun r => (r.gen, r.db)
        else .ok (gen1, st.committed)) with
      | .error e => .error (.payloadError e)
      | .ok (gen2, committed2) =>
        match insert_datafeed_message gen2 txDb1 m.id payload_id m.created_at now with
        | (gen3, txDb2) =>
          .ok { committed := committed2, txDb := delete_queued_datafeed txDb2 m.id,
                gen := gen3 }

/-- Outcome of walking a batch: either the outer transaction is ready to
commit, or an error rolled it back, leaving only the inner commits that
already happened. -/
inductive RunResult where
  | okRun (st : PState)
  | failRun (committed : Db) (gen : Nat) (e : ProcessError)

deriving DecidableEq

/-- The message loop.  An error abandons the outer transaction: the
durable state is the committed database at the point of failure. -/
def run_messages (now : Timestamp) (st : PState) :
    List QueuedDatafeed → RunResult
  | [] => .okRun st
  | m :: rest =>
    match process_one_message now st m with
    | .ok st' => run_messages now st' rest
    | .error e => .failRun st.committed st.gen e

/-- Durable outcome of one iteration of the loop in
process_pending_datafeeds. -/
inductive BatchOutcome where
  | emptyBatch (db : Db) (gen : Nat)
  | committedBatch (db : Db) (gen : Nat)
  | failedBatch (db : Db) (gen : Nat) (e : ProcessError)

deriving DecidableEq

/-- One iteration of the loop in process_pending_datafeeds: begin the
outer transaction, claim a batch, commit immediately when it is empty,
otherwise walk the messages and commit or roll back the outer
transaction. -/
def process_pending_once (now : Timestamp) (gen : Nat) (db : Db) (limit : Nat) :
    BatchOutcome :=
  let messages := fetch_datafeed_batch db limit
  if messages.isEmpty then .emptyBatch db gen
  else
    match run_messages now ⟨db, db, gen⟩ messages with
    | .okRun st => .committedBatch (commit_outer st.committed st.txDb) st.gen
    | .failRun dbF genF e => .failedBatch dbF genF e

/-- One projector step over durable state: a snapshot is either applied
in full or rolled back leaving the state unchanged, and a rolled-back
snapshot is retried, so the reachable durable states are exactly the
fold of this step. -/
def replay_step (p : Nat × Db) (f : DatafeedRoot) : Nat × Db :=
  match process_datafeed_payload p.1 p.2 f with
  | .ok r => (r.gen, r.db)
  | .error _ => p

/-- Durable state after a sequence of snapshots from the empty database. -/
def replay (feeds : List DatafeedRoot) : Nat × Db :=
  feeds.foldl replay_step (0, Db.empty)

/-- The health endpoint of the processor (main.rs lines 179 to 188):
always StatusCode OK, with a body naming the last processed snapshot or
saying that none was processed yet. -/
def health_check (last_processed_datafeed : Option Timestamp) : Nat × String :=
  match last_processed_datafeed with
  | some timestamp => (200, s!"Last processed datafeed updated_at: {timestamp}")
  | none => (200, "No datafeeds processed yet")

/-! ### The fetcher (src/backend/datafeed_fetcher/src/main.rs) -/

/-- JSON documents as seen by the fetcher, which works on a raw
serde_json::Value and only reads the updatedAt field. -/
inductive Json where
  | null
  | bool (b : Bool)
  | num (n : Int)
  | str (s : String)
  | arr (elems : List Json)
  | obj (fields : List (String × Json))

/-- Model of serde_json::Value::get on an object: the value of the field
if the document is an object carrying it. -/
def Json.get? : Json → String → Option Json
  | .obj fields, k => alookup fields k
  | _, _ => none

/-- Model of serde_json::Value::as_str. -/
def Json.asString? : Json → Option String
  | .str s => some s
  | _ => none

/-- Error type of the fetcher (src/datafeed_fetcher/src/error.rs
FetchError). -/
inductive FetchError where
  | reqwestError
  | deserializeError
  | timestampDeserialize
  | missingUpdatedAt

deriving DecidableEq

/-- Numeric value of a digit list. -/
def digitsToNat (l : List Char) : Nat :=
  l.foldl (fun a c => a * 10 + (c.toNat - 48)) 0

/-- Days of a month in the proleptic Gregorian calendar. -/
def daysInMonth (y m : Nat) : Nat :=
  if m = 2 then (if (y % 4 = 0 ∧ ¬ y % 100 = 0) ∨ y % 400 = 0 then 29 else 28)
  else if m = 4 ∨ m = 6 ∨ m = 9 ∨ m = 11 then 30 else 31

/-- Days from the epoch 1970-01-01 of a civil date, the standard
era-based conversion used by calendar libraries. -/
def days_from_civil (y : Int) (m d : Nat) : Int :=
  let ya : Int := if m ≤ 2 then y - 1 else y
  let era : Int := Int.ediv ya 400
  let yoe : Int := ya - era * 400
  let mp : Int := if m ≤ 2 then (m : Int) + 9 else (m : Int) - 3
  let doy : Int := Int.ediv (153 * mp + 2) 5 + (d : Int) - 1
  let doe : Int := yoe * 365 + Int.ediv yoe 4 - Int.ediv yoe 100 + doy
  era * 146097 + doe - 719468

/-- Fractional seconds after the dot, as nanoseconds, with the remaining
characters. -/
def parseFrac (l : List Char) : Option (Nat × List Char) :=
  match l with
  | '.' :: rest =>
    let ds := rest.takeWhile Char.isDigit
    let rest' := rest.dropWhile Char.isDigit
    if ds.isEmpty then none
    else some (digitsToNat ((ds.take 9) ++ List.replicate (9 - (ds.take 9).length) '0'), rest')
  | _ => some (0, l)

/-- Numeric offset of an RFC 3339 zone designator, in seconds east. -/
def parseOffset (l : List Char) : Option Int :=
  match l with
  | ['Z'] => some 0
  | ['z'] => some 0
  | [sg, h1, h2, ':', m1, m2] =>
    if (sg = '+' ∨ sg = '-') ∧ [h1, h2, m1, m2].all Char.isDigit then
      let h := digitsToNat [h1, h2]
      let mi := digitsToNat [m1, m2]
      if h ≤ 23 ∧ mi ≤ 59 then
        let secs : Int := (h : Int) * 3600 + (mi : Int) * 60
        some (if sg = '-' then -secs else secs)
      else none
    else none
  | _ => none

/-- Model of chrono DateTime::parse_from_rfc3339 composed with
with_timezone(&Utc): parse date, time, optional fraction and zone
designator, and return the UTC instant in nanoseconds.  chrono is an
external library; the model covers the RFC 3339 grammar the feed uses. -/
def parse_from_rfc3339 (s : String) : Option Timestamp :=
  match s.data with
  | y1 :: y2 :: y3 :: y4 :: '-' :: m1 :: m2 :: '-' :: d1 :: d2 :: sep ::
      h1 :: h2 :: ':' :: mi1 :: mi2 :: ':' :: s1 :: s2 :: rest =>
    if [y1, y2, y3, y4, m1, m2, d1, d2, h1, h2, mi1, mi2, s1, s2].all Char.isDigit ∧
        (sep = 'T' ∨ sep = 't') then
      let y := digitsToNat [y1, y2, y3, y4]
      let mo := digitsToNat [m1, m2]
      let da := digitsToNat [d1, d2]
      let h := digitsToNat [h1, h2]
      let mi := digitsToNat [mi1, mi2]
      let se := digitsToNat [s1, s2]
      if 1 ≤ mo ∧ mo ≤ 12 ∧ 1 ≤ da ∧ da ≤ daysInMonth y mo ∧ h ≤ 23 ∧ mi ≤ 59 ∧ se ≤ 59 then
        match parseFrac rest with
        | none => none
        | some (nanos, rest') =>
          match parseOffset rest' with
          | none => none
          | some off =>
            some ((days_from_civil (y : Int) mo da * 86400 +
              (h : Int) * 3600 + (mi : Int) * 60 + (se : Int) - off) * 1000000000 + (nanos : Int))
      else none
    else none
  | _ => none

/-- The updatedAt extraction of fetch_datafeed (main.rs lines 354 to
373), applied to the fetched document after the HTTP request and
serde_json::from_str succeeded (their failures surface as the reqwest
and deserialize errors before this point): when the document carries an
updatedAt field whose value is a string, parse it as RFC 3339 and return
the document unchanged with the UTC timestamp; otherwise fail with
missingUpdatedAt. -/
def fetch_datafeed (value : Json) : Except FetchError (Json × Timestamp) :=
  match value.get? "updatedAt" with
  | some timestamp_val =>
    match timestamp_val.asString? with
    | some timestamp_str =>
      match parse_from_rfc3339 timestamp_str with
      | some timestamp => .ok (value, timestamp)
      | none => .error .timestampDeserialize
    | none => .error .missingUpdatedAt
  | none => .error .missingUpdatedAt

/-- The fallback-buffer drain clear_in_memory_queue (main.rs lines 240
to 289).  The outcome of the k-th enqueue_datafeed call of this drain is
given by the enqueue_fails oracle, abstracting database availability.
Pop the front item; on success continue with the next attempt; on
failure push the item back on the front and stop.  Returns the remaining
buffer and the items enqueued, in order. -/
def clear_in_memory_queue (enqueue_fails : Nat → Bool) (k : Nat) :
    List (Json × Timestamp) → List (Json × Timestamp) × List (Json × Timestamp)
  | [] => ([], [])
  | item :: rest =>
    if enqueue_fails k then (item :: rest, [])
    else
      match clear_in_memory_queue enqueue_fails (k + 1) rest with
      | (buf, enq) => (buf, item :: enq)

/-- The health endpoint of the fetcher (main.rs lines 306 to 352):
internal server error until both an attempted and a successful update
exist, internal server error when the last success is more than sixty
seconds old, OK otherwise. -/
def fetcher_health_check (now : Timestamp)
    (last_attempted_update last_successful_update : Option Timestamp)
    (last_error : String) (in_memory_queue_len : Nat) : Nat × String :=
  match last_attempted_update, last_successful_update with
  | some la, some ls =>
    if now - ls > 60 * 1000000000 then
      (500, s!"Datafeed not fetched in the last 60 seconds. Last successful update: {ls}. Last attempted updated: {la}. Last error: {last_error}. In-memory queue length: {in_memory_queue_len}")
    else
      (200, s!"Datafeed last successfully fetched: {ls}. In-memory queue length: {in_memory_queue_len}")
  | some la, none =>
    (500, s!"Datafeed has not been successfully updated. Last attempted update: {la}. Last error: {last_error}. In-memory queue length: {in_memory_queue_len}")
  | none, _ =>
    (500, s!"No attempted or successful datafeed updates. In-memory queue length: {in_memory_queue_len}")

/-! ### Well-formed database states

WF collects the row-level invariants of the three session tables: unique
row ids below the generator, the partial-unique active constraints, and
referential integrity in both directions between controller sessions and
the shared sessions.  These are the invariants of spec section 8 that
claims C3 and C4 quantify over. -/

/-- Well-formedness of the session tables relative to the id generator. -/
structure WF (gen : Nat) (db : Db) : Prop where
  ctrl_nodup : (db.controller_sessions.map (·.id)).Nodup
  cs_nodup : (db.callsign_sessions.map (·.id)).Nodup
  ps_nodup : (db.position_sessions.map (·.id)).Nodup
  ctrl_lt : ∀ r ∈ db.controller_sessions, r.id < gen
  cs_lt : ∀ r ∈ db.callsign_sessions, r.id < gen
  ps_lt : ∀ r ∈ db.position_sessions, r.id < gen
  one_cid : ∀ r ∈ db.controller_sessions, ∀ s ∈ db.controller_sessions,
    r.is_active = true → s.is_active = true → r.cid = s.cid → r.id = s.id
  one_cskey : ∀ r ∈ db.callsign_sessions, ∀ s ∈ db.callsign_sessions,
    r.is_active = true → s.is_active = true → r.pfx = s.pfx → r.sfx = s.sfx → r.id = s.id
  one_poskey : ∀ r ∈ db.position_sessions, ∀ s ∈ db.position_sessions,
    r.is_active = true → s.is_active = true → r.position_id = s.position_id → r.id = s.id
  ref_cs : ∀ r ∈ db.controller_sessions, r.is_active = true →
    ∃ c ∈ db.callsign_sessions, c.is_active = true ∧ c.id = r.callsign_session_id
  ref_ps : ∀ r ∈ db.controller_sessions, r.is_active = true →
    ∃ p ∈ db.position_sessions, p.is_active = true ∧ p.id = r.position_session_id ∧
      p.position_id = r.primary_position_id
  cs_refd : ∀ c ∈ db.callsign_sessions, c.is_active = true →
    ∃ r ∈ db.controller_sessions, r.is_active = true ∧ r.callsign_session_id = c.id
  ps_refd : ∀ p ∈ db.position_sessions, p.is_active = true →
    ∃ r ∈ db.controller_sessions, r.is_active = true ∧ r.position_session_id = p.id

/-! ### Lemmas about the loaded active state -/

/-- Session ids carried by the active-by-CID map. -/
def mapSids (m : List (Int × ActiveControllerState)) : List Nat :=
  m.map (·.2.controller_session_id)

/-! ### Action-plan bookkeeping -/

/-- Session id of an updateExisting action. -/
def updSessionId : ControllerAction → Option Nat
  | .updateExisting session_id _ _ _ => some session_id
  | _ => none

/-- Session id of an updateExisting or close action. -/
def updCloseSessionId : ControllerAction → Option Nat
  | .updateExisting session_id _ _ _ => some session_id
  | .close session_id _ _ _ _ _ => some session_id
  | _ => none

/-- Session ids of the updateExisting and close actions of a plan. -/
def updCloseSids (acts : List ControllerAction) : List Nat :=
  acts.filterMap updCloseSessionId

/-- Session ids of the close actions of a plan. -/
def closeIdsOf (acts : List ControllerAction) : List Nat :=
  acts.filterMap closeSessionId

/-! ### The reconciler invariant

RecInv tracks, relative to the initially loaded active-by-CID map, what
the first pass has produced so far: the remaining map is a sub-map with
distinct keys; each map entry is consumed at most once, so the session
ids named by updateExisting and close actions and the ids still in the
map are mutually distinct; and every updateExisting or close action, and
every entry of the first-pass seen sets, traces back to a consumed map
entry. -/

/-- Invariant of the first-pass loop state over the initial map m₀. -/
structure RecInv (m₀ : List (Int × ActiveControllerState)) (st : ReconcileState) : Prop where
  sub : ∀ e ∈ st.active_by_cid, e ∈ m₀
  keys_nodup : (akeys st.active_by_cid).Nodup
  sids_nodup : (updCloseSids st.controller_actions ++ mapSids st.active_by_cid).Nodup
  upd_from : ∀ sid c csId psId,
    ControllerAction.updateExisting sid c csId psId ∈ st.controller_actions →
    ∃ en ∈ m₀, en.2.controller_session_id = sid ∧ en.2.callsign_session_id = csId ∧
      en.2.position_session_id = psId ∧ en.2.position_id = c.primary_position_id
  close_from : ∀ sid cid csId psId cc rs,
    ControllerAction.close sid cid csId psId cc rs ∈ st.controller_actions →
    ∃ en ∈ m₀, en.2.controller_session_id = sid ∧ en.2.callsign_session_id = csId ∧
      en.2.position_session_id = psId
  create_pos : ∀ c key pos cid,
    ControllerAction.createNew c key pos cid ∈ st.controller_actions →
    pos = c.primary_position_id
  consumed : ∀ en ∈ m₀, en ∈ st.active_by_cid ∨
    (∃ c, ControllerAction.updateExisting en.2.controller_session_id c
      en.2.callsign_session_id en.2.position_session_id ∈ st.controller_actions) ∨
    en.2.controller_session_id ∈ closeIdsOf st.controller_actions
  upd_seen : ∀ sid c csId psId,
    ControllerAction.updateExisting sid c csId psId ∈ st.controller_actions →
    csId ∈ st.active_callsign_ids ∧ c.primary_position_id ∈ st.active_position_ids
  seen_cs : ∀ id ∈ st.active_callsign_ids, ∃ sid c psId,
    ControllerAction.updateExisting sid c id psId ∈ st.controller_actions
  seen_pos : ∀ p ∈ st.active_position_ids, ∃ sid c csId psId,
    ControllerAction.updateExisting sid c csId psId ∈ st.controller_actions ∧
    c.primary_position_id = p

/-! ### The final plan facts of the reconciler -/

/-- What phase B needs to know about the full action plan of the
reconciler, leftover closes included. -/
structure PlanOK (m₀ : List (Int × ActiveControllerState)) (R : ReconcileState) : Prop where
  upd_from : ∀ sid c csId psId,
    ControllerAction.updateExisting sid c csId psId ∈ R.controller_actions →
    ∃ en ∈ m₀, en.2.controller_session_id = sid ∧ en.2.callsign_session_id = csId ∧
      en.2.position_session_id = psId ∧ en.2.position_id = c.primary_position_id
  close_from : ∀ sid cid csId psId cc rs,
    ControllerAction.close sid cid csId psId cc rs ∈ R.controller_actions →
    ∃ en ∈ m₀, en.2.controller_session_id = sid ∧ en.2.callsign_session_id = csId ∧
      en.2.position_session_id = psId
  create_pos : ∀ c key pos cid,
    ControllerAction.createNew c key pos cid ∈ R.controller_actions →
    pos = c.primary_position_id
  sids_nodup : (updCloseSids R.controller_actions).Nodup
  consumed : ∀ en ∈ m₀,
    (∃ c, ControllerAction.updateExisting en.2.controller_session_id c
      en.2.callsign_session_id en.2.position_session_id ∈ R.controller_actions) ∨
    en.2.controller_session_id ∈ closeIdsOf R.controller_actions
  upd_seen : ∀ sid c csId psId,
    ControllerAction.updateExisting sid c csId psId ∈ R.controller_actions →
    csId ∈ R.active_callsign_ids ∧ c.primary_position_id ∈ R.active_position_ids
  seen_cs : ∀ id ∈ R.active_callsign_ids, ∃ sid c psId,
    ControllerAction.updateExisting sid c id psId ∈ R.controller_actions
  seen_pos : ∀ p ∈ R.active_position_ids, ∃ sid c csId psId,
    ControllerAction.updateExisting sid c csId psId ∈ R.controller_actions ∧
    c.primary_position_id = p

/-! ### The phase B invariant

BInv carries, through the second-pass loop, the row-level invariants of
the mid-transaction state: the working WF core (closed controller
sessions from phase A, shared sessions still untouched), the meaning of
the two shared-session maps, the justification of the two seen sets, and
the preconditions of the updateExisting actions still pending.  The
parameters loadedCs and loadedPos are the loaded active callsign ids and
the loaded position map, fixed for the duration of the snapshot. -/

/-- Invariant of the second-pass loop state. -/
structure BInv (t : Timestamp) (loadedCs : List Nat) (loadedPos : List (String × Nat))
    (st : ApplyState) (rest : List ControllerAction) : Prop where
  ctrl_nodup : (st.db.controller_sessions.map (·.id)).Nodup
  cs_nodup : (st.db.callsign_sessions.map (·.id)).Nodup
  ps_nodup : (st.db.position_sessions.map (·.id)).Nodup
  ctrl_lt : ∀ r ∈ st.db.controller_sessions, r.id < st.gen
  cs_lt : ∀ r ∈ st.db.callsign_sessions, r.id < st.gen
  ps_lt : ∀ r ∈ st.db.position_sessions, r.id < st.gen
  one_cid : ∀ r ∈ st.db.controller_sessions, ∀ s ∈ st.db.controller_sessions,
    r.is_active = true → s.is_active = true → r.cid = s.cid → r.id = s.id
  one_cskey : ∀ r ∈ st.db.callsign_sessions, ∀ s ∈ st.db.callsign_sessions,
    r.is_active = true → s.is_active = true → r.pfx = s.pfx → r.sfx = s.sfx → r.id = s.id
  one_poskey : ∀ r ∈ st.db.position_sessions, ∀ s ∈ st.db.position_sessions,
    r.is_active = true → s.is_active = true → r.position_id = s.position_id → r.id = s.id
  ref_cs : ∀ r ∈ st.db.controller_sessions, r.is_active = true →
    ∃ c ∈ st.db.callsign_sessions, c.is_active = true ∧ c.id = r.callsign_session_id
  ref_ps : ∀ r ∈ st.db.controller_sessions, r.is_active = true →
    ∃ p ∈ st.db.position_sessions, p.is_active = true ∧ p.id = r.position_session_id ∧
      p.position_id = r.primary_position_id
  csMapOK : ∀ e ∈ st.csMap, ∃ c ∈ st.db.callsign_sessions, c.is_active = true ∧ c.id = e.2
  posMapOK : ∀ e ∈ st.posMap, ∃ p ∈ st.db.position_sessions,
    p.is_active = true ∧ p.id = e.2 ∧ p.position_id = e.1
  posMapComplete : ∀ p ∈ st.db.position_sessions, p.is_active = true →
    alookup st.posMap p.position_id = some p.id
  posKeysNodup : (akeys st.posMap).Nodup
  posMapGrow : ∀ e ∈ loadedPos, e ∈ st.posMap
  seen_cs : ∀ id ∈ st.active_callsign_ids, ∃ r ∈ st.db.controller_sessions,
    r.is_active = true ∧ r.callsign_session_id = id
  seen_pos : ∀ p ∈ st.active_position_ids, ∃ r ∈ st.db.controller_sessions,
    r.is_active = true ∧ r.primary_position_id = p
  ctrl_seen : ∀ r ∈ st.db.controller_sessions, r.is_active = true →
    r.callsign_session_id ∈ st.active_callsign_ids ∧
    r.primary_position_id ∈ st.active_position_ids
  cs_act_seen : ∀ c ∈ st.db.callsign_sessions, c.is_active = true →
    c.id ∈ loadedCs ∨ c.id ∈ st.active_callsign_ids
  upd_ok : ∀ sid c csId psId, ControllerAction.updateExisting sid c csId psId ∈ rest →
    ∃ r ∈ st.db.controller_sessions, r.is_active = true ∧ r.id = sid ∧
      r.callsign_session_id = csId ∧ r.position_session_id = psId ∧
      r.primary_position_id = c.primary_position_id
  upd_nodup : (rest.filterMap updSessionId).Nodup
  create_pos : ∀ c key pos cid, ControllerAction.createNew c key pos cid ∈ rest →
    pos = c.primary_position_id

/-- What ensure_callsign_session guarantees about its output, given the
callsign-table invariants of its input state. -/
structure EnsureCsFacts (gen : Nat) (db : Db) (id gen' : Nat) (db' : Db)
    (m' : List ((String × String) × Nat)) : Prop where
  ctrl_eq : db'.controller_sessions = db.controller_sessions
  ps_eq : db'.position_sessions = db.position_sessions
  gen_le : gen ≤ gen'
  nodup : (db'.callsign_sessions.map (·.id)).Nodup
  lt : ∀ r ∈ db'.callsign_sessions, r.id < gen'
  onekey : ∀ r ∈ db'.callsign_sessions, ∀ s ∈ db'.callsign_sessions,
    r.is_active = true → s.is_active = true → r.pfx = s.pfx → r.sfx = s.sfx → r.id = s.id
  mapOK : ∀ e ∈ m', ∃ c ∈ db'.callsign_sessions, c.is_active = true ∧ c.id = e.2
  target : ∃ c ∈ db'.callsign_sessions, c.is_active = true ∧ c.id = id
  preserve : ∀ r ∈ db.callsign_sessions, ∃ r' ∈ db'.callsign_sessions,
    r'.id = r.id ∧ r'.is_active = r.is_active
  reflect : ∀ r' ∈ db'.callsign_sessions, r'.is_active = true →
    (∃ r ∈ db.callsign_sessions, r.is_active = true ∧ r.id = r'.id) ∨ r'.id = id

/-- What ensure_position_session guarantees about its output, given the
position-table and position-map invariants of its input state. -/
structure EnsurePsFacts (gen : Nat) (db : Db) (pos : String) (id gen' : Nat) (db' : Db)
    (m m' : List (String × Nat)) : Prop where
  ctrl_eq : db'.controller_sessions = db.controller_sessions
  cs_eq : db'.callsign_sessions = db.callsign_sessions
  gen_le : gen ≤ gen'
  nodup : (db'.position_sessions.map (·.id)).Nodup
  lt : ∀ r ∈ db'.position_sessions, r.id < gen'
  onekey : ∀ r ∈ db'.position_sessions, ∀ s ∈ db'.position_sessions,
    r.is_active = true → s.is_active = true → r.position_id = s.position_id → r.id = s.id
  mapOK : ∀ e ∈ m', ∃ p ∈ db'.position_sessions,
    p.is_active = true ∧ p.id = e.2 ∧ p.position_id = e.1
  complete : ∀ p ∈ db'.position_sessions, p.is_active = true →
    alookup m' p.position_id = some p.id
  keysNodup : (akeys m').Nodup
  grow : ∀ e ∈ m, e ∈ m'
  target : ∃ p ∈ db'.position_sessions, p.is_active = true ∧ p.id = id ∧ p.position_id = pos
  preserve : ∀ r ∈ db.position_sessions, ∃ r' ∈ db'.position_sessions,
    r'.id = r.id ∧ r'.is_active = r.is_active ∧ r'.position_id = r.position_id

/-- Whether a ghost operation inserts a controller session row. -/
def opInsertsController : DbOp → Bool
  | .insertController _ => true
  | _ => false

/-- Whether a ghost operation closes controller session rows. -/
def opClosesControllers : DbOp → Bool
  | .completeControllers _ => true
  | _ => false

/-- A concrete well-formed feed document. -/
def sampleFeedDoc : Json :=
  .obj [("updatedAt", .str "2024-01-01T00:00:00Z"), ("controllers", .arr [])]

/-! ### C8: batch claiming order -/

instance : IsTotal QueuedDatafeed (fun a b => a.updated_at ≤ b.updated_at) :=
  ⟨fun a b => le_total a.updated_at b.updated_at⟩

instance : IsTrans QueuedDatafeed (fun a b => a.updated_at ≤ b.updated_at) :=
  ⟨fun _ _ _ hab hbc => le_trans hab hbc⟩

/-- A concrete controller record for the witnesses. -/
def witnessController : Controller :=
  { artcc_id := "ZBW", primary_facility_id := "BOS", primary_position_id := "BOS_APP_POS",
    is_active := true, is_observer := false, login_time := 1000,
    vatsim_data := ⟨"1001", "A B", "", .controller1, .controller1, "BOS_APP"⟩ }

/-- The witness map entry tracking CID 1001 with matching login time and
position. -/
def witnessExisting : ActiveControllerState :=
  { controller_session_id := 7, login_time := 1000, callsign_session_id := 8,
    position_id := "BOS_APP_POS", position_session_id := 9, connected_callsign := "BOS_APP" }

/-! ### C6: two records with the same CID in one snapshot -/

/-- Login times of the active controller sessions of a CID. -/
def active_login_times (db : Db) (cid : Int) : List Timestamp :=
  (db.controller_sessions.filter fun s => s.is_active && s.cid == cid).map (·.login_time)

/-- A snapshot carrying two records for CID 100: the first active with
login time 1000, the second inactive with login time 2000. -/
def duplicateCidFeed : DatafeedRoot :=
  ⟨20, [{ artcc_id := "ZBW", primary_facility_id := "BOS", primary_position_id := "P1",
          is_active := true, is_observer := false, login_time := 1000,
          vatsim_data := ⟨"100", "A", "", .controller1, .controller1, "BOS_APP"⟩ },
        { artcc_id := "ZBW", primary_facility_id := "BOS", primary_position_id := "P2",
          is_active := false, is_observer := false, login_time := 2000,
          vatsim_data := ⟨"100", "A", "", .controller1, .controller1, "BOS_TWR"⟩ }]⟩

/-- Outcome of processing the duplicate-CID snapshot from the empty
database, projected to the active login times of CID 100. -/
def duplicateCidOutcome : Except QueryError (List Timestamp) :=
  (process_datafeed_payload 0 Db.empty duplicateCidFeed).map fun r =>
    active_login_times r.db 100

/-! ### Frame lemmas: the snapshot transaction only writes session tables -/

/-- The queue, archive and audit tables of two database values agree. -/
def OuterTablesEq (db db' : Db) : Prop :=
  db'.datafeed_queue = db.datafeed_queue ∧
  db'.datafeed_payloads = db.datafeed_payloads ∧
  db'.datafeed_messages = db.datafeed_messages

/-- Archive row and queue rows for the C5 witness. -/
def c5ArchivedRow : DatafeedPayloadRow :=
  { id := 40, updated_at := 0, payload_compressed := .valid ⟨0, []⟩,
    compression_algo := "zstd", created_at := 5 }

/-- Durable state of the C5 scenario: the archive already holds
updated_at 0 and the queue holds a replay of the same snapshot. -/
def c5Db : Db :=
  { Db.empty with
    datafeed_payloads := [c5ArchivedRow],
    datafeed_queue := [⟨41, 0, .valid ⟨0, []⟩, 6⟩] }

/-- The C5 witness state at the start of the replayed message. -/
def c5State : PState := { committed := c5Db, txDb := c5Db, gen := 50 }

/-- Projection to the durable database of a batch outcome. -/
def batch_outcome_db : BatchOutcome → Db
  | .emptyBatch db _ => db
  | .committedBatch db _ => db
  | .failedBatch db _ _ => db

/-- Whether a batch outcome is a failure. -/
def batch_outcome_is_failed : BatchOutcome → Bool
  | .failedBatch _ _ _ => true
  | _ => false

/-- A valid snapshot message and a malformed one queued behind it. -/
def c1Message1 : QueuedDatafeed := ⟨100, 0, .valid ⟨0, [witnessController]⟩, 5⟩

/-- The malformed second message of the C1 scenario. -/
def c1Message2 : QueuedDatafeed := ⟨101, 15, .malformed, 6⟩

/-- Initial durable state of the C1 scenario. -/
def c1InitialDb : Db := { Db.empty with datafeed_queue := [c1Message1, c1Message2] }

/-- Outcome of one batch iteration on the C1 scenario. -/
def c1Outcome : BatchOutcome := process_pending_once 7 0 c1InitialDb 10

/-! ### C3 and C4: the session-table invariants -/

/-- A snapshot with one active controller, for the C3 and C4 witnesses. -/
def c34Feed : DatafeedRoot := ⟨30, [witnessController]⟩

/-- Result of processing the one-controller snapshot from the empty
database. -/
def c34Res : SnapshotResult :=
  match process_datafeed_payload (replay []).1 (replay []).2 c34Feed with
  | .ok r => r
  | .error _ => ⟨0, Db.empty, [], [], [], [], [], [], [], []⟩

theorem alookup_eq_none {κ ν : Type} [DecidableEq κ] {m : List (κ × ν)} {k : κ} :
    alookup m k = none ↔ ∀ v, (k, v) ∉ m := by
  induction m with
  | nil => simp [alookup]
  | cons e rest ih =>
    obtain ⟨k', v'⟩ := e
    by_cases h : k' = k
    · subst h
      simp only [alookup, if_pos rfl]
      constructor
      · intro hc
        exact absurd hc (Option.some_ne_none v')
      · intro hall
        exact absurd (List.mem_cons_self _ _) (hall v')
    · simp only [alookup, if_neg h, ih, List.mem_cons]
      constructor
      · intro hall v hv
        rcases hv with hv | hv
        · exact h (congrArg Prod.fst hv).symm
        · exact hall v hv
      · intro hall v hv
        exact hall v (Or.inr hv)

theorem alookup_mem {κ ν : Type} [DecidableEq κ] {m : List (κ × ν)} {k : κ} {v : ν}
    (h : alookup m k = some v) : (k, v) ∈ m := by
  induction m with
  | nil => simp [alookup] at h
  | cons e rest ih =>
    by_cases he : e.1 = k
    · simp only [alookup, if_pos he] at h
      have hv : e.2 = v := Option.some.inj h
      have hke : (k, v) = e := by
        cases e
        simp_all
      rw [hke]
      exact List.mem_cons_self _ _
    · simp only [alookup, if_neg he] at h
      exact List.mem_cons_of_mem _ (ih h)

theorem mem_aerase {κ ν : Type} [DecidableEq κ] {m : List (κ × ν)} {k : κ} {e : κ × ν} :
    e ∈ aerase m k ↔ e ∈ m ∧ e.1 ≠ k := by
  induction m with
  | nil => simp [aerase]
  | cons f rest ih =>
    by_cases hf : f.1 = k
    · rw [aerase, if_pos hf, ih, List.mem_cons]
      constructor
      · rintro ⟨hm, hne⟩
        exact ⟨Or.inr hm, hne⟩
      · rintro ⟨hm | hm, hne⟩
        · refine absurd ?_ hne
          rw [hm]
          exact hf
        · exact ⟨hm, hne⟩
    · rw [aerase, if_neg hf, List.mem_cons, List.mem_cons]
      constructor
      · rintro (rfl | hm)
        · exact ⟨Or.inl rfl, hf⟩
        · exact ⟨Or.inr (ih.mp hm).1, (ih.mp hm).2⟩
      · rintro ⟨rfl | hm, hne⟩
        · exact Or.inl rfl
        · exact Or.inr (ih.mpr ⟨hm, hne⟩)

theorem aerase_subset {κ ν : Type} [DecidableEq κ] {m : List (κ × ν)} {k : κ} {e : κ × ν}
    (h : e ∈ aerase m k) : e ∈ m :=
  (mem_aerase.mp h).1

theorem akeys_aerase_sublist {κ ν : Type} [DecidableEq κ] (m : List (κ × ν)) (k : κ) :
    (akeys (aerase m k)).Sublist (akeys m) := by
  induction m with
  | nil => simp [aerase, akeys]
  | cons f rest ih =>
    simp only [akeys, List.map_cons] at *
    by_cases hf : f.1 = k
    · rw [aerase, if_pos hf]
      exact List.Sublist.cons _ ih
    · rw [aerase, if_neg hf, List.map_cons]
      exact List.Sublist.cons₂ _ ih

theorem akeys_nodup_aerase {κ ν : Type} [DecidableEq κ] {m : List (κ × ν)} {k : κ}
    (h : (akeys m).Nodup) : (akeys (aerase m k)).Nodup :=
  (akeys_aerase_sublist m k).nodup h

theorem alookup_aerase_ne {κ ν : Type} [DecidableEq κ] (m : List (κ × ν)) (k k' : κ)
    (h : k ≠ k') : alookup (aerase m k) k' = alookup m k' := by
  induction m with
  | nil => rfl
  | cons f rest ih =>
    by_cases hf : f.1 = k
    · have hne : ¬ f.1 = k' := fun hc => h (hf.symm.trans hc)
      rw [aerase, if_pos hf, ih, alookup, if_neg hne]
    · by_cases hf' : f.1 = k'
      · rw [aerase, if_neg hf, alookup, if_pos hf', alookup, if_pos hf']
      · rw [aerase, if_neg hf, alookup, if_neg hf', alookup, if_neg hf', ih]

theorem alookup_ainsert_ne {κ ν : Type} [DecidableEq κ] (m : List (κ × ν)) (k k' : κ) (v : ν)
    (h : k ≠ k') : alookup (ainsert m k v) k' = alookup m k' := by
  rw [ainsert, alookup, if_neg h]
  exact alookup_aerase_ne m k k' h

theorem alookup_ainsert_self {κ ν : Type} [DecidableEq κ] (m : List (κ × ν)) (k : κ) (v : ν) :
    alookup (ainsert m k v) k = some v := by
  simp [ainsert, alookup]

/-! ### Branch equations of reconcile_step -/

theorem reconcile_step_eq_parse_error {c : Controller} {e : ControllerParseError}
    (st : ReconcileState) (hp : parse_controller_parts c = .error e) :
    reconcile_step st c = st := by
  simp only [reconcile_step, hp]

theorem reconcile_step_eq_update {c : Controller} {parts : ParsedController}
    {existing : ActiveControllerState} (st : ReconcileState)
    (hp : parse_controller_parts c = .ok parts) (ha : c.is_active = true)
    (he : alookup st.active_by_cid parts.cid = some existing)
    (hb : (login_times_match existing.login_time c.login_time &&
      existing.position_id == parts.position_id) = true) :
    reconcile_step st c = { st with
      active_by_cid := aerase st.active_by_cid parts.cid,
      controller_actions := st.controller_actions ++
        [.updateExisting existing.controller_session_id c
          existing.callsign_session_id existing.position_session_id],
      active_callsign_ids := st.active_callsign_ids.insert existing.callsign_session_id,
      active_position_ids := st.active_position_ids.insert existing.position_id } := by
  simp only [reconcile_step, hp, ha, he, hb, if_true]

theorem reconcile_step_eq_reconnect {c : Controller} {parts : ParsedController}
    {existing : ActiveControllerState} (st : ReconcileState)
    (hp : parse_controller_parts c = .ok parts) (ha : c.is_active = true)
    (he : alookup st.active_by_cid parts.cid = some existing)
    (hb : (login_times_match existing.login_time c.login_time &&
      existing.position_id == parts.position_id) = false) :
    reconcile_step st c = { st with
      active_by_cid := aerase st.active_by_cid parts.cid,
      controller_actions := st.controller_actions ++
        [.close existing.controller_session_id parts.cid existing.callsign_session_id
           existing.position_session_id existing.connected_callsign
           .reconnectedOrChangedPosition,
         .createNew c (parts.pfx, parts.sfx) parts.position_id parts.cid] } := by
  simp only [reconcile_step, hp, ha, he, hb, Bool.false_eq_true, if_false, if_true]

theorem reconcile_step_eq_create {c : Controller} {parts : ParsedController}
    (st : ReconcileState)
    (hp : parse_controller_parts c = .ok parts) (ha : c.is_active = true)
    (he : alookup st.active_by_cid parts.cid = none) :
    reconcile_step st c = { st with
      controller_actions := st.controller_actions ++
        [.createNew c (parts.pfx, parts.sfx) parts.position_id parts.cid] } := by
  simp only [reconcile_step, hp, ha, he, if_true]

theorem reconcile_step_eq_deactivate {c : Controller} {parts : ParsedController}
    {existing : ActiveControllerState} (st : ReconcileState)
    (hp : parse_controller_parts c = .ok parts) (ha : c.is_active = false)
    (he : alookup st.active_by_cid parts.cid = some existing) :
    reconcile_step st c = { st with
      active_by_cid := aerase st.active_by_cid parts.cid,
      controller_actions := st.controller_actions ++
        [.close existing.controller_session_id parts.cid existing.callsign_session_id
           existing.position_session_id existing.connected_callsign
           .deactivatedPosition] } := by
  simp only [reconcile_step, hp, ha, he, Bool.false_eq_true, if_false, if_true]

theorem reconcile_step_eq_ignore {c : Controller} {parts : ParsedController}
    (st : ReconcileState)
    (hp : parse_controller_parts c = .ok parts) (ha : c.is_active = false)
    (he : alookup st.active_by_cid parts.cid = none) :
    reconcile_step st c = st := by
  simp only [reconcile_step, hp, ha, he, Bool.false_eq_true, if_false, if_true]

theorem WF.empty : WF 0 Db.empty := by
  constructor <;> simp [Db.empty]

/-! ### Generic lemmas about collected maps -/

theorem mem_amap_of {α κ ν : Type} [DecidableEq κ] {key : α → κ} {val : α → ν}
    {rows : List α} {e : κ × ν} (h : e ∈ amap_of key val rows) :
    ∃ r ∈ rows, e = (key r, val r) := by
  suffices hgen : ∀ (m₀ : List (κ × ν)), e ∈ rows.foldl (fun m r => ainsert m (key r) (val r)) m₀ →
      e ∈ m₀ ∨ ∃ r ∈ rows, e = (key r, val r) by
    rcases hgen [] h with hm | hr
    · exact absurd hm (List.not_mem_nil e)
    · exact hr
  clear h
  induction rows with
  | nil =>
    intro m₀ h
    exact Or.inl h
  | cons r rest ih =>
    intro m₀ h
    rw [List.foldl_cons] at h
    rcases ih _ h with hm | hr
    · rw [ainsert, List.mem_cons] at hm
      rcases hm with hm | hm
      · exact Or.inr ⟨r, List.mem_cons_self .., hm⟩
      · exact Or.inl (aerase_subset hm)
    · obtain ⟨r', hr', he⟩ := hr
      exact Or.inr ⟨r', List.mem_cons_of_mem _ hr', he⟩

theorem notMem_akeys_aerase {κ ν : Type} [DecidableEq κ] (m : List (κ × ν)) (k : κ) :
    k ∉ akeys (aerase m k) := by
  intro hk
  rw [akeys, List.mem_map] at hk
  obtain ⟨e, he, hek⟩ := hk
  exact (mem_aerase.mp he).2 hek

theorem akeys_nodup_ainsert {κ ν : Type} [DecidableEq κ] {m : List (κ × ν)} (k : κ) (v : ν)
    (h : (akeys m).Nodup) : (akeys (ainsert m k v)).Nodup := by
  rw [ainsert]
  show (k :: akeys (aerase m k)).Nodup
  rw [List.nodup_cons]
  exact ⟨notMem_akeys_aerase m k, akeys_nodup_aerase h⟩

theorem amap_of_keys_nodup {α κ ν : Type} [DecidableEq κ] (key : α → κ) (val : α → ν)
    (rows : List α) : (akeys (amap_of key val rows)).Nodup := by
  suffices hgen : ∀ (m₀ : List (κ × ν)), (akeys m₀).Nodup →
      (akeys (rows.foldl (fun m r => ainsert m (key r) (val r)) m₀)).Nodup by
    exact hgen [] List.nodup_nil
  induction rows with
  | nil =>
    intro m₀ h
    exact h
  | cons r rest ih =>
    intro m₀ h
    rw [List.foldl_cons]
    exact ih _ (akeys_nodup_ainsert _ _ h)

theorem alookup_foldl_of_no_key {α κ ν : Type} [DecidableEq κ] {key : α → κ} {val : α → ν}
    {rows : List α} {k : κ} (hnk : ∀ r ∈ rows, key r ≠ k) (m₀ : List (κ × ν)) :
    alookup (rows.foldl (fun m r => ainsert m (key r) (val r)) m₀) k = alookup m₀ k := by
  induction rows generalizing m₀ with
  | nil => rfl
  | cons r rest ih =>
    rw [List.foldl_cons, ih (fun r' hr' => hnk r' (List.mem_cons_of_mem _ hr')),
      alookup_ainsert_ne _ _ _ _ (hnk r (List.mem_cons_self ..))]

theorem alookup_foldl_pairwise {α κ ν : Type} [DecidableEq κ] {key : α → κ} {val : α → ν}
    {r : α} : ∀ (rs : List α) (m₀ : List (κ × ν)),
    rs.Pairwise (fun a b => key a ≠ key b) → r ∈ rs →
    alookup (rs.foldl (fun m x => ainsert m (key x) (val x)) m₀) (key r) = some (val r) := by
  intro rs
  induction rs with
  | nil =>
    intro m₀ _ hr
    exact absurd hr (List.not_mem_nil r)
  | cons x rest ih =>
    intro m₀ hpw hr
    rw [List.foldl_cons]
    rcases List.mem_cons.mp hr with rfl | hmem
    · have hnk : ∀ y ∈ rest, key y ≠ key r :=
        fun y hy => ((List.pairwise_cons.mp hpw).1 y hy).symm
      rw [alookup_foldl_of_no_key hnk, alookup_ainsert_self]
    · exact ih _ (List.pairwise_cons.mp hpw).2 hmem

theorem alookup_amap_of {α κ ν : Type} [DecidableEq κ] {key : α → κ} {val : α → ν}
    {rows : List α} (hpw : rows.Pairwise fun a b => key a ≠ key b) {r : α} (hr : r ∈ rows) :
    alookup (amap_of key val rows) (key r) = some (val r) :=
  alookup_foldl_pairwise rows [] hpw hr

theorem eq_of_nodup_key {α β : Type} {f : α → β} {l : List α}
    (h : (l.map f).Nodup) {a b : α} (ha : a ∈ l) (hb : b ∈ l) (hf : f a = f b) : a = b :=
  List.inj_on_of_nodup_map h ha hb hf

theorem load_abc_mem {db : Db} {e : Int × ActiveControllerState}
    (h : e ∈ (load_active_state db).active_by_cid) :
    ∃ r ∈ db.controller_sessions, r.is_active = true ∧ e = (r.cid, entryOf r) := by
  obtain ⟨r, hr, he⟩ := mem_amap_of h
  rw [get_active_controller_session_keys, List.mem_filter] at hr
  exact ⟨r, hr.1, hr.2, he⟩

theorem active_ctrls_nodup_ids {gen : Nat} {db : Db} (hwf : WF gen db) :
    ((get_active_controller_session_keys db).map (·.id)).Nodup := by
  show ((db.controller_sessions.filter (·.is_active)).map (·.id)).Nodup
  exact ((List.filter_sublist _).map _).nodup hwf.ctrl_nodup

theorem active_ctrls_pairwise_cid {gen : Nat} {db : Db} (hwf : WF gen db) :
    (get_active_controller_session_keys db).Pairwise fun a b => a.cid ≠ b.cid := by
  have hnodup : (get_active_controller_session_keys db).Nodup :=
    (active_ctrls_nodup_ids hwf).of_map
  refine hnodup.imp_of_mem ?_
  intro a b ha hb hne hc
  rw [get_active_controller_session_keys, List.mem_filter] at ha hb
  exact hne (eq_of_nodup_key (active_ctrls_nodup_ids hwf)
    (List.mem_filter.mpr ha) (List.mem_filter.mpr hb)
    (hwf.one_cid a ha.1 b hb.1 ha.2 hb.2 hc))

theorem load_abc_lookup {gen : Nat} {db : Db} (hwf : WF gen db) {r : ControllerSessionRow}
    (hr : r ∈ db.controller_sessions) (hact : r.is_active = true) :
    alookup (load_active_state db).active_by_cid r.cid = some (entryOf r) := by
  have hmem : r ∈ get_active_controller_session_keys db := by
    rw [get_active_controller_session_keys, List.mem_filter]
    exact ⟨hr, hact⟩
  exact alookup_amap_of (active_ctrls_pairwise_cid hwf) hmem

theorem load_abc_keys_nodup (db : Db) :
    (akeys (load_active_state db).active_by_cid).Nodup :=
  amap_of_keys_nodup ..

theorem load_abc_entries_pairwise {gen : Nat} {db : Db} (hwf : WF gen db) :
    (load_active_state db).active_by_cid.Pairwise
      fun a b => a.2.controller_session_id ≠ b.2.controller_session_id := by
  have hkeys := load_abc_keys_nodup db
  rw [akeys, List.Nodup, List.pairwise_map] at hkeys
  refine hkeys.imp_of_mem ?_
  intro a b ha hb hne hsid
  obtain ⟨ra, hra, hacta, hea⟩ := load_abc_mem ha
  obtain ⟨rb, hrb, hactb, heb⟩ := load_abc_mem hb
  have hida : a.2.controller_session_id = ra.id := by rw [hea]; rfl
  have hidb : b.2.controller_session_id = rb.id := by rw [heb]; rfl
  have : ra = rb := eq_of_nodup_key hwf.ctrl_nodup hra hrb
    (by rw [← hida, ← hidb, hsid])
  apply hne
  rw [hea, heb, this]

theorem load_abc_sids_nodup {gen : Nat} {db : Db} (hwf : WF gen db) :
    (mapSids (load_active_state db).active_by_cid).Nodup := by
  rw [mapSids, List.Nodup, List.pairwise_map]
  exact load_abc_entries_pairwise hwf

theorem load_cs_map_mem {db : Db} {e : (String × String) × Nat}
    (h : e ∈ (load_active_state db).active_callsign_sessions_map) :
    ∃ c ∈ db.callsign_sessions, c.is_active = true ∧ e = ((c.pfx, c.sfx), c.id) := by
  obtain ⟨c, hc, he⟩ := mem_amap_of h
  rw [get_active_callsign_sessions, List.mem_filter] at hc
  exact ⟨c, hc.1, hc.2, he⟩

theorem load_cs_ids_mem {db : Db} {id : Nat} :
    id ∈ (load_active_state db).active_callsign_sessions ↔
    ∃ c ∈ db.callsign_sessions, c.is_active = true ∧ c.id = id := by
  show id ∈ (get_active_callsign_sessions db).map (·.id) ↔ _
  rw [List.mem_map]
  constructor
  · rintro ⟨c, hc, rfl⟩
    rw [get_active_callsign_sessions, List.mem_filter] at hc
    exact ⟨c, hc.1, hc.2, rfl⟩
  · rintro ⟨c, hc, hact, rfl⟩
    refine ⟨c, ?_, rfl⟩
    rw [get_active_callsign_sessions, List.mem_filter]
    exact ⟨hc, hact⟩

theorem load_ps_map_mem {db : Db} {e : String × Nat}
    (h : e ∈ (load_active_state db).active_position_sessions) :
    ∃ p ∈ db.position_sessions, p.is_active = true ∧ e = (p.position_id, p.id) := by
  obtain ⟨p, hp, he⟩ := mem_amap_of h
  rw [get_active_position_sessions, List.mem_filter] at hp
  exact ⟨p, hp.1, hp.2, he⟩

theorem active_ps_nodup_ids {gen : Nat} {db : Db} (hwf : WF gen db) :
    ((get_active_position_sessions db).map (·.id)).Nodup := by
  show ((db.position_sessions.filter (·.is_active)).map (·.id)).Nodup
  exact ((List.filter_sublist _).map _).nodup hwf.ps_nodup

theorem active_ps_pairwise_pos {gen : Nat} {db : Db} (hwf : WF gen db) :
    (get_active_position_sessions db).Pairwise fun a b => a.position_id ≠ b.position_id := by
  have hnodup : (get_active_position_sessions db).Nodup :=
    (active_ps_nodup_ids hwf).of_map
  refine hnodup.imp_of_mem ?_
  intro a b ha hb hne hc
  rw [get_active_position_sessions, List.mem_filter] at ha hb
  exact hne (eq_of_nodup_key (active_ps_nodup_ids hwf)
    (List.mem_filter.mpr ha) (List.mem_filter.mpr hb)
    (hwf.one_poskey a ha.1 b hb.1 ha.2 hb.2 hc))

theorem load_ps_lookup {gen : Nat} {db : Db} (hwf : WF gen db) {p : PositionSessionRow}
    (hp : p ∈ db.position_sessions) (hact : p.is_active = true) :
    alookup (load_active_state db).active_position_sessions p.position_id = some p.id := by
  have hmem : p ∈ get_active_position_sessions db := by
    rw [get_active_position_sessions, List.mem_filter]
    exact ⟨hp, hact⟩
  exact alookup_amap_of (active_ps_pairwise_pos hwf) hmem

theorem load_ps_keys_nodup (db : Db) :
    (akeys (load_active_state db).active_position_sessions).Nodup :=
  amap_of_keys_nodup ..

theorem updCloseSids_append (l1 l2 : List ControllerAction) :
    updCloseSids (l1 ++ l2) = updCloseSids l1 ++ updCloseSids l2 :=
  List.filterMap_append ..

theorem closeIdsOf_append (l1 l2 : List ControllerAction) :
    closeIdsOf (l1 ++ l2) = closeIdsOf l1 ++ closeIdsOf l2 :=
  List.filterMap_append ..

theorem closeIdsOf_sublist (acts : List ControllerAction) :
    (closeIdsOf acts).Sublist (updCloseSids acts) := by
  induction acts with
  | nil => exact List.Sublist.refl []
  | cons a rest ih =>
    match a with
    | .updateExisting sid c csId psId =>
      show (closeIdsOf rest).Sublist (sid :: updCloseSids rest)
      exact ih.trans (List.sublist_cons_self ..)
    | .close sid cid csId psId cc rs =>
      exact List.Sublist.cons₂ _ ih
    | .createNew c key pos cid =>
      exact ih

theorem updSids_sublist (acts : List ControllerAction) :
    (acts.filterMap updSessionId).Sublist (updCloseSids acts) := by
  induction acts with
  | nil => exact List.Sublist.refl []
  | cons a rest ih =>
    match a with
    | .updateExisting sid c csId psId =>
      exact List.Sublist.cons₂ _ ih
    | .close sid cid csId psId cc rs =>
      show (rest.filterMap updSessionId).Sublist (sid :: updCloseSids rest)
      exact ih.trans (List.sublist_cons_self ..)
    | .createNew c key pos cid =>
      exact ih

theorem upd_mem_updCloseSids {acts : List ControllerAction} {sid : Nat} {c : Controller}
    {csId psId : Nat} (h : ControllerAction.updateExisting sid c csId psId ∈ acts) :
    sid ∈ updCloseSids acts :=
  List.mem_filterMap.mpr ⟨_, h, rfl⟩

theorem close_mem_closeIdsOf {acts : List ControllerAction} {sid : Nat} {cid : Int}
    {csId psId : Nat} {cc : String} {rs : ControllerCloseReason}
    (h : ControllerAction.close sid cid csId psId cc rs ∈ acts) :
    sid ∈ closeIdsOf acts :=
  List.mem_filterMap.mpr ⟨_, h, rfl⟩

theorem upd_not_closed {acts : List ControllerAction} (hnd : (updCloseSids acts).Nodup)
    {sid : Nat} {c : Controller} {csId psId : Nat}
    (hupd : ControllerAction.updateExisting sid c csId psId ∈ acts) :
    sid ∉ closeIdsOf acts := by
  induction acts with
  | nil => exact absurd hupd (List.not_mem_nil _)
  | cons a rest ih =>
    rcases List.mem_cons.mp hupd with rfl | hmem
    · intro hc
      have hc' : sid ∈ closeIdsOf rest := by
        simpa [closeIdsOf, List.filterMap_cons, closeSessionId] using hc
      have hU : sid ∈ updCloseSids rest := (closeIdsOf_sublist rest).subset hc'
      have : (sid :: updCloseSids rest).Nodup := by
        simpa [updCloseSids, List.filterMap_cons, updCloseSessionId] using hnd
      exact (List.nodup_cons.mp this).1 hU
    · match a with
      | .updateExisting sid' c' csId' psId' =>
        have hnd' : (sid' :: updCloseSids rest).Nodup := by
          simpa [updCloseSids, List.filterMap_cons, updCloseSessionId] using hnd
        intro hc
        have hc' : sid ∈ closeIdsOf rest := by
          simpa [closeIdsOf, List.filterMap_cons, closeSessionId] using hc
        exact ih (List.nodup_cons.mp hnd').2 hmem hc'
      | .close sid' cid' csId' psId' cc' rs' =>
        have hnd' : (sid' :: updCloseSids rest).Nodup := by
          simpa [updCloseSids, List.filterMap_cons, updCloseSessionId] using hnd
        intro hc
        have hc' : sid = sid' ∨ sid ∈ closeIdsOf rest := by
          have : sid ∈ sid' :: closeIdsOf rest := by
            simpa [closeIdsOf, List.filterMap_cons, closeSessionId] using hc
          exact List.mem_cons.mp this
        rcases hc' with rfl | hc'
        · exact (List.nodup_cons.mp hnd').1 (upd_mem_updCloseSids hmem)
        · exact ih (List.nodup_cons.mp hnd').2 hmem hc'
      | .createNew c' key' pos' cid' =>
        have hnd' : (updCloseSids rest).Nodup := by
          simpa [updCloseSids, List.filterMap_cons, updCloseSessionId] using hnd
        intro hc
        have hc' : sid ∈ closeIdsOf rest := by
          simpa [closeIdsOf, List.filterMap_cons, closeSessionId] using hc
        exact ih hnd' hmem hc'

/-! ### More association-list facts -/

theorem aerase_of_no_key {κ ν : Type} [DecidableEq κ] {m : List (κ × ν)} {k : κ}
    (h : ∀ e ∈ m, e.1 ≠ k) : aerase m k = m := by
  induction m with
  | nil => rfl
  | cons f rest ih =>
    rw [aerase, if_neg (h f (List.mem_cons_self ..)),
      ih fun e he => h e (List.mem_cons_of_mem _ he)]

theorem alookup_of_mem_keys_nodup {κ ν : Type} [DecidableEq κ] {m : List (κ × ν)}
    (hkn : (akeys m).Nodup) {e : κ × ν} (he : e ∈ m) : alookup m e.1 = some e.2 := by
  induction m with
  | nil => exact absurd he (List.not_mem_nil e)
  | cons f rest ih =>
    rw [akeys, List.map_cons, List.nodup_cons] at hkn
    rcases List.mem_cons.mp he with rfl | hm
    · rw [alookup, if_pos rfl]
    · have hne : ¬ f.1 = e.1 := fun hc => hkn.1 (hc ▸ List.mem_map.mpr ⟨e, hm, rfl⟩)
      rw [alookup, if_neg hne]
      exact ih hkn.2 hm

theorem perm_cons_aerase {κ ν : Type} [DecidableEq κ] {m : List (κ × ν)} {k : κ} {v : ν}
    (hkn : (akeys m).Nodup) (hl : alookup m k = some v) :
    m.Perm ((k, v) :: aerase m k) := by
  induction m with
  | nil => exact nomatch hl
  | cons f rest ih =>
    rw [akeys, List.map_cons, List.nodup_cons] at hkn
    by_cases hf : f.1 = k
    · rw [alookup, if_pos hf] at hl
      obtain rfl := Option.some.inj hl
      have hnone : ∀ e ∈ rest, e.1 ≠ k := by
        intro e he hc
        exact hkn.1 (hf ▸ hc ▸ List.mem_map.mpr ⟨e, he, rfl⟩)
      have hfk : (k, f.2) = f := by
        obtain ⟨f1, f2⟩ := f
        cases hf
        rfl
      rw [aerase, if_pos hf, aerase_of_no_key hnone, hfk]
    · rw [alookup, if_neg hf] at hl
      rw [aerase, if_neg hf]
      exact (List.Perm.cons f (ih hkn.2 hl)).trans (List.Perm.swap _ _ _)

theorem parse_controller_parts_pos {c : Controller} {parts : ParsedController}
    (hp : parse_controller_parts c = .ok parts) :
    parts.position_id = c.primary_position_id := by
  rw [parse_controller_parts] at hp
  rcases h1 : parseI32 c.vatsim_data.cid with _ | cid
  · rw [h1] at hp
    exact nomatch hp
  · rw [h1] at hp
    rcases hL : (c.vatsim_data.callsign.data.splitOn '_').map (fun l => String.mk l) with
      _ | ⟨a, _ | ⟨b, _ | ⟨d, rest⟩⟩⟩
    all_goals rw [hL] at hp
    · exact nomatch hp
    · exact nomatch hp
    · obtain rfl := Except.ok.inj hp
      rfl
    · match rest with
      | [] =>
        obtain rfl := Except.ok.inj hp
        rfl
      | x :: xs => exact nomatch hp

theorem consume_facts {m₀ : List (Int × ActiveControllerState)} {st : ReconcileState}
    {k : Int} {existing : ActiveControllerState}
    (inv : RecInv m₀ st) (he : alookup st.active_by_cid k = some existing) :
    (∀ e ∈ aerase st.active_by_cid k, e ∈ m₀) ∧
    (akeys (aerase st.active_by_cid k)).Nodup ∧
    ((updCloseSids st.controller_actions ++ [existing.controller_session_id]) ++
      mapSids (aerase st.active_by_cid k)).Nodup ∧
    (∀ en ∈ st.active_by_cid, en ∈ aerase st.active_by_cid k ∨ en = (k, existing)) := by
  have hperm : st.active_by_cid.Perm ((k, existing) :: aerase st.active_by_cid k) :=
    perm_cons_aerase inv.keys_nodup he
  refine ⟨fun e hee => inv.sub e (aerase_subset hee), akeys_nodup_aerase inv.keys_nodup, ?_, ?_⟩
  · have hps : (mapSids st.active_by_cid).Perm
        (existing.controller_session_id :: mapSids (aerase st.active_by_cid k)) :=
      hperm.map _
    have hfull : (updCloseSids st.controller_actions ++ mapSids st.active_by_cid).Perm
        ((updCloseSids st.controller_actions ++ [existing.controller_session_id]) ++
          mapSids (aerase st.active_by_cid k)) := by
      rw [List.append_assoc]
      exact List.Perm.append_left _ hps
    exact hfull.nodup_iff.mp inv.sids_nodup
  · intro en hen
    by_cases hk : en.1 = k
    · right
      have hl := alookup_of_mem_keys_nodup inv.keys_nodup hen
      rw [hk, he] at hl
      obtain ⟨e1, e2⟩ := en
      cases hk
      rw [Option.some.inj hl]
    · exact Or.inl (mem_aerase.mpr ⟨hen, hk⟩)

theorem recinv_update {m₀ : List (Int × ActiveControllerState)} {st : ReconcileState}
    {c : Controller} {parts : ParsedController} {existing : ActiveControllerState}
    (inv : RecInv m₀ st) (hp : parse_controller_parts c = .ok parts)
    (he : alookup st.active_by_cid parts.cid = some existing)
    (hb : (login_times_match existing.login_time c.login_time &&
      existing.position_id == parts.position_id) = true) :
    RecInv m₀ { st with
      active_by_cid := aerase st.active_by_cid parts.cid,
      controller_actions := st.controller_actions ++
        [.updateExisting existing.controller_session_id c
          existing.callsign_session_id existing.position_session_id],
      active_callsign_ids := st.active_callsign_ids.insert existing.callsign_session_id,
      active_position_ids := st.active_position_ids.insert existing.position_id } := by
  obtain ⟨hsub, hkeys, hnodup, hsplit⟩ := consume_facts inv he
  have hm0 : (parts.cid, existing) ∈ m₀ := inv.sub _ (alookup_mem he)
  have hbb := hb
  rw [Bool.and_eq_true] at hbb
  have hbpos : existing.position_id = c.primary_position_id :=
    (beq_iff_eq.mp hbb.2).trans (parse_controller_parts_pos hp)
  constructor
  case sub => exact hsub
  case keys_nodup => exact hkeys
  case sids_nodup =>
    show (updCloseSids (st.controller_actions ++
      [.updateExisting existing.controller_session_id c
        existing.callsign_session_id existing.position_session_id]) ++
      mapSids (aerase st.active_by_cid parts.cid)).Nodup
    rw [updCloseSids_append]
    exact hnodup
  case upd_from =>
    intro sid' c' csId' psId' hmem
    rcases List.mem_append.mp hmem with hmem | hmem
    · exact inv.upd_from sid' c' csId' psId' hmem
    · obtain ⟨rfl, rfl, rfl, rfl⟩ :=
        ControllerAction.updateExisting.inj (List.mem_singleton.mp hmem)
      exact ⟨(parts.cid, existing), hm0, rfl, rfl, rfl, hbpos⟩
  case close_from =>
    intro sid' cid' csId' psId' cc' rs' hmem
    rcases List.mem_append.mp hmem with hmem | hmem
    · exact inv.close_from sid' cid' csId' psId' cc' rs' hmem
    · exact ControllerAction.noConfusion (List.mem_singleton.mp hmem)
  case create_pos =>
    intro c' key' pos' cid' hmem
    rcases List.mem_append.mp hmem with hmem | hmem
    · exact inv.create_pos c' key' pos' cid' hmem
    · exact ControllerAction.noConfusion (List.mem_singleton.mp hmem)
  case consumed =>
    intro en hen
    rcases inv.consumed en hen with hm | ⟨c', hupd⟩ | hcl
    · rcases hsplit en hm with hm' | rfl
      · exact Or.inl hm'
      · exact Or.inr (Or.inl ⟨c, List.mem_append_right _ (List.mem_singleton.mpr rfl)⟩)
    · exact Or.inr (Or.inl ⟨c', List.mem_append_left _ hupd⟩)
    · refine Or.inr (Or.inr ?_)
      rw [closeIdsOf_append]
      exact List.mem_append_left _ hcl
  case upd_seen =>
    intro sid' c' csId' psId' hmem
    rcases List.mem_append.mp hmem with hmem | hmem
    · obtain ⟨h1, h2⟩ := inv.upd_seen sid' c' csId' psId' hmem
      exact ⟨List.mem_insert_of_mem h1, List.mem_insert_of_mem h2⟩
    · obtain ⟨rfl, rfl, rfl, rfl⟩ :=
        ControllerAction.updateExisting.inj (List.mem_singleton.mp hmem)
      refine ⟨List.mem_insert_self .., ?_⟩
      rw [← hbpos]
      exact List.mem_insert_self ..
  case seen_cs =>
    intro id hid
    rcases List.mem_insert_iff.mp hid with rfl | hid
    · exact ⟨existing.controller_session_id, c, existing.position_session_id,
        List.mem_append_right _ (List.mem_singleton.mpr rfl)⟩
    · obtain ⟨sid', c', psId', hmem⟩ := inv.seen_cs id hid
      exact ⟨sid', c', psId', List.mem_append_left _ hmem⟩
  case seen_pos =>
    intro p hpm
    rcases List.mem_insert_iff.mp hpm with rfl | hpm
    · exact ⟨existing.controller_session_id, c, existing.callsign_session_id,
        existing.position_session_id,
        List.mem_append_right _ (List.mem_singleton.mpr rfl), hbpos.symm⟩
    · obtain ⟨sid', c', csId', psId', hmem, hcp⟩ := inv.seen_pos p hpm
      exact ⟨sid', c', csId', psId', List.mem_append_left _ hmem, hcp⟩

theorem recinv_two_mem {a1 a2 x : ControllerAction} (h : x ∈ [a1, a2]) : x = a1 ∨ x = a2 := by
  rcases List.mem_cons.mp h with rfl | h
  · exact Or.inl rfl
  · exact Or.inr (List.mem_singleton.mp h)

theorem recinv_reconnect {m₀ : List (Int × ActiveControllerState)} {st : ReconcileState}
    {c : Controller} {parts : ParsedController} {existing : ActiveControllerState}
    (inv : RecInv m₀ st) (hp : parse_controller_parts c = .ok parts)
    (he : alookup st.active_by_cid parts.cid = some existing) :
    RecInv m₀ { st with
      active_by_cid := aerase st.active_by_cid parts.cid,
      controller_actions := st.controller_actions ++
        [.close existing.controller_session_id parts.cid existing.callsign_session_id
           existing.position_session_id existing.connected_callsign
           .reconnectedOrChangedPosition,
         .createNew c (parts.pfx, parts.sfx) parts.position_id parts.cid] } := by
  obtain ⟨hsub, hkeys, hnodup, hsplit⟩ := consume_facts inv he
  have hm0 : (parts.cid, existing) ∈ m₀ := inv.sub _ (alookup_mem he)
  have hclosemem : ControllerAction.close existing.controller_session_id parts.cid
      existing.callsign_session_id existing.position_session_id
      existing.connected_callsign .reconnectedOrChangedPosition ∈
      st.controller_actions ++
      [.close existing.controller_session_id parts.cid existing.callsign_session_id
         existing.position_session_id existing.connected_callsign
         .reconnectedOrChangedPosition,
       .createNew c (parts.pfx, parts.sfx) parts.position_id parts.cid] :=
    List.mem_append_right _ (List.mem_cons_self ..)
  constructor
  case sub => exact hsub
  case keys_nodup => exact hkeys
  case sids_nodup =>
    show (updCloseSids (st.controller_actions ++ _) ++
      mapSids (aerase st.active_by_cid parts.cid)).Nodup
    rw [updCloseSids_append]
    exact hnodup
  case upd_from =>
    intro sid' c' csId' psId' hmem
    rcases List.mem_append.mp hmem with hmem | hmem
    · exact inv.upd_from sid' c' csId' psId' hmem
    · rcases recinv_two_mem hmem with h | h
      · exact ControllerAction.noConfusion h
      · exact ControllerAction.noConfusion h
  case close_from =>
    intro sid' cid' csId' psId' cc' rs' hmem
    rcases List.mem_append.mp hmem with hmem | hmem
    · exact inv.close_from sid' cid' csId' psId' cc' rs' hmem
    · rcases recinv_two_mem hmem with h | h
      · obtain ⟨rfl, rfl, rfl, rfl, rfl, rfl⟩ := ControllerAction.close.inj h
        exact ⟨(parts.cid, existing), hm0, rfl, rfl, rfl⟩
      · exact ControllerAction.noConfusion h
  case create_pos =>
    intro c' key' pos' cid' hmem
    rcases List.mem_append.mp hmem with hmem | hmem
    · exact inv.create_pos c' key' pos' cid' hmem
    · rcases recinv_two_mem hmem with h | h
      · exact ControllerAction.noConfusion h
      · obtain ⟨rfl, rfl, rfl, rfl⟩ := ControllerAction.createNew.inj h
        exact parse_controller_parts_pos hp
  case consumed =>
    intro en hen
    rcases inv.consumed en hen with hm | ⟨c', hupd⟩ | hcl
    · rcases hsplit en hm with hm' | rfl
      · exact Or.inl hm'
      · exact Or.inr (Or.inr (close_mem_closeIdsOf hclosemem))
    · exact Or.inr (Or.inl ⟨c', List.mem_append_left _ hupd⟩)
    · refine Or.inr (Or.inr ?_)
      rw [closeIdsOf_append]
      exact List.mem_append_left _ hcl
  case upd_seen =>
    intro sid' c' csId' psId' hmem
    rcases List.mem_append.mp hmem with hmem | hmem
    · exact inv.upd_seen sid' c' csId' psId' hmem
    · rcases recinv_two_mem hmem with h | h
      · exact ControllerAction.noConfusion h
      · exact ControllerAction.noConfusion h
  case seen_cs =>
    intro id hid
    obtain ⟨sid', c', psId', hmem⟩ := inv.seen_cs id hid
    exact ⟨sid', c', psId', List.mem_append_left _ hmem⟩
  case seen_pos =>
    intro p hpm
    obtain ⟨sid', c', csId', psId', hmem, hcp⟩ := inv.seen_pos p hpm
    exact ⟨sid', c', csId', psId', List.mem_append_left _ hmem, hcp⟩

theorem recinv_deactivate {m₀ : List (Int × ActiveControllerState)} {st : ReconcileState}
    {parts : ParsedController} {existing : ActiveControllerState}
    (inv : RecInv m₀ st)
    (he : alookup st.active_by_cid parts.cid = some existing) :
    RecInv m₀ { st with
      active_by_cid := aerase st.active_by_cid parts.cid,
      controller_actions := st.controller_actions ++
        [.close existing.controller_session_id parts.cid existing.callsign_session_id
           existing.position_session_id existing.connected_callsign
           .deactivatedPosition] } := by
  obtain ⟨hsub, hkeys, hnodup, hsplit⟩ := consume_facts inv he
  have hm0 : (parts.cid, existing) ∈ m₀ := inv.sub _ (alookup_mem he)
  constructor
  case sub => exact hsub
  case keys_nodup => exact hkeys
  case sids_nodup =>
    show (updCloseSids (st.controller_actions ++ _) ++
      mapSids (aerase st.active_by_cid parts.cid)).Nodup
    rw [updCloseSids_append]
    exact hnodup
  case upd_from =>
    intro sid' c' csId' psId' hmem
    rcases List.mem_append.mp hmem with hmem | hmem
    · exact inv.upd_from sid' c' csId' psId' hmem
    · exact ControllerAction.noConfusion (List.mem_singleton.mp hmem)
  case close_from =>
    intro sid' cid' csId' psId' cc' rs' hmem
    rcases List.mem_append.mp hmem with hmem | hmem
    · exact inv.close_from sid' cid' csId' psId' cc' rs' hmem
    · obtain ⟨rfl, rfl, rfl, rfl, rfl, rfl⟩ :=
        ControllerAction.close.inj (List.mem_singleton.mp hmem)
      exact ⟨(parts.cid, existing), hm0, rfl, rfl, rfl⟩
  case create_pos =>
    intro c' key' pos' cid' hmem
    rcases List.mem_append.mp hmem with hmem | hmem
    · exact inv.create_pos c' key' pos' cid' hmem
    · exact ControllerAction.noConfusion (List.mem_singleton.mp hmem)
  case consumed =>
    intro en hen
    rcases inv.consumed en hen with hm | ⟨c', hupd⟩ | hcl
    · rcases hsplit en hm with hm' | rfl
      · exact Or.inl hm'
      · exact Or.inr (Or.inr (close_mem_closeIdsOf
          (List.mem_append_right _ (List.mem_singleton.mpr rfl))))
    · exact Or.inr (Or.inl ⟨c', List.mem_append_left _ hupd⟩)
    · refine Or.inr (Or.inr ?_)
      rw [closeIdsOf_append]
      exact List.mem_append_left _ hcl
  case upd_seen =>
    intro sid' c' csId' psId' hmem
    rcases List.mem_append.mp hmem with hmem | hmem
    · exact inv.upd_seen sid' c' csId' psId' hmem
    · exact ControllerAction.noConfusion (List.mem_singleton.mp hmem)
  case seen_cs =>
    intro id hid
    obtain ⟨sid', c', psId', hmem⟩ := inv.seen_cs id hid
    exact ⟨sid', c', psId', List.mem_append_left _ hmem⟩
  case seen_pos =>
    intro p hpm
    obtain ⟨sid', c', csId', psId', hmem, hcp⟩ := inv.seen_pos p hpm
    exact ⟨sid', c', csId', psId', List.mem_append_left _ hmem, hcp⟩

theorem recinv_create {m₀ : List (Int × ActiveControllerState)} {st : ReconcileState}
    {c : Controller} {parts : ParsedController}
    (inv : RecInv m₀ st) (hp : parse_controller_parts c = .ok parts) :
    RecInv m₀ { st with
      controller_actions := st.controller_actions ++
        [.createNew c (parts.pfx, parts.sfx) parts.position_id parts.cid] } := by
  constructor
  case sub => exact inv.sub
  case keys_nodup => exact inv.keys_nodup
  case sids_nodup =>
    show (updCloseSids (st.controller_actions ++ _) ++ mapSids st.active_by_cid).Nodup
    rw [updCloseSids_append]
    have h1 : updCloseSids
        [ControllerAction.createNew c (parts.pfx, parts.sfx) parts.position_id parts.cid] =
        [] := rfl
    rw [h1, List.append_nil]
    exact inv.sids_nodup
  case upd_from =>
    intro sid' c' csId' psId' hmem
    rcases List.mem_append.mp hmem with hmem | hmem
    · exact inv.upd_from sid' c' csId' psId' hmem
    · exact ControllerAction.noConfusion (List.mem_singleton.mp hmem)
  case close_from =>
    intro sid' cid' csId' psId' cc' rs' hmem
    rcases List.mem_append.mp hmem with hmem | hmem
    · exact inv.close_from sid' cid' csId' psId' cc' rs' hmem
    · exact ControllerAction.noConfusion (List.mem_singleton.mp hmem)
  case create_pos =>
    intro c' key' pos' cid' hmem
    rcases List.mem_append.mp hmem with hmem | hmem
    · exact inv.create_pos c' key' pos' cid' hmem
    · obtain ⟨rfl, rfl, rfl, rfl⟩ :=
        ControllerAction.createNew.inj (List.mem_singleton.mp hmem)
      exact parse_controller_parts_pos hp
  case consumed =>
    intro en hen
    rcases inv.consumed en hen with hm | ⟨c', hupd⟩ | hcl
    · exact Or.inl hm
    · exact Or.inr (Or.inl ⟨c', List.mem_append_left _ hupd⟩)
    · refine Or.inr (Or.inr ?_)
      rw [closeIdsOf_append]
      exact List.mem_append_left _ hcl
  case upd_seen =>
    intro sid' c' csId' psId' hmem
    rcases List.mem_append.mp hmem with hmem | hmem
    · exact inv.upd_seen sid' c' csId' psId' hmem
    · exact ControllerAction.noConfusion (List.mem_singleton.mp hmem)
  case seen_cs =>
    intro id hid
    obtain ⟨sid', c', psId', hmem⟩ := inv.seen_cs id hid
    exact ⟨sid', c', psId', List.mem_append_left _ hmem⟩
  case seen_pos =>
    intro p hpm
    obtain ⟨sid', c', csId', psId', hmem, hcp⟩ := inv.seen_pos p hpm
    exact ⟨sid', c', csId', psId', List.mem_append_left _ hmem, hcp⟩

theorem reconcile_step_inv {m₀ : List (Int × ActiveControllerState)} {st : ReconcileState}
    (c : Controller) (inv : RecInv m₀ st) : RecInv m₀ (reconcile_step st c) := by
  rcases hp : parse_controller_parts c with e | parts
  · rw [reconcile_step_eq_parse_error st hp]
    exact inv
  · rcases ha : c.is_active with _ | _
    · rcases he : alookup st.active_by_cid parts.cid with _ | existing
      · rw [reconcile_step_eq_ignore st hp ha he]
        exact inv
      · rw [reconcile_step_eq_deactivate st hp ha he]
        exact recinv_deactivate inv he
    · rcases he : alookup st.active_by_cid parts.cid with _ | existing
      · rw [reconcile_step_eq_create st hp ha he]
        exact recinv_create inv hp
      · rcases hb : (login_times_match existing.login_time c.login_time &&
          existing.position_id == parts.position_id) with _ | _
        · rw [reconcile_step_eq_reconnect st hp ha he hb]
          exact recinv_reconnect inv hp he
        · rw [reconcile_step_eq_update st hp ha he hb]
          exact recinv_update inv hp he hb

theorem recinv_foldl {m₀ : List (Int × ActiveControllerState)}
    (controllers : List Controller) :
    ∀ st : ReconcileState, RecInv m₀ st →
    RecInv m₀ (controllers.foldl reconcile_step st) := by
  induction controllers with
  | nil =>
    intro st inv
    exact inv
  | cons c rest ih =>
    intro st inv
    rw [List.foldl_cons]
    exact ih _ (reconcile_step_inv c inv)

theorem recinv_init {m₀ : List (Int × ActiveControllerState)}
    (hkeys : (akeys m₀).Nodup) (hsids : (mapSids m₀).Nodup) :
    RecInv m₀ { active_by_cid := m₀, controller_actions := [],
                active_callsign_ids := [], active_position_ids := [] } := by
  constructor
  case sub => exact fun e he => he
  case keys_nodup => exact hkeys
  case sids_nodup => exact hsids
  case upd_from => exact fun sid c csId psId h => absurd h (List.not_mem_nil _)
  case close_from => exact fun sid cid csId psId cc rs h => absurd h (List.not_mem_nil _)
  case create_pos => exact fun c key pos cid h => absurd h (List.not_mem_nil _)
  case consumed => exact fun en hen => Or.inl hen
  case upd_seen => exact fun sid c csId psId h => absurd h (List.not_mem_nil _)
  case seen_cs => exact fun id h => absurd h (List.not_mem_nil _)
  case seen_pos => exact fun p h => absurd h (List.not_mem_nil _)

/-! ### Pointwise facts about the row transformers -/

theorem closeControllerRow_id (ids : List Nat) (t : Timestamp) (r : ControllerSessionRow) :
    (closeControllerRow ids t r).id = r.id := by
  rw [closeControllerRow]
  by_cases h : r.id ∈ ids <;> simp [h]

theorem closeControllerRow_of_notMem {ids : List Nat} {t : Timestamp}
    {r : ControllerSessionRow} (h : r.id ∉ ids) : closeControllerRow ids t r = r := by
  rw [closeControllerRow, if_neg h]

theorem closeControllerRow_of_mem {ids : List Nat} {t : Timestamp}
    {r : ControllerSessionRow} (h : r.id ∈ ids) :
    (closeControllerRow ids t r).is_active = false ∧
    (closeControllerRow ids t r).end_time = some t ∧
    (closeControllerRow ids t r).last_seen = t := by
  rw [closeControllerRow, if_pos h]
  exact ⟨rfl, rfl, rfl⟩

theorem closeControllerRow_active {ids : List Nat} {t : Timestamp}
    {r : ControllerSessionRow} (h : (closeControllerRow ids t r).is_active = true) :
    r.id ∉ ids ∧ closeControllerRow ids t r = r := by
  by_cases hm : r.id ∈ ids
  · rw [(closeControllerRow_of_mem hm).1] at h
    exact nomatch h
  · exact ⟨hm, closeControllerRow_of_notMem hm⟩

theorem updateControllerRow_skeleton (sid : Nat) (c : Controller) (t : Timestamp)
    (r : ControllerSessionRow) :
    (updateControllerRow sid c t r).id = r.id ∧
    (updateControllerRow sid c t r).cid = r.cid ∧
    (updateControllerRow sid c t r).is_active = r.is_active ∧
    (updateControllerRow sid c t r).callsign_session_id = r.callsign_session_id ∧
    (updateControllerRow sid c t r).position_session_id = r.position_session_id ∧
    (updateControllerRow sid c t r).login_time = r.login_time := by
  rw [updateControllerRow]
  by_cases h : r.id = sid <;> simp [h]

theorem updateControllerRow_of_ne {sid : Nat} {c : Controller} {t : Timestamp}
    {r : ControllerSessionRow} (h : r.id ≠ sid) : updateControllerRow sid c t r = r := by
  rw [updateControllerRow, if_neg h]

theorem updateControllerRow_pos {sid : Nat} {c : Controller} {t : Timestamp}
    {r : ControllerSessionRow} (h : r.primary_position_id = c.primary_position_id) :
    (updateControllerRow sid c t r).primary_position_id = r.primary_position_id := by
  rw [updateControllerRow]
  by_cases hid : r.id = sid <;> simp [hid, h]

theorem touchCallsignRow_skeleton (id : Nat) (t : Timestamp) (r : CallsignSessionRow) :
    (touchCallsignRow id t r).id = r.id ∧
    (touchCallsignRow id t r).is_active = r.is_active ∧
    (touchCallsignRow id t r).pfx = r.pfx ∧
    (touchCallsignRow id t r).sfx = r.sfx ∧
    (touchCallsignRow id t r).end_time = r.end_time := by
  rw [touchCallsignRow]
  by_cases h : r.id = id <;> simp [h]

theorem touchPositionRow_skeleton (id : Nat) (t : Timestamp) (r : PositionSessionRow) :
    (touchPositionRow id t r).id = r.id ∧
    (touchPositionRow id t r).is_active = r.is_active ∧
    (touchPositionRow id t r).position_id = r.position_id ∧
    (touchPositionRow id t r).end_time = r.end_time := by
  rw [touchPositionRow]
  by_cases h : r.id = id <;> simp [h]

theorem closeCallsignRow_id (ids : List Nat) (t : Timestamp) (r : CallsignSessionRow) :
    (closeCallsignRow ids t r).id = r.id := by
  rw [closeCallsignRow]
  by_cases h : r.id ∈ ids <;> simp [h]

theorem closeCallsignRow_of_notMem {ids : List Nat} {t : Timestamp}
    {r : CallsignSessionRow} (h : r.id ∉ ids) : closeCallsignRow ids t r = r := by
  rw [closeCallsignRow, if_neg h]

theorem closeCallsignRow_of_mem {ids : List Nat} {t : Timestamp}
    {r : CallsignSessionRow} (h : r.id ∈ ids) :
    (closeCallsignRow ids t r).is_active = false ∧
    (closeCallsignRow ids t r).end_time = some t ∧
    (closeCallsignRow ids t r).last_seen = t := by
  rw [closeCallsignRow, if_pos h]
  exact ⟨rfl, rfl, rfl⟩

theorem closeCallsignRow_active {ids : List Nat} {t : Timestamp}
    {r : CallsignSessionRow} (h : (closeCallsignRow ids t r).is_active = true) :
    r.id ∉ ids ∧ closeCallsignRow ids t r = r := by
  by_cases hm : r.id ∈ ids
  · rw [(closeCallsignRow_of_mem hm).1] at h
    exact nomatch h
  · exact ⟨hm, closeCallsignRow_of_notMem hm⟩

theorem closePositionRow_id (ids : List Nat) (t : Timestamp) (r : PositionSessionRow) :
    (closePositionRow ids t r).id = r.id := by
  rw [closePositionRow]
  by_cases h : r.id ∈ ids <;> simp [h]

theorem closePositionRow_of_notMem {ids : List Nat} {t : Timestamp}
    {r : PositionSessionRow} (h : r.id ∉ ids) : closePositionRow ids t r = r := by
  rw [closePositionRow, if_neg h]

theorem closePositionRow_of_mem {ids : List Nat} {t : Timestamp}
    {r : PositionSessionRow} (h : r.id ∈ ids) :
    (closePositionRow ids t r).is_active = false ∧
    (closePositionRow ids t r).end_time = some t ∧
    (closePositionRow ids t r).last_seen = t := by
  rw [closePositionRow, if_pos h]
  exact ⟨rfl, rfl, rfl⟩

theorem closePositionRow_active {ids : List Nat} {t : Timestamp}
    {r : PositionSessionRow} (h : (closePositionRow ids t r).is_active = true) :
    r.id ∉ ids ∧ closePositionRow ids t r = r := by
  by_cases hm : r.id ∈ ids
  · rw [(closePositionRow_of_mem hm).1] at h
    exact nomatch h
  · exact ⟨hm, closePositionRow_of_notMem hm⟩

theorem complete_controller_sessions_nil (db : Db) (t : Timestamp) :
    complete_controller_sessions db [] t = db := by
  rw [complete_controller_sessions]
  have hmap : db.controller_sessions.map (closeControllerRow [] t) =
      db.controller_sessions := by
    have : ∀ r ∈ db.controller_sessions, closeControllerRow [] t r = id r :=
      fun r _ => closeControllerRow_of_notMem (List.not_mem_nil r.id)
    rw [List.map_congr_left this, List.map_id]
  rw [hmap]

theorem updCloseSids_close_missing (m : List (Int × ActiveControllerState)) :
    updCloseSids (m.map close_missing) = mapSids m := by
  induction m with
  | nil => rfl
  | cons e rest ih =>
    show e.2.controller_session_id :: updCloseSids (rest.map close_missing) = _
    rw [ih]
    rfl

theorem reconcile_plan_ok {m₀ : List (Int × ActiveControllerState)}
    (controllers : List Controller)
    (hkeys : (akeys m₀).Nodup) (hsids : (mapSids m₀).Nodup) :
    PlanOK m₀ (reconcile m₀ controllers) := by
  have inv : RecInv m₀ (controllers.foldl reconcile_step
      { active_by_cid := m₀, controller_actions := [],
        active_callsign_ids := [], active_position_ids := [] }) :=
    recinv_foldl controllers _ (recinv_init hkeys hsids)
  set st := controllers.foldl reconcile_step
      { active_by_cid := m₀, controller_actions := [],
        active_callsign_ids := [], active_position_ids := [] } with hst
  have hacts : (reconcile m₀ controllers).controller_actions =
      st.controller_actions ++ st.active_by_cid.map close_missing := rfl
  have hseencs : (reconcile m₀ controllers).active_callsign_ids =
      st.active_callsign_ids := rfl
  have hseenps : (reconcile m₀ controllers).active_position_ids =
      st.active_position_ids := rfl
  have hmemsplit : ∀ {x : ControllerAction}, x ∈ (reconcile m₀ controllers).controller_actions →
      x ∈ st.controller_actions ∨ ∃ e ∈ st.active_by_cid, x = close_missing e := by
    intro x hx
    rw [hacts] at hx
    rcases List.mem_append.mp hx with hx | hx
    · exact Or.inl hx
    · obtain ⟨e, he, hxe⟩ := List.mem_map.mp hx
      exact Or.inr ⟨e, he, hxe.symm⟩
  constructor
  case upd_from =>
    intro sid c csId psId hmem
    rcases hmemsplit hmem with hmem | ⟨e, he, hxe⟩
    · exact inv.upd_from sid c csId psId hmem
    · exact ControllerAction.noConfusion hxe
  case close_from =>
    intro sid cid csId psId cc rs hmem
    rcases hmemsplit hmem with hmem | ⟨e, he, hxe⟩
    · exact inv.close_from sid cid csId psId cc rs hmem
    · obtain ⟨rfl, rfl, rfl, rfl, rfl, rfl⟩ := ControllerAction.close.inj hxe
      exact ⟨e, inv.sub e he, rfl, rfl, rfl⟩
  case create_pos =>
    intro c key pos cid hmem
    rcases hmemsplit hmem with hmem | ⟨e, he, hxe⟩
    · exact inv.create_pos c key pos cid hmem
    · exact ControllerAction.noConfusion hxe
  case sids_nodup =>
    rw [hacts, updCloseSids_append, updCloseSids_close_missing]
    exact inv.sids_nodup
  case consumed =>
    intro en hen
    rcases inv.consumed en hen with hm | ⟨c, hupd⟩ | hcl
    · right
      have hclosemem : ControllerAction.close en.2.controller_session_id en.1
          en.2.callsign_session_id en.2.position_session_id en.2.connected_callsign
          .missingFromDatafeed ∈ (reconcile m₀ controllers).controller_actions := by
        rw [hacts]
        exact List.mem_append_right _ (List.mem_map.mpr ⟨en, hm, rfl⟩)
      exact close_mem_closeIdsOf hclosemem
    · left
      refine ⟨c, ?_⟩
      rw [hacts]
      exact List.mem_append_left _ hupd
    · right
      rw [hacts, closeIdsOf_append]
      exact List.mem_append_left _ hcl
  case upd_seen =>
    intro sid c csId psId hmem
    rcases hmemsplit hmem with hmem | ⟨e, he, hxe⟩
    · rw [hseencs, hseenps]
      exact inv.upd_seen sid c csId psId hmem
    · exact ControllerAction.noConfusion hxe
  case seen_cs =>
    intro id hid
    rw [hseencs] at hid
    obtain ⟨sid, c, psId, hmem⟩ := inv.seen_cs id hid
    refine ⟨sid, c, psId, ?_⟩
    rw [hacts]
    exact List.mem_append_left _ hmem
  case seen_pos =>
    intro p hp
    rw [hseenps] at hp
    obtain ⟨sid, c, csId, psId, hmem, hcp⟩ := inv.seen_pos p hp
    refine ⟨sid, c, csId, psId, ?_, hcp⟩
    rw [hacts]
    exact List.mem_append_left _ hmem

theorem map_proj_eq {α β : Type} {f : α → α} {g : α → β} {l : List α}
    (h : ∀ x ∈ l, g (f x) = g x) : (l.map f).map g = l.map g := by
  rw [List.map_map]
  exact List.map_congr_left h

theorem binv_update {t : Timestamp} {loadedCs : List Nat} {loadedPos : List (String × Nat)}
    {st : ApplyState} {rest : List ControllerAction}
    {sid : Nat} {c : Controller} {csId psId : Nat}
    (inv : BInv t loadedCs loadedPos st
      (ControllerAction.updateExisting sid c csId psId :: rest)) :
    BInv t loadedCs loadedPos
      { st with
        db := update_active_controller_session
          (update_position_session_last_seen
            (update_callsign_session_last_seen st.db csId t) psId t) sid c t,
        active_callsign_ids := st.active_callsign_ids.insert csId,
        active_position_ids := st.active_position_ids.insert c.primary_position_id,
        trace := st.trace ++
          [.updateCallsignSeen csId, .updatePositionSeen psId, .updateController sid] }
      rest := by
  obtain ⟨r, hr, hract, hrid, hrcs, hrps, hrpos⟩ :=
    inv.upd_ok sid c csId psId (List.mem_cons_self ..)
  have hposeq : ∀ row ∈ st.db.controller_sessions,
      (updateControllerRow sid c t row).primary_position_id = row.primary_position_id := by
    intro row hrow
    by_cases hid : row.id = sid
    · have : row = r := eq_of_nodup_key inv.ctrl_nodup hrow hr (hid.trans hrid.symm)
      subst this
      exact updateControllerRow_pos hrpos
    · rw [updateControllerRow_of_ne hid]
  have hctrl : (update_active_controller_session
      (update_position_session_last_seen
        (update_callsign_session_last_seen st.db csId t) psId t) sid c t).controller_sessions =
      st.db.controller_sessions.map (updateControllerRow sid c t) := rfl
  have hcs : (update_active_controller_session
      (update_position_session_last_seen
        (update_callsign_session_last_seen st.db csId t) psId t) sid c t).callsign_sessions =
      st.db.callsign_sessions.map (touchCallsignRow csId t) := rfl
  have hps : (update_active_controller_session
      (update_position_session_last_seen
        (update_callsign_session_last_seen st.db csId t) psId t) sid c t).position_sessions =
      st.db.position_sessions.map (touchPositionRow psId t) := rfl
  constructor
  case ctrl_nodup =>
    rw [hctrl, map_proj_eq fun x _ => (updateControllerRow_skeleton sid c t x).1]
    exact inv.ctrl_nodup
  case cs_nodup =>
    rw [hcs, map_proj_eq fun x _ => (touchCallsignRow_skeleton csId t x).1]
    exact inv.cs_nodup
  case ps_nodup =>
    rw [hps, map_proj_eq fun x _ => (touchPositionRow_skeleton psId t x).1]
    exact inv.ps_nodup
  case ctrl_lt =>
    intro row hrow
    rw [hctrl] at hrow
    obtain ⟨x, hx, rfl⟩ := List.mem_map.mp hrow
    rw [(updateControllerRow_skeleton sid c t x).1]
    exact inv.ctrl_lt x hx
  case cs_lt =>
    intro row hrow
    rw [hcs] at hrow
    obtain ⟨x, hx, rfl⟩ := List.mem_map.mp hrow
    rw [(touchCallsignRow_skeleton csId t x).1]
    exact inv.cs_lt x hx
  case ps_lt =>
    intro row hrow
    rw [hps] at hrow
    obtain ⟨x, hx, rfl⟩ := List.mem_map.mp hrow
    rw [(touchPositionRow_skeleton psId t x).1]
    exact inv.ps_lt x hx
  case one_cid =>
    intro a ha b hb haa hba hcid
    rw [hctrl] at ha hb
    obtain ⟨x, hx, rfl⟩ := List.mem_map.mp ha
    obtain ⟨y, hy, rfl⟩ := List.mem_map.mp hb
    obtain ⟨hxid, hxcid, hxact, -, -, -⟩ := updateControllerRow_skeleton sid c t x
    obtain ⟨hyid, hycid, hyact, -, -, -⟩ := updateControllerRow_skeleton sid c t y
    rw [hxid, hyid]
    rw [hxact] at haa
    rw [hyact] at hba
    rw [hxcid, hycid] at hcid
    exact inv.one_cid x hx y hy haa hba hcid
  case one_cskey =>
    intro a ha b hb haa hba hpf hsf
    rw [hcs] at ha hb
    obtain ⟨x, hx, rfl⟩ := List.mem_map.mp ha
    obtain ⟨y, hy, rfl⟩ := List.mem_map.mp hb
    obtain ⟨hxid, hxact, hxp, hxs, -⟩ := touchCallsignRow_skeleton csId t x
    obtain ⟨hyid, hyact, hyp, hys, -⟩ := touchCallsignRow_skeleton csId t y
    rw [hxid, hyid]
    rw [hxact] at haa
    rw [hyact] at hba
    rw [hxp, hyp] at hpf
    rw [hxs, hys] at hsf
    exact inv.one_cskey x hx y hy haa hba hpf hsf
  case one_poskey =>
    intro a ha b hb haa hba hpos
    rw [hps] at ha hb
    obtain ⟨x, hx, rfl⟩ := List.mem_map.mp ha
    obtain ⟨y, hy, rfl⟩ := List.mem_map.mp hb
    obtain ⟨hxid, hxact, hxp, -⟩ := touchPositionRow_skeleton psId t x
    obtain ⟨hyid, hyact, hyp, -⟩ := touchPositionRow_skeleton psId t y
    rw [hxid, hyid]
    rw [hxact] at haa
    rw [hyact] at hba
    rw [hxp, hyp] at hpos
    exact inv.one_poskey x hx y hy haa hba hpos
  case ref_cs =>
    intro row hrow hact
    rw [hctrl] at hrow
    obtain ⟨x, hx, rfl⟩ := List.mem_map.mp hrow
    obtain ⟨-, -, hxact, hxcs, -, -⟩ := updateControllerRow_skeleton sid c t x
    rw [hxact] at hact
    obtain ⟨cs, hcsmem, hcsact, hcsid⟩ := inv.ref_cs x hx hact
    refine ⟨touchCallsignRow csId t cs, ?_, ?_, ?_⟩
    · rw [hcs]
      exact List.mem_map_of_mem _ hcsmem
    · rw [(touchCallsignRow_skeleton csId t cs).2.1]
      exact hcsact
    · rw [(touchCallsignRow_skeleton csId t cs).1, hxcs]
      exact hcsid
  case ref_ps =>
    intro row hrow hact
    rw [hctrl] at hrow
    obtain ⟨x, hx, rfl⟩ := List.mem_map.mp hrow
    obtain ⟨-, -, hxact, -, hxps, -⟩ := updateControllerRow_skeleton sid c t x
    rw [hxact] at hact
    obtain ⟨p, hpmem, hpact, hpid, hppos⟩ := inv.ref_ps x hx hact
    refine ⟨touchPositionRow psId t p, ?_, ?_, ?_, ?_⟩
    · rw [hps]
      exact List.mem_map_of_mem _ hpmem
    · rw [(touchPositionRow_skeleton psId t p).2.1]
      exact hpact
    · rw [(touchPositionRow_skeleton psId t p).1, hxps]
      exact hpid
    · rw [(touchPositionRow_skeleton psId t p).2.2.1, hposeq x hx]
      exact hppos
  case csMapOK =>
    intro e he
    obtain ⟨cs, hcsmem, hcsact, hcsid⟩ := inv.csMapOK e he
    refine ⟨touchCallsignRow csId t cs, ?_, ?_, ?_⟩
    · rw [hcs]
      exact List.mem_map_of_mem _ hcsmem
    · rw [(touchCallsignRow_skeleton csId t cs).2.1]
      exact hcsact
    · rw [(touchCallsignRow_skeleton csId t cs).1]
      exact hcsid
  case posMapOK =>
    intro e he
    obtain ⟨p, hpmem, hpact, hpid, hppos⟩ := inv.posMapOK e he
    refine ⟨touchPositionRow psId t p, ?_, ?_, ?_, ?_⟩
    · rw [hps]
      exact List.mem_map_of_mem _ hpmem
    · rw [(touchPositionRow_skeleton psId t p).2.1]
      exact hpact
    · rw [(touchPositionRow_skeleton psId t p).1]
      exact hpid
    · rw [(touchPositionRow_skeleton psId t p).2.2.1]
      exact hppos
  case posMapComplete =>
    intro p hpmem hpact
    rw [hps] at hpmem
    obtain ⟨x, hx, rfl⟩ := List.mem_map.mp hpmem
    obtain ⟨hxid, hxact, hxp, -⟩ := touchPositionRow_skeleton psId t x
    rw [hxact] at hpact
    rw [hxid, hxp]
    exact inv.posMapComplete x hx hpact
  case posKeysNodup => exact inv.posKeysNodup
  case posMapGrow => exact inv.posMapGrow
  case seen_cs =>
    intro id hid
    rcases List.mem_insert_iff.mp hid with rfl | hid
    · refine ⟨updateControllerRow sid c t r, ?_, ?_, ?_⟩
      · rw [hctrl]
        exact List.mem_map_of_mem _ hr
      · rw [(updateControllerRow_skeleton sid c t r).2.2.1]
        exact hract
      · rw [(updateControllerRow_skeleton sid c t r).2.2.2.1]
        exact hrcs
    · obtain ⟨x, hx, hxact, hxcs⟩ := inv.seen_cs id hid
      refine ⟨updateControllerRow sid c t x, ?_, ?_, ?_⟩
      · rw [hctrl]
        exact List.mem_map_of_mem _ hx
      · rw [(updateControllerRow_skeleton sid c t x).2.2.1]
        exact hxact
      · rw [(updateControllerRow_skeleton sid c t x).2.2.2.1]
        exact hxcs
  case seen_pos =>
    intro p hp
    rcases List.mem_insert_iff.mp hp with rfl | hp
    · refine ⟨updateControllerRow sid c t r, ?_, ?_, ?_⟩
      · rw [hctrl]
        exact List.mem_map_of_mem _ hr
      · rw [(updateControllerRow_skeleton sid c t r).2.2.1]
        exact hract
      · rw [hposeq r hr]
        exact hrpos
    · obtain ⟨x, hx, hxact, hxpos⟩ := inv.seen_pos p hp
      refine ⟨updateControllerRow sid c t x, ?_, ?_, ?_⟩
      · rw [hctrl]
        exact List.mem_map_of_mem _ hx
      · rw [(updateControllerRow_skeleton sid c t x).2.2.1]
        exact hxact
      · rw [hposeq x hx]
        exact hxpos
  case ctrl_seen =>
    intro row hrow hact
    rw [hctrl] at hrow
    obtain ⟨x, hx, rfl⟩ := List.mem_map.mp hrow
    obtain ⟨-, -, hxact, hxcs, -, -⟩ := updateControllerRow_skeleton sid c t x
    rw [hxact] at hact
    obtain ⟨h1, h2⟩ := inv.ctrl_seen x hx hact
    constructor
    · rw [hxcs]
      exact List.mem_insert_of_mem h1
    · rw [hposeq x hx]
      exact List.mem_insert_of_mem h2
  case cs_act_seen =>
    intro cs hcsmem hcsact
    rw [hcs] at hcsmem
    obtain ⟨x, hx, rfl⟩ := List.mem_map.mp hcsmem
    obtain ⟨hxid, hxact, -, -, -⟩ := touchCallsignRow_skeleton csId t x
    rw [hxact] at hcsact
    rw [hxid]
    rcases inv.cs_act_seen x hx hcsact with h | h
    · exact Or.inl h
    · exact Or.inr (List.mem_insert_of_mem h)
  case upd_ok =>
    intro sid' c' csId' psId' hmem
    obtain ⟨x, hx, hxact, hxid, hxcs, hxps, hxpos⟩ :=
      inv.upd_ok sid' c' csId' psId' (List.mem_cons_of_mem _ hmem)
    have hne : x.id ≠ sid := by
      intro hc
      have hnd := inv.upd_nodup
      have hhead : ((ControllerAction.updateExisting sid c csId psId :: rest).filterMap
          updSessionId) = sid :: rest.filterMap updSessionId := rfl
      rw [hhead, List.nodup_cons] at hnd
      apply hnd.1
      have heq : sid' = sid := hxid.symm.trans hc
      subst heq
      exact List.mem_filterMap.mpr ⟨_, hmem, rfl⟩
    refine ⟨updateControllerRow sid c t x, ?_, ?_, ?_, ?_, ?_, ?_⟩
    · rw [hctrl]
      exact List.mem_map_of_mem _ hx
    · rw [(updateControllerRow_skeleton sid c t x).2.2.1]
      exact hxact
    · rw [(updateControllerRow_skeleton sid c t x).1]
      exact hxid
    · rw [(updateControllerRow_skeleton sid c t x).2.2.2.1]
      exact hxcs
    · rw [(updateControllerRow_skeleton sid c t x).2.2.2.2.1]
      exact hxps
    · rw [updateControllerRow_of_ne hne]
      exact hxpos
  case upd_nodup =>
    have hhead : ((ControllerAction.updateExisting sid c csId psId :: rest).filterMap
        updSessionId) = sid :: rest.filterMap updSessionId := rfl
    have hnd := inv.upd_nodup
    rw [hhead, List.nodup_cons] at hnd
    exact hnd.2
  case create_pos =>
    intro c' key' pos' cid' hmem
    exact inv.create_pos c' key' pos' cid' (List.mem_cons_of_mem _ hmem)

theorem binv_close {t : Timestamp} {loadedCs : List Nat} {loadedPos : List (String × Nat)}
    {st : ApplyState} {rest : List ControllerAction} {sid : Nat} {cid : Int}
    {csId psId : Nat} {cc : String} {rs : ControllerCloseReason}
    (inv : BInv t loadedCs loadedPos st
      (ControllerAction.close sid cid csId psId cc rs :: rest)) :
    BInv t loadedCs loadedPos st rest :=
  { inv with
    upd_ok := fun sid' c' csId' psId' hmem =>
      inv.upd_ok sid' c' csId' psId' (List.mem_cons_of_mem _ hmem),
    upd_nodup := inv.upd_nodup,
    create_pos := fun c' key' pos' cid' hmem =>
      inv.create_pos c' key' pos' cid' (List.mem_cons_of_mem _ hmem) }

theorem ensure_callsign_session_facts {gen : Nat} {db : Db}
    {m : List ((String × String) × Nat)} {key : String × String} {t : Timestamp}
    {id : Nat} {created : Bool} {gen' : Nat} {db' : Db}
    {m' : List ((String × String) × Nat)} {ops : List DbOp}
    (h : ensure_callsign_session gen db m key t = (id, created, gen', db', m', ops))
    (hnodup : (db.callsign_sessions.map (·.id)).Nodup)
    (hlt : ∀ r ∈ db.callsign_sessions, r.id < gen)
    (honekey : ∀ r ∈ db.callsign_sessions, ∀ s ∈ db.callsign_sessions,
      r.is_active = true → s.is_active = true → r.pfx = s.pfx → r.sfx = s.sfx → r.id = s.id)
    (hmapOK : ∀ e ∈ m, ∃ c ∈ db.callsign_sessions, c.is_active = true ∧ c.id = e.2) :
    EnsureCsFacts gen db id gen' db' m' := by
  have htouch : ∀ tid : Nat, ∀ P : EnsureCsFacts gen db id gen' db' m' → True, True :=
    fun _ _ => trivial
  clear htouch
  rcases ha : alookup m key with _ | id0
  · rcases hfind : db.callsign_sessions.find? fun r =>
        r.is_active && r.pfx == key.1 && r.sfx == key.2 with _ | row
    · -- miss in the map, miss in the table: a fresh row is inserted
      simp only [ensure_callsign_session, ha, get_or_create_callsign_session, hfind,
        Prod.mk.injEq] at h
      obtain ⟨rfl, rfl, rfl, rfl, rfl, rfl⟩ := h
      have hfresh : ∀ x ∈ db.callsign_sessions,
          ¬(x.is_active && x.pfx == key.1 && x.sfx == key.2) = true :=
        fun x hx => List.find?_eq_none.mp hfind x hx
      have hnotkey : ∀ x ∈ db.callsign_sessions, x.is_active = true →
          ¬(x.pfx = key.1 ∧ x.sfx = key.2) := by
        intro x hx hact hc
        exact hfresh x hx (by simp [hact, hc.1, hc.2])
      constructor
      case ctrl_eq => rfl
      case ps_eq => rfl
      case gen_le => exact Nat.le_succ gen
      case nodup =>
        dsimp only
        rw [List.map_append, List.nodup_append]
        refine ⟨hnodup, List.nodup_singleton _, ?_⟩
        intro a hamem hbmem
        obtain ⟨r, hr, rfl⟩ := List.mem_map.mp hamem
        have : r.id = gen := List.mem_singleton.mp hbmem
        exact absurd (this ▸ hlt r hr) (Nat.lt_irrefl gen)
      case lt =>
        intro r hr
        rcases List.mem_append.mp hr with hr | hr
        · exact Nat.lt_succ_of_lt (hlt r hr)
        · rw [List.mem_singleton.mp hr]
          exact Nat.lt_succ_self gen
      case onekey =>
        intro r hr s hs hra hsa hp hsx
        rcases List.mem_append.mp hr with hr | hr <;>
          rcases List.mem_append.mp hs with hs | hs
        · exact honekey r hr s hs hra hsa hp hsx
        · obtain rfl := List.mem_singleton.mp hs
          exact absurd ⟨hp, hsx⟩ (hnotkey r hr hra)
        · obtain rfl := List.mem_singleton.mp hr
          exact absurd ⟨hp.symm, hsx.symm⟩ (hnotkey s hs hsa)
        · rw [List.mem_singleton.mp hr, List.mem_singleton.mp hs]
      case mapOK =>
        intro e he
        rw [ainsert, List.mem_cons] at he
        rcases he with rfl | he
        · refine ⟨_, List.mem_append_right _ (List.mem_singleton.mpr rfl), ?_, ?_⟩
          · rfl
          · rfl
        · obtain ⟨c, hc, hca, hcid⟩ := hmapOK e (aerase_subset he)
          exact ⟨c, List.mem_append_left _ hc, hca, hcid⟩
      case target =>
        refine ⟨_, List.mem_append_right _ (List.mem_singleton.mpr rfl), ?_, ?_⟩
        · rfl
        · rfl
      case preserve =>
        intro r hr
        exact ⟨r, List.mem_append_left _ hr, rfl, rfl⟩
      case reflect =>
        intro r' hr' hact
        rcases List.mem_append.mp hr' with hr' | hr'
        · exact Or.inl ⟨r', hr', hact, rfl⟩
        · obtain rfl := List.mem_singleton.mp hr'
          exact Or.inr rfl
    · -- miss in the map, hit in the table: reuse the found row
      simp only [ensure_callsign_session, ha, get_or_create_callsign_session, hfind,
        Prod.mk.injEq] at h
      obtain ⟨rfl, rfl, rfl, rfl, rfl, rfl⟩ := h
      have hrowmem : row ∈ db.callsign_sessions := List.mem_of_find?_eq_some hfind
      have hrowp := List.find?_some hfind
      rw [Bool.and_eq_true, Bool.and_eq_true] at hrowp
      have hrowact : row.is_active = true := hrowp.1.1
      constructor
      case ctrl_eq => rfl
      case ps_eq => rfl
      case gen_le => exact Nat.le_refl gen
      case nodup =>
        show ((db.callsign_sessions.map (touchCallsignRow row.id t)).map (·.id)).Nodup
        rw [map_proj_eq fun x _ => (touchCallsignRow_skeleton row.id t x).1]
        exact hnodup
      case lt =>
        intro r hr
        obtain ⟨x, hx, rfl⟩ := List.mem_map.mp hr
        rw [(touchCallsignRow_skeleton row.id t x).1]
        exact hlt x hx
      case onekey =>
        intro r hr s hs hra hsa hp hsx
        obtain ⟨x, hx, rfl⟩ := List.mem_map.mp hr
        obtain ⟨y, hy, rfl⟩ := List.mem_map.mp hs
        obtain ⟨hxid, hxact, hxp, hxs, -⟩ := touchCallsignRow_skeleton row.id t x
        obtain ⟨hyid, hyact, hyp, hys, -⟩ := touchCallsignRow_skeleton row.id t y
        rw [hxid, hyid]
        rw [hxact] at hra
        rw [hyact] at hsa
        rw [hxp, hyp] at hp
        rw [hxs, hys] at hsx
        exact honekey x hx y hy hra hsa hp hsx
      case mapOK =>
        intro e he
        rw [ainsert, List.mem_cons] at he
        rcases he with rfl | he
        · refine ⟨touchCallsignRow row.id t row, List.mem_map_of_mem _ hrowmem, ?_, ?_⟩
          · rw [(touchCallsignRow_skeleton row.id t row).2.1]
            exact hrowact
          · rw [(touchCallsignRow_skeleton row.id t row).1]
        · obtain ⟨c, hc, hca, hcid⟩ := hmapOK e (aerase_subset he)
          refine ⟨touchCallsignRow row.id t c, List.mem_map_of_mem _ hc, ?_, ?_⟩
          · rw [(touchCallsignRow_skeleton row.id t c).2.1]
            exact hca
          · rw [(touchCallsignRow_skeleton row.id t c).1]
            exact hcid
      case target =>
        refine ⟨touchCallsignRow row.id t row, List.mem_map_of_mem _ hrowmem, ?_, ?_⟩
        · rw [(touchCallsignRow_skeleton row.id t row).2.1]
          exact hrowact
        · rw [(touchCallsignRow_skeleton row.id t row).1]
      case preserve =>
        intro r hr
        exact ⟨touchCallsignRow row.id t r, List.mem_map_of_mem _ hr,
          (touchCallsignRow_skeleton row.id t r).1,
          (touchCallsignRow_skeleton row.id t r).2.1⟩
      case reflect =>
        intro r' hr' hact
        obtain ⟨x, hx, rfl⟩ := List.mem_map.mp hr'
        obtain ⟨hxid, hxact, -, -, -⟩ := touchCallsignRow_skeleton row.id t x
        rw [hxact] at hact
        exact Or.inl ⟨x, hx, hact, hxid.symm⟩
  · -- hit in the map: touch the mapped session
    simp only [ensure_callsign_session, ha, Prod.mk.injEq] at h
    obtain ⟨rfl, rfl, rfl, rfl, rfl, rfl⟩ := h
    obtain ⟨crow, hcrow, hcact, hcid⟩ := hmapOK (key, id0) (alookup_mem ha)
    constructor
    case ctrl_eq => rfl
    case ps_eq => rfl
    case gen_le => exact Nat.le_refl gen
    case nodup =>
      show ((db.callsign_sessions.map (touchCallsignRow id0 t)).map (·.id)).Nodup
      rw [map_proj_eq fun x _ => (touchCallsignRow_skeleton id0 t x).1]
      exact hnodup
    case lt =>
      intro r hr
      obtain ⟨x, hx, rfl⟩ := List.mem_map.mp hr
      rw [(touchCallsignRow_skeleton id0 t x).1]
      exact hlt x hx
    case onekey =>
      intro r hr s hs hra hsa hp hsx
      obtain ⟨x, hx, rfl⟩ := List.mem_map.mp hr
      obtain ⟨y, hy, rfl⟩ := List.mem_map.mp hs
      obtain ⟨hxid, hxact, hxp, hxs, -⟩ := touchCallsignRow_skeleton id0 t x
      obtain ⟨hyid, hyact, hyp, hys, -⟩ := touchCallsignRow_skeleton id0 t y
      rw [hxid, hyid]
      rw [hxact] at hra
      rw [hyact] at hsa
      rw [hxp, hyp] at hp
      rw [hxs, hys] at hsx
      exact honekey x hx y hy hra hsa hp hsx
    case mapOK =>
      intro e he
      obtain ⟨c, hc, hca, hcide⟩ := hmapOK e he
      refine ⟨touchCallsignRow id0 t c, List.mem_map_of_mem _ hc, ?_, ?_⟩
      · rw [(touchCallsignRow_skeleton id0 t c).2.1]
        exact hca
      · rw [(touchCallsignRow_skeleton id0 t c).1]
        exact hcide
    case target =>
      refine ⟨touchCallsignRow id0 t crow, List.mem_map_of_mem _ hcrow, ?_, ?_⟩
      · rw [(touchCallsignRow_skeleton id0 t crow).2.1]
        exact hcact
      · rw [(touchCallsignRow_skeleton id0 t crow).1]
        exact hcid
    case preserve =>
      intro r hr
      exact ⟨touchCallsignRow id0 t r, List.mem_map_of_mem _ hr,
        (touchCallsignRow_skeleton id0 t r).1,
        (touchCallsignRow_skeleton id0 t r).2.1⟩
    case reflect =>
      intro r' hr' hact
      obtain ⟨x, hx, rfl⟩ := List.mem_map.mp hr'
      obtain ⟨hxid, hxact, -, -, -⟩ := touchCallsignRow_skeleton id0 t x
      rw [hxact] at hact
      exact Or.inl ⟨x, hx, hact, hxid.symm⟩

theorem ensure_position_session_facts {gen : Nat} {db : Db}
    {m : List (String × Nat)} {pos : String} {t : Timestamp}
    {id : Nat} {created : Bool} {gen' : Nat} {db' : Db}
    {m' : List (String × Nat)} {ops : List DbOp}
    (h : ensure_position_session gen db m pos t = (id, created, gen', db', m', ops))
    (hnodup : (db.position_sessions.map (·.id)).Nodup)
    (hlt : ∀ r ∈ db.position_sessions, r.id < gen)
    (honekey : ∀ r ∈ db.position_sessions, ∀ s ∈ db.position_sessions,
      r.is_active = true → s.is_active = true → r.position_id = s.position_id → r.id = s.id)
    (hmapOK : ∀ e ∈ m, ∃ p ∈ db.position_sessions,
      p.is_active = true ∧ p.id = e.2 ∧ p.position_id = e.1)
    (hcomplete : ∀ p ∈ db.position_sessions, p.is_active = true →
      alookup m p.position_id = some p.id)
    (hkeys : (akeys m).Nodup) :
    EnsurePsFacts gen db pos id gen' db' m m' := by
  rcases ha : alookup m pos with _ | id0
  · rcases hfind : db.position_sessions.find? fun r =>
        r.is_active && r.position_id == pos with _ | row
    · -- miss in the map, miss in the table: a fresh row is inserted
      simp only [ensure_position_session, ha, get_or_create_position_session, hfind,
        Prod.mk.injEq] at h
      obtain ⟨rfl, rfl, rfl, rfl, rfl, rfl⟩ := h
      have hfresh : ∀ x ∈ db.position_sessions,
          ¬(x.is_active && x.position_id == pos) = true :=
        fun x hx => List.find?_eq_none.mp hfind x hx
      have hnotkey : ∀ x ∈ db.position_sessions, x.is_active = true →
          x.position_id ≠ pos := by
        intro x hx hact hc
        exact hfresh x hx (by simp [hact, hc])
      have hnokey : ∀ e ∈ m, e.1 ≠ pos := by
        intro e he hc
        have := alookup_eq_none.mp ha e.2
        rw [← hc] at this
        exact this he
      constructor
      case ctrl_eq => rfl
      case cs_eq => rfl
      case gen_le => exact Nat.le_succ gen
      case nodup =>
        dsimp only
        rw [List.map_append, List.nodup_append]
        refine ⟨hnodup, List.nodup_singleton _, ?_⟩
        intro a hamem hbmem
        obtain ⟨r, hr, rfl⟩ := List.mem_map.mp hamem
        have : r.id = gen := List.mem_singleton.mp hbmem
        exact absurd (this ▸ hlt r hr) (Nat.lt_irrefl gen)
      case lt =>
        intro r hr
        rcases List.mem_append.mp hr with hr | hr
        · exact Nat.lt_succ_of_lt (hlt r hr)
        · rw [List.mem_singleton.mp hr]
          exact Nat.lt_succ_self gen
      case onekey =>
        intro r hr s hs hra hsa hp
        rcases List.mem_append.mp hr with hr | hr <;>
          rcases List.mem_append.mp hs with hs | hs
        · exact honekey r hr s hs hra hsa hp
        · obtain rfl := List.mem_singleton.mp hs
          exact absurd hp (hnotkey r hr hra)
        · obtain rfl := List.mem_singleton.mp hr
          exact absurd hp.symm (hnotkey s hs hsa)
        · rw [List.mem_singleton.mp hr, List.mem_singleton.mp hs]
      case mapOK =>
        intro e he
        rw [ainsert, List.mem_cons] at he
        rcases he with rfl | he
        · refine ⟨_, List.mem_append_right _ (List.mem_singleton.mpr rfl), ?_, ?_, ?_⟩
          · rfl
          · rfl
          · rfl
        · obtain ⟨p, hp, hpa, hpid, hppos⟩ := hmapOK e (aerase_subset he)
          exact ⟨p, List.mem_append_left _ hp, hpa, hpid, hppos⟩
      case complete =>
        intro p hp hact
        rcases List.mem_append.mp hp with hp | hp
        · have hne : pos ≠ p.position_id := fun hc => hnotkey p hp hact hc.symm
          rw [alookup_ainsert_ne m pos p.position_id gen hne]
          exact hcomplete p hp hact
        · obtain rfl := List.mem_singleton.mp hp
          exact alookup_ainsert_self m pos gen
      case keysNodup => exact akeys_nodup_ainsert pos gen hkeys
      case grow =>
        intro e he
        rw [ainsert, List.mem_cons]
        exact Or.inr (mem_aerase.mpr ⟨he, hnokey e he⟩)
      case target =>
        refine ⟨_, List.mem_append_right _ (List.mem_singleton.mpr rfl), ?_, ?_, ?_⟩
        · rfl
        · rfl
        · rfl
      case preserve =>
        intro r hr
        exact ⟨r, List.mem_append_left _ hr, rfl, rfl, rfl⟩
    · -- miss in the map, hit in the table: impossible, the map is complete
      have hrowp := List.find?_some hfind
      rw [Bool.and_eq_true] at hrowp
      have hposid : row.position_id = pos := by
        have hb := hrowp.2
        exact beq_iff_eq.mp hb
      have hc := hcomplete row (List.mem_of_find?_eq_some hfind) hrowp.1
      rw [hposid, ha] at hc
      exact nomatch hc
  · -- hit in the map: touch the mapped session
    simp only [ensure_position_session, ha, Prod.mk.injEq] at h
    obtain ⟨rfl, rfl, rfl, rfl, rfl, rfl⟩ := h
    obtain ⟨prow, hprow, hpact, hpid, hppos⟩ := hmapOK (pos, id0) (alookup_mem ha)
    constructor
    case ctrl_eq => rfl
    case cs_eq => rfl
    case gen_le => exact Nat.le_refl gen
    case nodup =>
      show ((db.position_sessions.map (touchPositionRow id0 t)).map (·.id)).Nodup
      rw [map_proj_eq fun x _ => (touchPositionRow_skeleton id0 t x).1]
      exact hnodup
    case lt =>
      intro r hr
      obtain ⟨x, hx, rfl⟩ := List.mem_map.mp hr
      rw [(touchPositionRow_skeleton id0 t x).1]
      exact hlt x hx
    case onekey =>
      intro r hr s hs hra hsa hp
      obtain ⟨x, hx, rfl⟩ := List.mem_map.mp hr
      obtain ⟨y, hy, rfl⟩ := List.mem_map.mp hs
      obtain ⟨hxid, hxact, hxp, -⟩ := touchPositionRow_skeleton id0 t x
      obtain ⟨hyid, hyact, hyp, -⟩ := touchPositionRow_skeleton id0 t y
      rw [hxid, hyid]
      rw [hxact] at hra
      rw [hyact] at hsa
      rw [hxp, hyp] at hp
      exact honekey x hx y hy hra hsa hp
    case mapOK =>
      intro e he
      obtain ⟨p, hp, hpa, hpide, hppose⟩ := hmapOK e he
      refine ⟨touchPositionRow id0 t p, List.mem_map_of_mem _ hp, ?_, ?_, ?_⟩
      · rw [(touchPositionRow_skeleton id0 t p).2.1]
        exact hpa
      · rw [(touchPositionRow_skeleton id0 t p).1]
        exact hpide
      · rw [(touchPositionRow_skeleton id0 t p).2.2.1]
        exact hppose
    case complete =>
      intro p hp hact
      obtain ⟨x, hx, rfl⟩ := List.mem_map.mp hp
      obtain ⟨hxid, hxact, hxp, -⟩ := touchPositionRow_skeleton id0 t x
      rw [hxact] at hact
      rw [hxid, hxp]
      exact hcomplete x hx hact
    case keysNodup => exact hkeys
    case grow => exact fun e he => he
    case target =>
      refine ⟨touchPositionRow id0 t prow, List.mem_map_of_mem _ hprow, ?_, ?_, ?_⟩
      · rw [(touchPositionRow_skeleton id0 t prow).2.1]
        exact hpact
      · rw [(touchPositionRow_skeleton id0 t prow).1]
        exact hpid
      · rw [(touchPositionRow_skeleton id0 t prow).2.2.1]
        exact hppos
    case preserve =>
      intro r hr
      exact ⟨touchPositionRow id0 t r, List.mem_map_of_mem _ hr,
        (touchPositionRow_skeleton id0 t r).1,
        (touchPositionRow_skeleton id0 t r).2.1,
        (touchPositionRow_skeleton id0 t r).2.2.1⟩

theorem insert_controller_session_ok {gen : Nat} {db : Db} {c : Controller} {cid : Int}
    {t : Timestamp} {csId psId : Nat} {ctrlId gen' : Nat} {db' : Db}
    (h : insert_controller_session gen db c cid t csId psId = .ok (ctrlId, gen', db')) :
    ctrlId = gen ∧ gen' = gen + 1 ∧
    db'.callsign_sessions = db.callsign_sessions ∧
    db'.position_sessions = db.position_sessions ∧
    (∃ nr : ControllerSessionRow,
      db'.controller_sessions = db.controller_sessions ++ [nr] ∧
      nr.id = gen ∧ nr.cid = cid ∧ nr.is_active = true ∧
      nr.callsign_session_id = csId ∧ nr.position_session_id = psId ∧
      nr.primary_position_id = c.primary_position_id ∧ nr.login_time = c.login_time ∧
      nr.start_time = t ∧ nr.end_time = none) ∧
    (∀ r ∈ db.controller_sessions, r.is_active = true → r.cid ≠ cid) := by
  rw [insert_controller_session] at h
  by_cases hb : (db.controller_sessions.any fun r => r.is_active && r.cid == cid) = true
  · rw [if_pos hb] at h
    exact nomatch h
  · rw [if_neg hb] at h
    have h' := Except.ok.inj h
    simp only [Prod.mk.injEq] at h'
    obtain ⟨rfl, rfl, rfl⟩ := h'
    refine ⟨rfl, rfl, rfl, rfl, ⟨_, rfl, rfl, rfl, rfl, rfl, rfl, rfl, rfl, rfl, rfl⟩, ?_⟩
    intro r hr hact hc
    exact hb (List.any_eq_true.mpr ⟨r, hr, by simp [hact, hc]⟩)

theorem binv_create {t : Timestamp} {loadedCs : List Nat} {loadedPos : List (String × Nat)}
    {st : ApplyState} {rest : List ControllerAction}
    {c : Controller} {key : String × String} {pos : String} {cid : Int} {st' : ApplyState}
    (inv : BInv t loadedCs loadedPos st (ControllerAction.createNew c key pos cid :: rest))
    (happ : apply_action st (ControllerAction.createNew c key pos cid) t = .ok st') :
    BInv t loadedCs loadedPos st' rest := by
  have hpos : pos = c.primary_position_id :=
    inv.create_pos c key pos cid (List.mem_cons_self ..)
  rcases hE1 : ensure_callsign_session st.gen st.db st.csMap key t with
    ⟨csId, csCreated, gen1, db1, csMap1, ops1⟩
  rcases hE2 : ensure_position_session gen1 db1 st.posMap pos t with
    ⟨psId, psCreated, gen2, db2, posMap1, ops2⟩
  simp only [apply_action, hE1, hE2] at happ
  rcases hI : insert_controller_session gen2 db2 c cid t csId psId with e | tup
  · rw [hI] at happ
    exact nomatch happ
  · obtain ⟨ctrlId, gen3, db3⟩ := tup
    simp only [hI] at happ
    obtain rfl := Except.ok.inj happ
    have hcs := ensure_callsign_session_facts hE1 inv.cs_nodup inv.cs_lt inv.one_cskey
      inv.csMapOK
    have hpsn : (db1.position_sessions.map (·.id)).Nodup := by
      rw [hcs.ps_eq]
      exact inv.ps_nodup
    have hpslt : ∀ r ∈ db1.position_sessions, r.id < gen1 := by
      rw [hcs.ps_eq]
      exact fun r hr => Nat.lt_of_lt_of_le (inv.ps_lt r hr) hcs.gen_le
    have hpsok : ∀ r ∈ db1.position_sessions, ∀ s ∈ db1.position_sessions,
        r.is_active = true → s.is_active = true → r.position_id = s.position_id →
        r.id = s.id := by
      rw [hcs.ps_eq]
      exact inv.one_poskey
    have hpsmap : ∀ e ∈ st.posMap, ∃ p ∈ db1.position_sessions,
        p.is_active = true ∧ p.id = e.2 ∧ p.position_id = e.1 := by
      rw [hcs.ps_eq]
      exact inv.posMapOK
    have hpscomp : ∀ p ∈ db1.position_sessions, p.is_active = true →
        alookup st.posMap p.position_id = some p.id := by
      rw [hcs.ps_eq]
      exact inv.posMapComplete
    have hps := ensure_position_session_facts hE2 hpsn hpslt hpsok hpsmap hpscomp
      inv.posKeysNodup
    obtain ⟨-, rfl, hIcs, hIps, ⟨nr, hInr, hnrid, hnrcid, hnract, hnrcs, hnrps, hnrpos,
      hnrlogin, hnrstart, hnrend⟩, hIno⟩ := insert_controller_session_ok hI
    have hctrl2 : db2.controller_sessions = st.db.controller_sessions := by
      rw [hps.ctrl_eq, hcs.ctrl_eq]
    have hctrl3 : db3.controller_sessions = st.db.controller_sessions ++ [nr] := by
      rw [hInr, hctrl2]
    have hcs3 : db3.callsign_sessions = db1.callsign_sessions := by
      rw [hIcs, hps.cs_eq]
    have hps3 : db3.position_sessions = db2.position_sessions := hIps
    have hnoact : ∀ r ∈ st.db.controller_sessions, r.is_active = true → r.cid ≠ cid := by
      rw [← hctrl2]
      exact hIno
    have hgen13 : gen1 ≤ gen2 + 1 := Nat.le_succ_of_le hps.gen_le
    have hgen03 : st.gen ≤ gen2 + 1 := Nat.le_trans hcs.gen_le hgen13
    constructor
    case ctrl_nodup =>
      show ((db3.controller_sessions).map (·.id)).Nodup
      rw [hctrl3, List.map_append, List.nodup_append]
      refine ⟨inv.ctrl_nodup, List.nodup_singleton _, ?_⟩
      intro a hamem hbmem
      obtain ⟨r, hr, rfl⟩ := List.mem_map.mp hamem
      have ha : r.id = nr.id := List.mem_singleton.mp hbmem
      have hlt : r.id < st.gen := inv.ctrl_lt r hr
      rw [ha, hnrid] at hlt
      exact absurd hlt (Nat.not_lt.mpr (Nat.le_trans hcs.gen_le hps.gen_le))
    case cs_nodup =>
      show ((db3.callsign_sessions).map (·.id)).Nodup
      rw [hcs3]
      exact hcs.nodup
    case ps_nodup =>
      show ((db3.position_sessions).map (·.id)).Nodup
      rw [hps3]
      exact hps.nodup
    case ctrl_lt =>
      show ∀ r ∈ db3.controller_sessions, r.id < gen2 + 1
      rw [hctrl3]
      intro r hr
      rcases List.mem_append.mp hr with hr | hr
      · exact Nat.lt_of_lt_of_le (inv.ctrl_lt r hr) hgen03
      · rw [List.mem_singleton.mp hr, hnrid]
        exact Nat.lt_succ_self gen2
    case cs_lt =>
      show ∀ r ∈ db3.callsign_sessions, r.id < gen2 + 1
      rw [hcs3]
      exact fun r hr => Nat.lt_of_lt_of_le (hcs.lt r hr) hgen13
    case ps_lt =>
      show ∀ r ∈ db3.position_sessions, r.id < gen2 + 1
      rw [hps3]
      exact fun r hr => Nat.lt_of_lt_of_le (hps.lt r hr) (Nat.le_succ gen2)
    case one_cid =>
      show ∀ r ∈ db3.controller_sessions, ∀ s ∈ db3.controller_sessions, _
      rw [hctrl3]
      intro r hr s hs hra hsa hc
      rcases List.mem_append.mp hr with hr1 | hr1 <;>
        rcases List.mem_append.mp hs with hs1 | hs1
      · exact inv.one_cid r hr1 s hs1 hra hsa hc
      · have hseq : s = nr := List.mem_singleton.mp hs1
        rw [hseq, hnrcid] at hc
        exact absurd hc (hnoact r hr1 hra)
      · have hreq : r = nr := List.mem_singleton.mp hr1
        rw [hreq, hnrcid] at hc
        exact absurd hc.symm (hnoact s hs1 hsa)
      · rw [List.mem_singleton.mp hr1, List.mem_singleton.mp hs1]
    case one_cskey =>
      show ∀ r ∈ db3.callsign_sessions, ∀ s ∈ db3.callsign_sessions, _
      rw [hcs3]
      exact hcs.onekey
    case one_poskey =>
      show ∀ r ∈ db3.position_sessions, ∀ s ∈ db3.position_sessions, _
      rw [hps3]
      exact hps.onekey
    case ref_cs =>
      show ∀ r ∈ db3.controller_sessions, r.is_active = true →
        ∃ cc ∈ db3.callsign_sessions, cc.is_active = true ∧ cc.id = r.callsign_session_id
      rw [hctrl3, hcs3]
      intro r hr hact
      rcases List.mem_append.mp hr with hr | hr
      · obtain ⟨cc, hcc, hcca, hccid⟩ := inv.ref_cs r hr hact
        obtain ⟨cc', hcc', hid', hact'⟩ := hcs.preserve cc hcc
        refine ⟨cc', hcc', ?_, hid'.trans hccid⟩
        rw [hact']
        exact hcca
      · obtain rfl := List.mem_singleton.mp hr
        obtain ⟨cc, hcc, hcca, hccid⟩ := hcs.target
        exact ⟨cc, hcc, hcca, hccid.trans hnrcs.symm⟩
    case ref_ps =>
      show ∀ r ∈ db3.controller_sessions, r.is_active = true →
        ∃ p ∈ db3.position_sessions, p.is_active = true ∧ p.id = r.position_session_id ∧
          p.position_id = r.primary_position_id
      rw [hctrl3, hps3]
      intro r hr hact
      rcases List.mem_append.mp hr with hr | hr
      · obtain ⟨p, hp, hpa, hpid, hppos⟩ := inv.ref_ps r hr hact
        have hp1 : p ∈ db1.position_sessions := by
          rw [hcs.ps_eq]
          exact hp
        obtain ⟨p', hp', hid', hact', hpos'⟩ := hps.preserve p hp1
        refine ⟨p', hp', ?_, hid'.trans hpid, hpos'.trans hppos⟩
        rw [hact']
        exact hpa
      · obtain rfl := List.mem_singleton.mp hr
        obtain ⟨p, hp, hpa, hpid, hppos⟩ := hps.target
        refine ⟨p, hp, hpa, hpid.trans hnrps.symm, ?_⟩
        rw [hppos, hnrpos, hpos]
    case csMapOK =>
      show ∀ e ∈ csMap1, ∃ cc ∈ db3.callsign_sessions, cc.is_active = true ∧ cc.id = e.2
      rw [hcs3]
      exact hcs.mapOK
    case posMapOK =>
      show ∀ e ∈ posMap1, ∃ p ∈ db3.position_sessions,
        p.is_active = true ∧ p.id = e.2 ∧ p.position_id = e.1
      rw [hps3]
      exact hps.mapOK
    case posMapComplete =>
      show ∀ p ∈ db3.position_sessions, p.is_active = true →
        alookup posMap1 p.position_id = some p.id
      rw [hps3]
      exact hps.complete
    case posKeysNodup => exact hps.keysNodup
    case posMapGrow =>
      exact fun e he => hps.grow e (inv.posMapGrow e he)
    case seen_cs =>
      show ∀ id ∈ st.active_callsign_ids.insert csId, ∃ r ∈ db3.controller_sessions,
        r.is_active = true ∧ r.callsign_session_id = id
      rw [hctrl3]
      intro id hid
      rcases List.mem_insert_iff.mp hid with rfl | hid
      · exact ⟨nr, List.mem_append_right _ (List.mem_singleton.mpr rfl), hnract, hnrcs⟩
      · obtain ⟨r, hr, hract, hrcs⟩ := inv.seen_cs id hid
        exact ⟨r, List.mem_append_left _ hr, hract, hrcs⟩
    case seen_pos =>
      show ∀ p ∈ st.active_position_ids.insert pos, ∃ r ∈ db3.controller_sessions,
        r.is_active = true ∧ r.primary_position_id = p
      rw [hctrl3]
      intro p hp
      rcases List.mem_insert_iff.mp hp with rfl | hp
      · refine ⟨nr, List.mem_append_right _ (List.mem_singleton.mpr rfl), hnract, ?_⟩
        rw [hnrpos, hpos]
      · obtain ⟨r, hr, hract, hrpos⟩ := inv.seen_pos p hp
        exact ⟨r, List.mem_append_left _ hr, hract, hrpos⟩
    case ctrl_seen =>
      show ∀ r ∈ db3.controller_sessions, r.is_active = true →
        r.callsign_session_id ∈ st.active_callsign_ids.insert csId ∧
        r.primary_position_id ∈ st.active_position_ids.insert pos
      rw [hctrl3]
      intro r hr hact
      rcases List.mem_append.mp hr with hr | hr
      · obtain ⟨h1, h2⟩ := inv.ctrl_seen r hr hact
        exact ⟨List.mem_insert_of_mem h1, List.mem_insert_of_mem h2⟩
      · obtain rfl := List.mem_singleton.mp hr
        constructor
        · rw [hnrcs]
          exact List.mem_insert_self ..
        · rw [hnrpos, ← hpos]
          exact List.mem_insert_self ..
    case cs_act_seen =>
      show ∀ cc ∈ db3.callsign_sessions, cc.is_active = true →
        cc.id ∈ loadedCs ∨ cc.id ∈ st.active_callsign_ids.insert csId
      rw [hcs3]
      intro cc hcc hcca
      rcases hcs.reflect cc hcc hcca with ⟨r, hr, hra, hrid⟩ | hccid
      · rcases inv.cs_act_seen r hr hra with h | h
        · rw [← hrid]
          exact Or.inl h
        · rw [← hrid]
          exact Or.inr (List.mem_insert_of_mem h)
      · rw [hccid]
        exact Or.inr (List.mem_insert_self ..)
    case upd_ok =>
      intro sid' c' csId' psId' hmem
      obtain ⟨r, hr, hract, hrid, hrcs, hrps, hrpos⟩ :=
        inv.upd_ok sid' c' csId' psId' (List.mem_cons_of_mem _ hmem)
      refine ⟨r, ?_, hract, hrid, hrcs, hrps, hrpos⟩
      show r ∈ db3.controller_sessions
      rw [hctrl3]
      exact List.mem_append_left _ hr
    case upd_nodup => exact inv.upd_nodup
    case create_pos =>
      exact fun c' key' pos' cid' hmem =>
        inv.create_pos c' key' pos' cid' (List.mem_cons_of_mem _ hmem)

theorem binv_apply_actions {t : Timestamp} {loadedCs : List Nat}
    {loadedPos : List (String × Nat)} {st st' : ApplyState}
    {actions : List ControllerAction}
    (inv : BInv t loadedCs loadedPos st actions)
    (h : apply_actions st actions t = .ok st') :
    BInv t loadedCs loadedPos st' [] := by
  induction actions generalizing st with
  | nil =>
    rw [apply_actions] at h
    obtain rfl := Except.ok.inj h
    exact inv
  | cons a rest ih =>
    rw [apply_actions] at h
    rcases ha : apply_action st a t with e | st1
    · rw [ha] at h
      exact nomatch h
    · simp only [ha] at h
      refine ih ?_ h
      match a with
      | .updateExisting sid c csId psId =>
        simp only [apply_action] at ha
        obtain rfl := Except.ok.inj ha
        exact binv_update inv
      | .createNew c key pos cid =>
        exact binv_create inv ha
      | .close sid cid csId psId cc rs =>
        simp only [apply_action] at ha
        obtain rfl := Except.ok.inj ha
        exact binv_close inv

theorem complete_callsign_sessions_nil (db : Db) (t : Timestamp) :
    complete_callsign_sessions db [] t = db := by
  rw [complete_callsign_sessions]
  have hmap : db.callsign_sessions.map (closeCallsignRow [] t) = db.callsign_sessions := by
    have : ∀ r ∈ db.callsign_sessions, closeCallsignRow [] t r = id r :=
      fun r _ => closeCallsignRow_of_notMem (List.not_mem_nil r.id)
    rw [List.map_congr_left this, List.map_id]
  rw [hmap]

theorem complete_position_sessions_nil (db : Db) (t : Timestamp) :
    complete_position_sessions db [] t = db := by
  rw [complete_position_sessions]
  have hmap : db.position_sessions.map (closePositionRow [] t) = db.position_sessions := by
    have : ∀ r ∈ db.position_sessions, closePositionRow [] t r = id r :=
      fun r _ => closePositionRow_of_notMem (List.not_mem_nil r.id)
    rw [List.map_congr_left this, List.map_id]
  rw [hmap]

theorem phaseA_eq (db : Db) (ids : List Nat) (t : Timestamp) :
    (if ids.isEmpty then db else complete_controller_sessions db ids t) =
      complete_controller_sessions db ids t := by
  by_cases h : ids.isEmpty = true
  · rw [if_pos h, List.isEmpty_iff.mp h, complete_controller_sessions_nil]
  · rw [if_neg h]

theorem binv_entry {gen : Nat} {db : Db} (hwf : WF gen db) (datafeed : DatafeedRoot) :
    BInv datafeed.updated_at (load_active_state db).active_callsign_sessions
      (load_active_state db).active_position_sessions
      { gen := gen,
        db := if ((reconcile (load_active_state db).active_by_cid
            datafeed.controllers).controller_actions.filterMap closeSessionId).isEmpty then db
          else complete_controller_sessions db
            ((reconcile (load_active_state db).active_by_cid
              datafeed.controllers).controller_actions.filterMap closeSessionId)
            datafeed.updated_at,
        csMap := (load_active_state db).active_callsign_sessions_map,
        posMap := (load_active_state db).active_position_sessions,
        active_callsign_ids := (reconcile (load_active_state db).active_by_cid
          datafeed.controllers).active_callsign_ids,
        active_position_ids := (reconcile (load_active_state db).active_by_cid
          datafeed.controllers).active_position_ids,
        new_callsign_session_ids := [], new_position_session_ids := [],
        trace := if ((reconcile (load_active_state db).active_by_cid
            datafeed.controllers).controller_actions.filterMap closeSessionId).isEmpty then []
          else [.completeControllers ((reconcile (load_active_state db).active_by_cid
            datafeed.controllers).controller_actions.filterMap closeSessionId)] }
      (reconcile (load_active_state db).active_by_cid datafeed.controllers).controller_actions
    := by
  rw [phaseA_eq]
  have hplan : PlanOK (load_active_state db).active_by_cid
      (reconcile (load_active_state db).active_by_cid datafeed.controllers) :=
    reconcile_plan_ok datafeed.controllers (load_abc_keys_nodup db) (load_abc_sids_nodup hwf)
  set R := reconcile (load_active_state db).active_by_cid datafeed.controllers with hR
  set cids := R.controller_actions.filterMap closeSessionId with hcids
  have hcids' : cids = closeIdsOf R.controller_actions := rfl
  set t := datafeed.updated_at with ht
  -- an updateExisting target survives phase A untouched
  have hsurvive : ∀ {sid : Nat} {c : Controller} {csId psId : Nat},
      ControllerAction.updateExisting sid c csId psId ∈ R.controller_actions →
      ∃ x ∈ db.controller_sessions, x.is_active = true ∧ x.id = sid ∧
        x.callsign_session_id = csId ∧ x.position_session_id = psId ∧
        x.primary_position_id = c.primary_position_id ∧ x.id ∉ cids := by
    intro sid c csId psId hmem
    obtain ⟨en, hen, hsid, hcs, hps, hpid⟩ := hplan.upd_from sid c csId psId hmem
    obtain ⟨x, hx, hxact, hxe⟩ := load_abc_mem hen
    have hen2 : en.2 = entryOf x := by rw [hxe]
    have hxid : x.id = sid := by
      rw [← hsid, hen2]
      rfl
    have hnc : sid ∉ closeIdsOf R.controller_actions :=
      upd_not_closed hplan.sids_nodup hmem
    refine ⟨x, hx, hxact, hxid, ?_, ?_, ?_, ?_⟩
    · rw [← hcs, hen2]
      rfl
    · rw [← hps, hen2]
      rfl
    · rw [← hpid, hen2]
      rfl
    · rw [hcids', hxid]
      exact hnc
  constructor
  case ctrl_nodup =>
    show ((db.controller_sessions.map (closeControllerRow cids t)).map (·.id)).Nodup
    rw [map_proj_eq fun x _ => closeControllerRow_id cids t x]
    exact hwf.ctrl_nodup
  case cs_nodup => exact hwf.cs_nodup
  case ps_nodup => exact hwf.ps_nodup
  case ctrl_lt =>
    intro r hr
    obtain ⟨x, hx, rfl⟩ := List.mem_map.mp hr
    show (closeControllerRow cids t x).id < gen
    rw [closeControllerRow_id]
    exact hwf.ctrl_lt x hx
  case cs_lt => exact hwf.cs_lt
  case ps_lt => exact hwf.ps_lt
  case one_cid =>
    intro a ha b hb haa hba hcid
    obtain ⟨x, hx, rfl⟩ := List.mem_map.mp ha
    obtain ⟨y, hy, rfl⟩ := List.mem_map.mp hb
    obtain ⟨-, hxeq⟩ := closeControllerRow_active haa
    obtain ⟨-, hyeq⟩ := closeControllerRow_active hba
    rw [hxeq] at haa hcid ⊢
    rw [hyeq] at hba hcid ⊢
    exact hwf.one_cid x hx y hy haa hba hcid
  case one_cskey => exact hwf.one_cskey
  case one_poskey => exact hwf.one_poskey
  case ref_cs =>
    intro r hr hact
    obtain ⟨x, hx, rfl⟩ := List.mem_map.mp hr
    obtain ⟨-, hxeq⟩ := closeControllerRow_active hact
    rw [hxeq] at hact ⊢
    exact hwf.ref_cs x hx hact
  case ref_ps =>
    intro r hr hact
    obtain ⟨x, hx, rfl⟩ := List.mem_map.mp hr
    obtain ⟨-, hxeq⟩ := closeControllerRow_active hact
    rw [hxeq] at hact ⊢
    exact hwf.ref_ps x hx hact
  case csMapOK =>
    intro e he
    obtain ⟨c, hc, hca, hce⟩ := load_cs_map_mem he
    refine ⟨c, hc, hca, ?_⟩
    rw [hce]
  case posMapOK =>
    intro e he
    obtain ⟨p, hp, hpa, hpe⟩ := load_ps_map_mem he
    refine ⟨p, hp, hpa, ?_, ?_⟩
    · rw [hpe]
    · rw [hpe]
  case posMapComplete =>
    intro p hp hact
    exact load_ps_lookup hwf hp hact
  case posKeysNodup => exact load_ps_keys_nodup db
  case posMapGrow => exact fun e he => he
  case seen_cs =>
    intro id hid
    obtain ⟨sid, c, psId, hmem⟩ := hplan.seen_cs id hid
    obtain ⟨x, hx, hxact, hxid, hxcs, -, -, hxnc⟩ := hsurvive hmem
    refine ⟨closeControllerRow cids t x, List.mem_map_of_mem _ hx, ?_, ?_⟩
    · rw [closeControllerRow_of_notMem hxnc]
      exact hxact
    · rw [closeControllerRow_of_notMem hxnc]
      exact hxcs
  case seen_pos =>
    intro p hp
    obtain ⟨sid, c, csId, psId, hmem, hcp⟩ := hplan.seen_pos p hp
    obtain ⟨x, hx, hxact, -, -, -, hxpos, hxnc⟩ := hsurvive hmem
    refine ⟨closeControllerRow cids t x, List.mem_map_of_mem _ hx, ?_, ?_⟩
    · rw [closeControllerRow_of_notMem hxnc]
      exact hxact
    · rw [closeControllerRow_of_notMem hxnc, hxpos, hcp]
  case ctrl_seen =>
    intro r hr hact
    obtain ⟨x, hx, rfl⟩ := List.mem_map.mp hr
    obtain ⟨hxnc, hxeq⟩ := closeControllerRow_active hact
    rw [hxeq] at hact ⊢
    have hlk := load_abc_lookup hwf hx hact
    have hmem0 : (x.cid, entryOf x) ∈ (load_active_state db).active_by_cid :=
      alookup_mem hlk
    rcases hplan.consumed (x.cid, entryOf x) hmem0 with ⟨c, hmem⟩ | hclosed
    · have hseen := hplan.upd_seen _ c _ _ hmem
      refine ⟨hseen.1, ?_⟩
      obtain ⟨y, hy, hyact, hyid, -, -, hypos, -⟩ := hsurvive hmem
      have hyx : y = x := eq_of_nodup_key hwf.ctrl_nodup hy hx hyid
      rw [← hyx, hypos]
      exact hseen.2
    · exact absurd hclosed (by
        rw [← hcids']
        exact hxnc)
  case cs_act_seen =>
    intro cc hcc hcca
    exact Or.inl (load_cs_ids_mem.mpr ⟨cc, hcc, hcca, rfl⟩)
  case upd_ok =>
    intro sid c csId psId hmem
    obtain ⟨x, hx, hxact, hxid, hxcs, hxps, hxpos, hxnc⟩ := hsurvive hmem
    refine ⟨closeControllerRow cids t x, List.mem_map_of_mem _ hx, ?_⟩
    rw [closeControllerRow_of_notMem hxnc]
    exact ⟨hxact, hxid, hxcs, hxps, hxpos⟩
  case upd_nodup =>
    exact (updSids_sublist R.controller_actions).nodup hplan.sids_nodup
  case create_pos => exact hplan.create_pos

theorem ensure_callsign_session_ops {gen : Nat} {db : Db}
    {m : List ((String × String) × Nat)} {key : String × String} {t : Timestamp}
    {id : Nat} {created : Bool} {gen' : Nat} {db' : Db}
    {m' : List ((String × String) × Nat)} {ops : List DbOp}
    (h : ensure_callsign_session gen db m key t = (id, created, gen', db', m', ops)) :
    ∀ op ∈ ops, opClosesControllers op = false := by
  rcases ha : alookup m key with _ | id0
  · rcases hfind : db.callsign_sessions.find? fun r =>
        r.is_active && r.pfx == key.1 && r.sfx == key.2 with _ | row
    · simp only [ensure_callsign_session, ha, get_or_create_callsign_session, hfind,
        Prod.mk.injEq] at h
      obtain ⟨-, -, -, -, -, hops⟩ := h
      rw [if_true] at hops
      rw [← hops]
      intro op hop
      rw [List.mem_singleton.mp hop]
      rfl
    · simp only [ensure_callsign_session, ha, get_or_create_callsign_session, hfind,
        Prod.mk.injEq] at h
      obtain ⟨-, -, -, -, -, hops⟩ := h
      rw [if_neg Bool.false_ne_true] at hops
      rw [← hops]
      intro op hop
      rw [List.mem_singleton.mp hop]
      rfl
  · simp only [ensure_callsign_session, ha, Prod.mk.injEq] at h
    obtain ⟨-, -, -, -, -, hops⟩ := h
    rw [← hops]
    intro op hop
    rw [List.mem_singleton.mp hop]
    rfl

theorem ensure_position_session_ops {gen : Nat} {db : Db}
    {m : List (String × Nat)} {pos : String} {t : Timestamp}
    {id : Nat} {created : Bool} {gen' : Nat} {db' : Db}
    {m' : List (String × Nat)} {ops : List DbOp}
    (h : ensure_position_session gen db m pos t = (id, created, gen', db', m', ops)) :
    ∀ op ∈ ops, opClosesControllers op = false := by
  rcases ha : alookup m pos with _ | id0
  · rcases hfind : db.position_sessions.find? fun r =>
        r.is_active && r.position_id == pos with _ | row
    · simp only [ensure_position_session, ha, get_or_create_position_session, hfind,
        Prod.mk.injEq] at h
      obtain ⟨-, -, -, -, -, hops⟩ := h
      rw [if_true] at hops
      rw [← hops]
      intro op hop
      rw [List.mem_singleton.mp hop]
      rfl
    · simp only [ensure_position_session, ha, get_or_create_position_session, hfind,
        Prod.mk.injEq] at h
      obtain ⟨-, -, -, -, -, hops⟩ := h
      rw [if_neg Bool.false_ne_true] at hops
      rw [← hops]
      intro op hop
      rw [List.mem_singleton.mp hop]
      rfl
  · simp only [ensure_position_session, ha, Prod.mk.injEq] at h
    obtain ⟨-, -, -, -, -, hops⟩ := h
    rw [← hops]
    intro op hop
    rw [List.mem_singleton.mp hop]
    rfl

theorem apply_action_trace {st : ApplyState} {a : ControllerAction} {t : Timestamp}
    {st' : ApplyState} (h : apply_action st a t = .ok st') :
    ∃ ops, st'.trace = st.trace ++ ops ∧ ∀ op ∈ ops, opClosesControllers op = false := by
  match a with
  | .updateExisting sid c csId psId =>
    simp only [apply_action] at h
    obtain rfl := Except.ok.inj h
    refine ⟨_, rfl, ?_⟩
    intro op hop
    simp only [List.mem_cons, List.not_mem_nil, or_false] at hop
    rcases hop with rfl | rfl | rfl <;> rfl
  | .createNew c key pos cid =>
    rcases hE1 : ensure_callsign_session st.gen st.db st.csMap key t with
      ⟨csId, csCreated, gen1, db1, csMap1, ops1⟩
    rcases hE2 : ensure_position_session gen1 db1 st.posMap pos t with
      ⟨psId, psCreated, gen2, db2, posMap1, ops2⟩
    simp only [apply_action, hE1, hE2] at h
    rcases hI : insert_controller_session gen2 db2 c cid t csId psId with e | tup
    · rw [hI] at h
      exact nomatch h
    · obtain ⟨ctrlId, gen3, db3⟩ := tup
      simp only [hI] at h
      obtain rfl := Except.ok.inj h
      refine ⟨ops1 ++ (ops2 ++ [.insertController ctrlId]), ?_, ?_⟩
      · show st.trace ++ ops1 ++ ops2 ++ [DbOp.insertController ctrlId] = _
        rw [List.append_assoc, List.append_assoc]
      · intro op hop
        rcases List.mem_append.mp hop with hop | hop
        · exact ensure_callsign_session_ops hE1 op hop
        · rcases List.mem_append.mp hop with hop | hop
          · exact ensure_position_session_ops hE2 op hop
          · rw [List.mem_singleton.mp hop]
            rfl
  | .close sid cid csId psId cc rs =>
    simp only [apply_action] at h
    obtain rfl := Except.ok.inj h
    exact ⟨[], (List.append_nil _).symm, fun op hop => absurd hop (List.not_mem_nil op)⟩

theorem apply_actions_trace {st : ApplyState} {actions : List ControllerAction}
    {t : Timestamp} {st' : ApplyState} (h : apply_actions st actions t = .ok st') :
    ∃ ops, st'.trace = st.trace ++ ops ∧ ∀ op ∈ ops, opClosesControllers op = false := by
  induction actions generalizing st with
  | nil =>
    rw [apply_actions] at h
    obtain rfl := Except.ok.inj h
    exact ⟨[], (List.append_nil _).symm, fun op hop => absurd hop (List.not_mem_nil op)⟩
  | cons a rest ih =>
    rw [apply_actions] at h
    rcases ha : apply_action st a t with e | st1
    · rw [ha] at h
      exact nomatch h
    · simp only [ha] at h
      obtain ⟨ops1, htr1, hops1⟩ := apply_action_trace ha
      obtain ⟨ops2, htr2, hops2⟩ := ih h
      refine ⟨ops1 ++ ops2, ?_, ?_⟩
      · rw [htr2, htr1, List.append_assoc]
      · intro op hop
        rcases List.mem_append.mp hop with hop | hop
        · exact hops1 op hop
        · exact hops2 op hop

theorem finalize_callsign_sessions_eq (db : Db) (loaded seen : List Nat) (t : Timestamp) :
    (finalize_callsign_sessions db loaded seen t).1 =
      complete_callsign_sessions db (loaded.filter fun id => id ∉ seen) t ∧
    (finalize_callsign_sessions db loaded seen t).2.1 =
      loaded.filter (fun id => id ∉ seen) ∧
    ∀ op ∈ (finalize_callsign_sessions db loaded seen t).2.2,
      opClosesControllers op = false ∧ opInsertsController op = false := by
  rw [finalize_callsign_sessions]
  by_cases h : (loaded.filter fun id => id ∉ seen).isEmpty = true
  · rw [if_pos h]
    refine ⟨?_, ?_, ?_⟩
    · rw [List.isEmpty_iff.mp h, complete_callsign_sessions_nil]
    · rfl
    · intro op hop
      exact absurd hop (List.not_mem_nil op)
  · rw [if_neg h]
    refine ⟨rfl, rfl, ?_⟩
    intro op hop
    rw [List.mem_singleton.mp hop]
    exact ⟨rfl, rfl⟩

theorem finalize_position_sessions_eq (db : Db) (posMap : List (String × Nat))
    (seen : List String) (t : Timestamp) :
    (finalize_position_sessions db posMap seen t).1 =
      complete_position_sessions db ((posMap.filter fun e => e.1 ∉ seen).map (·.2)) t ∧
    (finalize_position_sessions db posMap seen t).2.1 =
      (posMap.filter fun e => e.1 ∉ seen).map (·.2) ∧
    ∀ op ∈ (finalize_position_sessions db posMap seen t).2.2,
      opClosesControllers op = false ∧ opInsertsController op = false := by
  rw [finalize_position_sessions]
  by_cases h : (((posMap.filter fun e => e.1 ∉ seen).map (·.2)).isEmpty : Bool) = true
  · rw [if_pos h]
    refine ⟨?_, ?_, ?_⟩
    · rw [List.isEmpty_iff.mp h, complete_position_sessions_nil]
    · rfl
    · intro op hop
      exact absurd hop (List.not_mem_nil op)
  · rw [if_neg h]
    refine ⟨rfl, rfl, ?_⟩
    intro op hop
    rw [List.mem_singleton.mp hop]
    exact ⟨rfl, rfl⟩

theorem snapshot_master {gen : Nat} {db : Db} {datafeed : DatafeedRoot} {r : SnapshotResult}
    (hwf : WF gen db) (h : process_datafeed_payload gen db datafeed = .ok r) :
    WF r.gen r.db ∧
    (∀ cc ∈ r.db.callsign_sessions,
      cc.id ∈ (load_active_state db).active_callsign_sessions →
      cc.id ∉ r.active_callsign_ids →
      cc.is_active = false ∧ cc.end_time = some datafeed.updated_at) ∧
    (∀ id ∈ r.active_callsign_ids,
      ∃ cc ∈ r.db.callsign_sessions, cc.is_active = true ∧ cc.id = id) ∧
    (∃ t1 t2, r.trace = t1 ++ t2 ∧
      (∀ op ∈ t1, opInsertsController op = false) ∧
      (∀ op ∈ t2, opClosesControllers op = false)) := by
  rw [process_datafeed_payload] at h
  rcases hB : apply_actions
      { gen := gen,
        db := if ((reconcile (load_active_state db).active_by_cid
            datafeed.controllers).controller_actions.filterMap closeSessionId).isEmpty then db
          else complete_controller_sessions db
            ((reconcile (load_active_state db).active_by_cid
              datafeed.controllers).controller_actions.filterMap closeSessionId)
            datafeed.updated_at,
        csMap := (load_active_state db).active_callsign_sessions_map,
        posMap := (load_active_state db).active_position_sessions,
        active_callsign_ids := (reconcile (load_active_state db).active_by_cid
          datafeed.controllers).active_callsign_ids,
        active_position_ids := (reconcile (load_active_state db).active_by_cid
          datafeed.controllers).active_position_ids,
        new_callsign_session_ids := [], new_position_session_ids := [],
        trace := if ((reconcile (load_active_state db).active_by_cid
            datafeed.controllers).controller_actions.filterMap closeSessionId).isEmpty then []
          else [.completeControllers ((reconcile (load_active_state db).active_by_cid
            datafeed.controllers).controller_actions.filterMap closeSessionId)] }
      (reconcile (load_active_state db).active_by_cid datafeed.controllers).controller_actions
      datafeed.updated_at with e | stB
  · simp only [hB] at h
    exact nomatch h
  · simp only [hB] at h
    have invB := binv_apply_actions (binv_entry hwf datafeed) hB
    rcases hC1 : finalize_callsign_sessions stB.db
        (load_active_state db).active_callsign_sessions stB.active_callsign_ids
        datafeed.updated_at with ⟨dbC1, closed_cs, opsC1⟩
    simp only [hC1] at h
    rcases hC2 : finalize_position_sessions dbC1 stB.posMap stB.active_position_ids
        datafeed.updated_at with ⟨dbC2, closed_ps, opsC2⟩
    simp only [hC2] at h
    obtain rfl := Except.ok.inj h
    set t := datafeed.updated_at with ht
    set lcs := (load_active_state db).active_callsign_sessions with hlcs
    set seenCs := stB.active_callsign_ids with hseenCs
    set seenPos := stB.active_position_ids with hseenPos
    obtain ⟨hC1fst, hC1snd, hC1ops⟩ := finalize_callsign_sessions_eq stB.db lcs seenCs t
    rw [hC1] at hC1fst hC1snd hC1ops
    obtain ⟨hC2fst, hC2snd, hC2ops⟩ := finalize_position_sessions_eq dbC1 stB.posMap seenPos t
    rw [hC2] at hC2fst hC2snd hC2ops
    have hdbC1 : dbC1 = complete_callsign_sessions stB.db
        (lcs.filter fun id => id ∉ seenCs) t := hC1fst
    have hdbC2 : dbC2 = complete_position_sessions dbC1
        ((stB.posMap.filter fun e => e.1 ∉ seenPos).map (·.2)) t := hC2fst
    set csClose := lcs.filter fun id => id ∉ seenCs with hcsClose
    set psClose := (stB.posMap.filter fun e => e.1 ∉ seenPos).map (·.2) with hpsClose
    have hctrlT : dbC2.controller_sessions = stB.db.controller_sessions := by
      rw [hdbC2, hdbC1]
      rfl
    have hcsT : dbC2.callsign_sessions =
        stB.db.callsign_sessions.map (closeCallsignRow csClose t) := by
      rw [hdbC2, hdbC1]
      rfl
    have hpsT : dbC2.position_sessions =
        stB.db.position_sessions.map (closePositionRow psClose t) := by
      rw [hdbC2, hdbC1]
      rfl
    have hcsSeenSurvive : ∀ i ∈ seenCs, i ∉ csClose := by
      intro i hi hc
      exact (of_decide_eq_true (List.mem_filter.mp hc).2) hi
    have hpsSeenSurvive : ∀ p ∈ stB.db.position_sessions, p.is_active = true →
        p.position_id ∈ seenPos → p.id ∉ psClose := by
      intro p hp hact hseen hc
      obtain ⟨e, he, heid⟩ := List.mem_map.mp hc
      have hef := List.mem_filter.mp he
      obtain ⟨q, hq, hqa, hqid, hqpos⟩ := invB.posMapOK e hef.1
      have hqp : q = p := eq_of_nodup_key invB.ps_nodup hq hp (by rw [hqid, heid])
      apply of_decide_eq_true hef.2
      rw [← hqpos, hqp]
      exact hseen
    have hWF : WF stB.gen dbC2 := by
      constructor
      case ctrl_nodup =>
        rw [hctrlT]
        exact invB.ctrl_nodup
      case cs_nodup =>
        rw [hcsT, map_proj_eq fun x _ => closeCallsignRow_id csClose t x]
        exact invB.cs_nodup
      case ps_nodup =>
        rw [hpsT, map_proj_eq fun x _ => closePositionRow_id psClose t x]
        exact invB.ps_nodup
      case ctrl_lt =>
        rw [hctrlT]
        exact invB.ctrl_lt
      case cs_lt =>
        rw [hcsT]
        intro c hc
        obtain ⟨x, hx, rfl⟩ := List.mem_map.mp hc
        rw [closeCallsignRow_id]
        exact invB.cs_lt x hx
      case ps_lt =>
        rw [hpsT]
        intro p hp
        obtain ⟨x, hx, rfl⟩ := List.mem_map.mp hp
        rw [closePositionRow_id]
        exact invB.ps_lt x hx
      case one_cid =>
        rw [hctrlT]
        exact invB.one_cid
      case one_cskey =>
        rw [hcsT]
        intro a ha b hb haa hba hp hsx
        obtain ⟨x, hx, rfl⟩ := List.mem_map.mp ha
        obtain ⟨y, hy, rfl⟩ := List.mem_map.mp hb
        obtain ⟨-, hxeq⟩ := closeCallsignRow_active haa
        obtain ⟨-, hyeq⟩ := closeCallsignRow_active hba
        rw [hxeq] at haa hp hsx ⊢
        rw [hyeq] at hba hp hsx ⊢
        exact invB.one_cskey x hx y hy haa hba hp hsx
      case one_poskey =>
        rw [hpsT]
        intro a ha b hb haa hba hp
        obtain ⟨x, hx, rfl⟩ := List.mem_map.mp ha
        obtain ⟨y, hy, rfl⟩ := List.mem_map.mp hb
        obtain ⟨-, hxeq⟩ := closePositionRow_active haa
        obtain ⟨-, hyeq⟩ := closePositionRow_active hba
        rw [hxeq] at haa hp ⊢
        rw [hyeq] at hba hp ⊢
        exact invB.one_poskey x hx y hy haa hba hp
      case ref_cs =>
        rw [hctrlT, hcsT]
        intro ctr hctr hact
        obtain ⟨cc, hcc, hcca, hccid⟩ := invB.ref_cs ctr hctr hact
        have hseen := (invB.ctrl_seen ctr hctr hact).1
        have hccs : cc.id ∉ csClose := by
          rw [hccid]
          exact hcsSeenSurvive _ hseen
        refine ⟨closeCallsignRow csClose t cc, List.mem_map_of_mem _ hcc, ?_, ?_⟩
        · rw [closeCallsignRow_of_notMem hccs]
          exact hcca
        · rw [closeCallsignRow_of_notMem hccs]
          exact hccid
      case ref_ps =>
        rw [hctrlT, hpsT]
        intro ctr hctr hact
        obtain ⟨p, hp, hpa, hpid, hppos⟩ := invB.ref_ps ctr hctr hact
        have hseen := (invB.ctrl_seen ctr hctr hact).2
        have hpc : p.id ∉ psClose := hpsSeenSurvive p hp hpa (by
          rw [hppos]
          exact hseen)
        refine ⟨closePositionRow psClose t p, List.mem_map_of_mem _ hp, ?_, ?_, ?_⟩
        · rw [closePositionRow_of_notMem hpc]
          exact hpa
        · rw [closePositionRow_of_notMem hpc]
          exact hpid
        · rw [closePositionRow_of_notMem hpc]
          exact hppos
      case cs_refd =>
        rw [hcsT, hctrlT]
        intro cc hcc hcca
        obtain ⟨x, hx, rfl⟩ := List.mem_map.mp hcc
        obtain ⟨hxnc, hxeq⟩ := closeCallsignRow_active hcca
        rw [hxeq] at hcca ⊢
        have hxseen : x.id ∈ seenCs := by
          rcases invB.cs_act_seen x hx hcca with hl | hs
          · by_cases hmem : x.id ∈ seenCs
            · exact hmem
            · exact absurd (List.mem_filter.mpr ⟨hl, decide_eq_true hmem⟩) hxnc
          · exact hs
        exact invB.seen_cs x.id hxseen
      case ps_refd =>
        rw [hpsT, hctrlT]
        intro pp hpp hppa
        obtain ⟨p, hp, rfl⟩ := List.mem_map.mp hpp
        obtain ⟨hpnc, hpeq⟩ := closePositionRow_active hppa
        rw [hpeq] at hppa ⊢
        have hentry : (p.position_id, p.id) ∈ stB.posMap :=
          alookup_mem (invB.posMapComplete p hp hppa)
        have hpseen : p.position_id ∈ seenPos := by
          by_cases hmem : p.position_id ∈ seenPos
          · exact hmem
          · refine absurd ?_ hpnc
            exact List.mem_map.mpr ⟨(p.position_id, p.id),
              List.mem_filter.mpr ⟨hentry, decide_eq_true hmem⟩, rfl⟩
        obtain ⟨ctr, hctr, hctra, hctrpos⟩ := invB.seen_pos p.position_id hpseen
        obtain ⟨q, hq, hqa, hqid, hqpos⟩ := invB.ref_ps ctr hctr hctra
        have hqpid : q.id = p.id := invB.one_poskey q hq p hp hqa hppa (by
          rw [hqpos, hctrpos])
        refine ⟨ctr, hctr, hctra, ?_⟩
        rw [← hqid]
        exact hqpid
    refine ⟨hWF, ?_, ?_, ?_⟩
    · intro cc hcc hin hnseen
      have hcc' : cc ∈ stB.db.callsign_sessions.map (closeCallsignRow csClose t) := by
        rw [← hcsT]
        exact hcc
      obtain ⟨x, hx, rfl⟩ := List.mem_map.mp hcc'
      have hxid := closeCallsignRow_id csClose t x
      rw [hxid] at hin hnseen
      have hxin : x.id ∈ csClose :=
        List.mem_filter.mpr ⟨hin, decide_eq_true hnseen⟩
      obtain ⟨h1, h2, -⟩ := closeCallsignRow_of_mem hxin
      exact ⟨h1, h2⟩
    · intro id hid
      obtain ⟨ctr, hctr, hctra, hctrcs⟩ := invB.seen_cs id hid
      obtain ⟨cc, hcc, hcca, hccid⟩ := invB.ref_cs ctr hctr hctra
      have hccs : cc.id ∉ csClose := by
        rw [hccid, hctrcs]
        exact hcsSeenSurvive id hid
      refine ⟨closeCallsignRow csClose t cc, ?_, ?_, ?_⟩
      · show _ ∈ dbC2.callsign_sessions
        rw [hcsT]
        exact List.mem_map_of_mem _ hcc
      · rw [closeCallsignRow_of_notMem hccs]
        exact hcca
      · rw [closeCallsignRow_of_notMem hccs, hccid, hctrcs]
    · obtain ⟨opsB, htrB, hopsB⟩ := apply_actions_trace hB
      dsimp only at htrB
      by_cases hce : ((reconcile (load_active_state db).active_by_cid
          datafeed.controllers).controller_actions.filterMap closeSessionId).isEmpty = true
      · rw [if_pos hce, List.nil_append] at htrB
        refine ⟨[], opsB ++ (opsC1 ++ opsC2), ?_, ?_, ?_⟩
        · show stB.trace ++ opsC1 ++ opsC2 = [] ++ (opsB ++ (opsC1 ++ opsC2))
          rw [htrB, List.nil_append]
          simp only [List.append_assoc]
        · intro op hop
          exact absurd hop (List.not_mem_nil op)
        · intro op hop
          rcases List.mem_append.mp hop with hop | hop
          · exact hopsB op hop
          · rcases List.mem_append.mp hop with hop | hop
            · exact (hC1ops op hop).1
            · exact (hC2ops op hop).1
      · rw [if_neg hce] at htrB
        refine ⟨[DbOp.completeControllers ((reconcile (load_active_state db).active_by_cid
            datafeed.controllers).controller_actions.filterMap closeSessionId)],
          opsB ++ (opsC1 ++ opsC2), ?_, ?_, ?_⟩
        · show stB.trace ++ opsC1 ++ opsC2 = _
          rw [htrB]
          simp only [List.append_assoc]
        · intro op hop
          rw [List.mem_singleton.mp hop]
          rfl
        · intro op hop
          rcases List.mem_append.mp hop with hop | hop
          · exact hopsB op hop
          · rcases List.mem_append.mp hop with hop | hop
            · exact (hC1ops op hop).1
            · exact (hC2ops op hop).1

theorem replay_step_WF {p : Nat × Db} (hwf : WF p.1 p.2) (f : DatafeedRoot) :
    WF (replay_step p f).1 (replay_step p f).2 := by
  rcases h : process_datafeed_payload p.1 p.2 f with e | r
  · rw [replay_step]
    simp only [h]
    exact hwf
  · rw [replay_step]
    simp only [h]
    exact (snapshot_master hwf h).1

theorem foldl_replay_WF (feeds : List DatafeedRoot) :
    ∀ p : Nat × Db, WF p.1 p.2 →
      WF (feeds.foldl replay_step p).1 (feeds.foldl replay_step p).2 := by
  induction feeds with
  | nil =>
    intro p hp
    exact hp
  | cons f rest ih =>
    intro p hp
    rw [List.foldl_cons]
    exact ih _ (replay_step_WF hp f)

theorem replay_WF (feeds : List DatafeedRoot) :
    WF (replay feeds).1 (replay feeds).2 := by
  rw [replay]
  exact foldl_replay_WF feeds (0, Db.empty) WF.empty

/-! ## Claims -/

/-! ### C9: the projector health endpoint never reports unhealthy -/

/-- C9: the projector health endpoint returns HTTP 200 for every request,
with a body saying no datafeeds were processed yet before the first
snapshot, while the ingestor health endpoint does return an unhealthy
status, both before any success and when the last success is over sixty
seconds stale; the projector status does not depend on staleness at all
because its input is only the optional last processed timestamp. -/
theorem health_check_always_ok :
    (∀ s : Option Timestamp, (health_check s).1 = 200) ∧
    (health_check none).2 = "No datafeeds processed yet" ∧
    (fetcher_health_check 0 none none "unknown" 0).1 = 500 ∧
    (fetcher_health_check (61 * 1000000000) (some 0) (some 0) "unknown" 0).1 = 500 ∧
    (health_check (some 0)).1 = 200 := by
  refine ⟨fun s => ?_, rfl, rfl, by decide, rfl⟩
  cases s <;> rfl

/-! ### C10: the updatedAt extraction of fetch_datafeed -/

/-- C10: fetch_datafeed fails with missingUpdatedAt exactly when the
fetched JSON document has no updatedAt field or that field's value is
not a JSON string; a string value that fails RFC 3339 parsing produces
the timestamp-parse error; and on success the function returns the full
parsed document unmodified together with the timestamp converted to
UTC (parse_from_rfc3339 yields the UTC instant of the parsed zoned
time). -/
theorem fetch_datafeed_updated_at_extraction :
    ∀ value : Json,
      (fetch_datafeed value = .error .missingUpdatedAt ↔
        value.get? "updatedAt" = none ∨
        ∃ tv, value.get? "updatedAt" = some tv ∧ tv.asString? = none) ∧
      (∀ s, value.get? "updatedAt" = some (.str s) →
        (parse_from_rfc3339 s = none →
          fetch_datafeed value = .error .timestampDeserialize) ∧
        (∀ t, parse_from_rfc3339 s = some t →
          fetch_datafeed value = .ok (value, t))) := by
  intro value
  constructor
  · constructor
    · intro h
      rcases hv : value.get? "updatedAt" with _ | tv
      · exact Or.inl rfl
      · refine Or.inr ⟨tv, rfl, ?_⟩
        rcases hs : tv.asString? with _ | s
        · rfl
        · exfalso
          simp only [fetch_datafeed, hv, hs] at h
          rcases hp : parse_from_rfc3339 s with _ | t
          · simp only [hp] at h
            exact nomatch h
          · simp only [hp] at h
            exact nomatch h
    · intro h
      rcases h with h | ⟨tv, hv, hs⟩
      · simp only [fetch_datafeed, h]
      · simp only [fetch_datafeed, hv, hs]
  · intro s hv
    refine ⟨fun hp => ?_, fun t hp => ?_⟩
    · simp only [fetch_datafeed, hv, Json.asString?, hp]
    · simp only [fetch_datafeed, hv, Json.asString?, hp]

/-- C10 witness: the theorem applied to the concrete document, whose
updatedAt string parses to the corresponding epoch nanoseconds. -/
theorem fetch_datafeed_updated_at_extraction_witness :
    fetch_datafeed sampleFeedDoc = .ok (sampleFeedDoc, 1704067200000000000) :=
  ((fetch_datafeed_updated_at_extraction sampleFeedDoc).2
    "2024-01-01T00:00:00Z" rfl).2 1704067200000000000 rfl

/-! ### C7: the fallback buffer drain -/

/-- C7: draining the in-memory fallback buffer dequeues and enqueues the
items head-to-tail in their original order; there is a count i of
successful enqueues such that the items enqueued are exactly the first i
buffer items in order, the buffer afterwards holds exactly the remaining
items in their original relative order (the item whose enqueue failed
having been re-inserted at the front), every attempt before i succeeded,
and if the drain stopped short of the whole buffer then attempt i is the
first failure, halting the drain for this tick. -/
theorem clear_in_memory_queue_drain_order (enqueue_fails : Nat → Bool) (k : Nat)
    (buf : List (Json × Timestamp)) :
    ∃ i, i ≤ buf.length ∧
      clear_in_memory_queue enqueue_fails k buf = (buf.drop i, buf.take i) ∧
      (∀ j, j < i → enqueue_fails (k + j) = false) ∧
      (i < buf.length → enqueue_fails (k + i) = true) := by
  induction buf generalizing k with
  | nil =>
    exact ⟨0, Nat.le_refl 0, rfl, fun j hj => absurd hj (Nat.not_lt_zero j), fun h => absurd h (Nat.lt_irrefl 0)⟩
  | cons item rest ih =>
    by_cases hk : enqueue_fails k = true
    · refine ⟨0, Nat.zero_le _, ?_, fun j hj => absurd hj (Nat.not_lt_zero j), fun _ => hk⟩
      rw [clear_in_memory_queue, if_pos hk]
      rfl
    · obtain ⟨i, hle, heq, hbefore, hat⟩ := ih (k + 1)
      refine ⟨i + 1, Nat.succ_le_succ hle, ?_, ?_, ?_⟩
      · rw [clear_in_memory_queue, if_neg hk, heq]
        rfl
      · intro j hj
        match j with
        | 0 => simpa using Bool.eq_false_iff.mpr hk
        | j' + 1 =>
          have : j' < i := Nat.lt_of_succ_lt_succ hj
          have := hbefore j' this
          rw [show k + (j' + 1) = k + 1 + j' by omega]
          exact this
      · intro hlt
        have : i < rest.length := Nat.lt_of_succ_lt_succ hlt
        have := hat this
        rw [show k + (i + 1) = k + 1 + i by omega]
        exact this

/-- C8: a claimed batch contains at most limit rows, is sorted in
ascending updated_at order, and every queue row outside the batch has an
updated_at at least as large as every batch row, so snapshots are applied
in non-decreasing updated_at order within a batch and across the batches
drawn from the queue. -/
theorem fetch_datafeed_batch_claim_order (db : Db) (limit : Nat) :
    (fetch_datafeed_batch db limit).length ≤ limit ∧
    (fetch_datafeed_batch db limit).Sorted (fun a b => a.updated_at ≤ b.updated_at) ∧
    (∀ q ∈ db.datafeed_queue, q ∉ fetch_datafeed_batch db limit →
      ∀ r ∈ fetch_datafeed_batch db limit, r.updated_at ≤ q.updated_at) := by
  set le : QueuedDatafeed → QueuedDatafeed → Prop := fun a b => a.updated_at ≤ b.updated_at with hle
  have hsorted : (db.datafeed_queue.insertionSort le).Sorted le :=
    List.sorted_insertionSort le db.datafeed_queue
  refine ⟨?_, ?_, ?_⟩
  · rw [fetch_datafeed_batch]
    calc ((db.datafeed_queue.insertionSort le).take limit).length
        = min limit (db.datafeed_queue.insertionSort le).length := List.length_take ..
      _ ≤ limit := Nat.min_le_left ..
  · exact List.Pairwise.sublist (List.take_sublist ..) hsorted
  · intro q hq hqnot r hr
    have hperm := List.perm_insertionSort le db.datafeed_queue
    have hqS : q ∈ db.datafeed_queue.insertionSort le := hperm.mem_iff.mpr hq
    have hsplit := List.take_append_drop limit (db.datafeed_queue.insertionSort le)
    have hqdrop : q ∈ (db.datafeed_queue.insertionSort le).drop limit := by
      have hqS' : q ∈ (db.datafeed_queue.insertionSort le).take limit ++
          (db.datafeed_queue.insertionSort le).drop limit := by
        rw [hsplit]
        exact hqS
      rcases List.mem_append.mp hqS' with h | h
      · exact absurd h hqnot
      · exact h
    have hpw : ∀ x ∈ (db.datafeed_queue.insertionSort le).take limit,
        ∀ y ∈ (db.datafeed_queue.insertionSort le).drop limit, le x y := by
      have := hsorted
      rw [List.Sorted, ← hsplit, List.pairwise_append] at this
      exact this.2.2
    exact hpw r hr q hqdrop

/-- C8 witness: the theorem applied to a concrete two-row queue. -/
theorem fetch_datafeed_batch_claim_order_witness :
    (fetch_datafeed_batch
      { Db.empty with datafeed_queue :=
          [⟨1, 50, .malformed, 0⟩, ⟨2, 10, .malformed, 0⟩] } 1).length ≤ 1 :=
  (fetch_datafeed_batch_claim_order
    { Db.empty with datafeed_queue :=
        [⟨1, 50, .malformed, 0⟩, ⟨2, 10, .malformed, 0⟩] } 1).1

/-! ### C2: classification of an active controller record -/

/-- C2: for an active controller record that parses, when its CID has an
entry in the active-by-CID map the reconciler emits updateExisting,
retaining the existing controller, callsign and position session ids,
exactly when the stored login time equals the record's login time at
microsecond precision (login_times_match truncates both nanosecond
timestamps to microseconds) and the stored position id equals the
record's primary position id; otherwise it emits close with reason
reconnectedOrChangedPosition for the existing session followed by
createNew for the incoming record; and when no entry exists it emits
createNew alone. -/
theorem reconcile_step_active_classification (st : ReconcileState) (c : Controller)
    (parts : ParsedController) (hp : parse_controller_parts c = .ok parts)
    (ha : c.is_active = true) :
    (∀ existing, alookup st.active_by_cid parts.cid = some existing →
      ((reconcile_step st c).controller_actions = st.controller_actions ++
          [.updateExisting existing.controller_session_id c
            existing.callsign_session_id existing.position_session_id] ↔
        (login_times_match existing.login_time c.login_time = true ∧
          existing.position_id = parts.position_id)) ∧
      (¬ (login_times_match existing.login_time c.login_time = true ∧
          existing.position_id = parts.position_id) →
        (reconcile_step st c).controller_actions = st.controller_actions ++
          [.close existing.controller_session_id parts.cid
             existing.callsign_session_id existing.position_session_id
             existing.connected_callsign .reconnectedOrChangedPosition,
           .createNew c (parts.pfx, parts.sfx) parts.position_id parts.cid])) ∧
    (alookup st.active_by_cid parts.cid = none →
      (reconcile_step st c).controller_actions = st.controller_actions ++
        [.createNew c (parts.pfx, parts.sfx) parts.position_id parts.cid]) := by
  constructor
  · intro existing he
    have hcond : (login_times_match existing.login_time c.login_time &&
        existing.position_id == parts.position_id) = true ↔
        (login_times_match existing.login_time c.login_time = true ∧
          existing.position_id = parts.position_id) := by
      rw [Bool.and_eq_true, beq_iff_eq]
    have hfalse : ¬ (login_times_match existing.login_time c.login_time = true ∧
        existing.position_id = parts.position_id) →
        (login_times_match existing.login_time c.login_time &&
          existing.position_id == parts.position_id) = false := by
      intro hnc
      rcases Bool.eq_false_or_eq_true (login_times_match existing.login_time c.login_time &&
        existing.position_id == parts.position_id) with hb | hb
      · exact absurd (hcond.mp hb) hnc
      · exact hb
    constructor
    · constructor
      · intro hacts
        by_contra hnc
        rw [reconcile_step_eq_reconnect st hp ha he (hfalse hnc)] at hacts
        have hlen := congrArg List.length hacts
        simp only [List.length_append, List.length_cons, List.length_nil] at hlen
        omega
      · intro hc
        rw [reconcile_step_eq_update st hp ha he (hcond.mpr hc)]
    · intro hnc
      rw [reconcile_step_eq_reconnect st hp ha he (hfalse hnc)]
  · intro he
    rw [reconcile_step_eq_create st hp ha he]

/-- C2 witness: applied at a concrete state whose map tracks the record's
CID with matching login time and position, yielding updateExisting. -/
theorem reconcile_step_active_classification_witness :
    (reconcile_step
      { active_by_cid := [((1001 : Int), witnessExisting)], controller_actions := [],
        active_callsign_ids := [], active_position_ids := [] }
      witnessController).controller_actions =
      [.updateExisting 7 witnessController 8 9] :=
  (((reconcile_step_active_classification
      { active_by_cid := [((1001 : Int), witnessExisting)], controller_actions := [],
        active_callsign_ids := [], active_position_ids := [] }
      witnessController ⟨1001, "BOS", "APP", "BOS_APP_POS"⟩ (by decide) rfl).1
    witnessExisting rfl).1).mpr ⟨rfl, rfl⟩

/-- C6 counterexample: the claim says the second record wins, so with an
inactive second record CID 100 should end with no active session; the
code instead classifies the second record against the map whose entry
the first record consumed, ignores it, and leaves the first record's
session active with login time 1000.  The first record wins, refuting
the claim at this input. -/
theorem duplicate_cid_second_wins_counterexample :
    duplicateCidOutcome = .ok [1000] := by decide

/-- C6 amended: when one snapshot contains two controller records with
the same CID, the snapshot is not rejected by the reconciler; the first
record consumes the active-by-CID map entry, so after any active record
is processed the map has no entry for that CID, and the second record is
classified against the map without the entry: in particular an inactive
second record is ignored outright, so the resulting active session state
for that CID reflects the first record, not the second. -/
theorem duplicate_cid_first_consumes_entry :
    (∀ (st : ReconcileState) (c : Controller) (parts : ParsedController),
      parse_controller_parts c = .ok parts → c.is_active = true →
      alookup (reconcile_step st c).active_by_cid parts.cid = none) ∧
    (∀ (st : ReconcileState) (c : Controller) (parts : ParsedController),
      parse_controller_parts c = .ok parts → c.is_active = false →
      alookup st.active_by_cid parts.cid = none →
      reconcile_step st c = st) := by
  have herased : ∀ (m : List (Int × ActiveControllerState)) (k : Int),
      alookup (aerase m k) k = none := by
    intro m k
    rw [alookup_eq_none]
    intro v hv
    exact (mem_aerase.mp hv).2 rfl
  constructor
  · intro st c parts hp ha
    rcases he : alookup st.active_by_cid parts.cid with _ | existing
    · rw [reconcile_step_eq_create st hp ha he]
      exact he
    · rcases Bool.eq_false_or_eq_true (login_times_match existing.login_time c.login_time &&
        existing.position_id == parts.position_id) with hb | hb
      · rw [reconcile_step_eq_update st hp ha he hb]
        exact herased st.active_by_cid parts.cid
      · rw [reconcile_step_eq_reconnect st hp ha he hb]
        exact herased st.active_by_cid parts.cid
  · intro st c parts hp hi hn
    rw [reconcile_step_eq_ignore st hp hi hn]

theorem OuterTablesEq.refl (db : Db) : OuterTablesEq db db := ⟨rfl, rfl, rfl⟩

theorem OuterTablesEq.trans {db1 db2 db3 : Db} (h1 : OuterTablesEq db1 db2)
    (h2 : OuterTablesEq db2 db3) : OuterTablesEq db1 db3 :=
  ⟨h2.1.trans h1.1, h2.2.1.trans h1.2.1, h2.2.2.trans h1.2.2⟩

theorem ensure_callsign_session_outer {gen : Nat} {db : Db}
    {csMap : List ((String × String) × Nat)} {key : String × String} {t : Timestamp}
    {id : Nat} {cr : Bool} {g' : Nat} {db' : Db} {m' : List ((String × String) × Nat)}
    {ops : List DbOp}
    (h : ensure_callsign_session gen db csMap key t = (id, cr, g', db', m', ops)) :
    OuterTablesEq db db' := by
  rcases hl : alookup csMap key with _ | i
  · rw [ensure_callsign_session, hl] at h
    rcases hf : db.callsign_sessions.find? fun r => r.is_active && r.pfx == key.1 &&
        r.sfx == key.2 with _ | row
    · rw [get_or_create_callsign_session, hf] at h
      simp only [Prod.mk.injEq] at h
      obtain ⟨-, -, -, rfl, -, -⟩ := h
      exact ⟨rfl, rfl, rfl⟩
    · rw [get_or_create_callsign_session, hf] at h
      simp only [Prod.mk.injEq] at h
      obtain ⟨-, -, -, rfl, -, -⟩ := h
      exact ⟨rfl, rfl, rfl⟩
  · rw [ensure_callsign_session, hl] at h
    simp only [Prod.mk.injEq] at h
    obtain ⟨-, -, -, rfl, -, -⟩ := h
    exact ⟨rfl, rfl, rfl⟩

theorem ensure_position_session_outer {gen : Nat} {db : Db}
    {posMap : List (String × Nat)} {pos : String} {t : Timestamp}
    {id : Nat} {cr : Bool} {g' : Nat} {db' : Db} {m' : List (String × Nat)}
    {ops : List DbOp}
    (h : ensure_position_session gen db posMap pos t = (id, cr, g', db', m', ops)) :
    OuterTablesEq db db' := by
  rcases hl : alookup posMap pos with _ | i
  · rw [ensure_position_session, hl] at h
    rcases hf : db.position_sessions.find? fun r => r.is_active && r.position_id == pos
      with _ | row
    · rw [get_or_create_position_session, hf] at h
      simp only [Prod.mk.injEq] at h
      obtain ⟨-, -, -, rfl, -, -⟩ := h
      exact ⟨rfl, rfl, rfl⟩
    · rw [get_or_create_position_session, hf] at h
      simp only [Prod.mk.injEq] at h
      obtain ⟨-, -, -, rfl, -, -⟩ := h
      exact ⟨rfl, rfl, rfl⟩
  · rw [ensure_position_session, hl] at h
    simp only [Prod.mk.injEq] at h
    obtain ⟨-, -, -, rfl, -, -⟩ := h
    exact ⟨rfl, rfl, rfl⟩

theorem insert_controller_session_outer {gen : Nat} {db : Db} {c : Controller} {cid : Int}
    {t : Timestamp} {csId psId : Nat} {id g' : Nat} {db' : Db}
    (h : insert_controller_session gen db c cid t csId psId = .ok (id, g', db')) :
    OuterTablesEq db db' := by
  rw [insert_controller_session] at h
  by_cases hc : (db.controller_sessions.any fun r => r.is_active && r.cid == cid) = true
  · rw [if_pos hc] at h
    exact nomatch h
  · rw [if_neg hc] at h
    obtain ⟨-, -, rfl⟩ := Except.ok.inj h
    exact ⟨rfl, rfl, rfl⟩

theorem apply_action_outer {st : ApplyState} {a : ControllerAction} {t : Timestamp}
    {st' : ApplyState} (h : apply_action st a t = .ok st') :
    OuterTablesEq st.db st'.db := by
  match a with
  | .updateExisting sid c csId psId =>
    obtain rfl := Except.ok.inj h
    exact ⟨rfl, rfl, rfl⟩
  | .close sid cid csId psId cc reason =>
    obtain rfl := Except.ok.inj h
    exact ⟨rfl, rfl, rfl⟩
  | .createNew c key pos cid =>
    rw [apply_action] at h
    rcases hcs : ensure_callsign_session st.gen st.db st.csMap key t with
      ⟨csId, csCr, gen1, db1, csMap1, ops1⟩
    simp only [hcs] at h
    rcases hps : ensure_position_session gen1 db1 st.posMap pos t with
      ⟨psId, psCr, gen2, db2, posMap1, ops2⟩
    simp only [hps] at h
    rcases hins : insert_controller_session gen2 db2 c cid t csId psId with e | ⟨cId, gen3, db3⟩
    · simp only [hins] at h
      exact nomatch h
    · simp only [hins] at h
      obtain rfl := Except.ok.inj h
      exact ((ensure_callsign_session_outer hcs).trans
        (ensure_position_session_outer hps)).trans (insert_controller_session_outer hins)

theorem apply_actions_outer {actions : List ControllerAction} :
    ∀ {st : ApplyState} {t : Timestamp} {st' : ApplyState},
    apply_actions st actions t = .ok st' → OuterTablesEq st.db st'.db := by
  induction actions with
  | nil =>
    intro st t st' h
    obtain rfl := Except.ok.inj h
    exact OuterTablesEq.refl _
  | cons a rest ih =>
    intro st t st' h
    rw [apply_actions] at h
    rcases ha : apply_action st a t with e | stm
    · simp only [ha] at h
      exact nomatch h
    · simp only [ha] at h
      exact (apply_action_outer ha).trans (ih h)

theorem process_datafeed_payload_outer {gen : Nat} {db : Db} {datafeed : DatafeedRoot}
    {r : SnapshotResult} (h : process_datafeed_payload gen db datafeed = .ok r) :
    OuterTablesEq db r.db := by
  rw [process_datafeed_payload] at h
  rcases hB : apply_actions
      { gen := gen,
        db := if ((reconcile (load_active_state db).active_by_cid
            datafeed.controllers).controller_actions.filterMap closeSessionId).isEmpty then db
          else complete_controller_sessions db
            ((reconcile (load_active_state db).active_by_cid
              datafeed.controllers).controller_actions.filterMap closeSessionId)
            datafeed.updated_at,
        csMap := (load_active_state db).active_callsign_sessions_map,
        posMap := (load_active_state db).active_position_sessions,
        active_callsign_ids := (reconcile (load_active_state db).active_by_cid
          datafeed.controllers).active_callsign_ids,
        active_position_ids := (reconcile (load_active_state db).active_by_cid
          datafeed.controllers).active_position_ids,
        new_callsign_session_ids := [], new_position_session_ids := [],
        trace := if ((reconcile (load_active_state db).active_by_cid
            datafeed.controllers).controller_actions.filterMap closeSessionId).isEmpty then []
          else [.completeControllers ((reconcile (load_active_state db).active_by_cid
            datafeed.controllers).controller_actions.filterMap closeSessionId)] }
      (reconcile (load_active_state db).active_by_cid datafeed.controllers).controller_actions
      datafeed.updated_at with e | stB
  · simp only [hB] at h
    exact nomatch h
  · simp only [hB] at h
    have houterA : OuterTablesEq db
        (if ((reconcile (load_active_state db).active_by_cid
            datafeed.controllers).controller_actions.filterMap closeSessionId).isEmpty then db
          else complete_controller_sessions db
            ((reconcile (load_active_state db).active_by_cid
              datafeed.controllers).controller_actions.filterMap closeSessionId)
            datafeed.updated_at) := by
      by_cases hclose : ((reconcile (load_active_state db).active_by_cid
          datafeed.controllers).controller_actions.filterMap closeSessionId).isEmpty = true
      · rw [if_pos hclose]
        exact OuterTablesEq.refl db
      · rw [if_neg hclose]
        exact ⟨rfl, rfl, rfl⟩
    have houterB := houterA.trans (apply_actions_outer hB)
    rcases hC1 : finalize_callsign_sessions stB.db
        (load_active_state db).active_callsign_sessions stB.active_callsign_ids
        datafeed.updated_at with ⟨dbC1, closed_cs, opsC1⟩
    simp only [hC1] at h
    rcases hC2 : finalize_position_sessions dbC1 stB.posMap stB.active_position_ids
        datafeed.updated_at with ⟨dbC2, closed_ps, opsC2⟩
    simp only [hC2] at h
    have houterC1 : OuterTablesEq stB.db dbC1 := by
      rw [finalize_callsign_sessions] at hC1
      by_cases hcl : ((load_active_state db).active_callsign_sessions.filter fun id =>
          id ∉ stB.active_callsign_ids).isEmpty = true
      · rw [if_pos hcl] at hC1
        obtain ⟨rfl, -, -⟩ := Prod.mk.injEq .. |>.mp hC1
        exact OuterTablesEq.refl _
      · rw [if_neg hcl] at hC1
        obtain ⟨rfl, -, -⟩ := Prod.mk.injEq .. |>.mp hC1
        exact ⟨rfl, rfl, rfl⟩
    have houterC2 : OuterTablesEq dbC1 dbC2 := by
      rw [finalize_position_sessions] at hC2
      by_cases hcl : (((stB.posMap.filter fun e => e.1 ∉ stB.active_position_ids).map
          (·.2)).isEmpty) = true
      · rw [if_pos hcl] at hC2
        obtain ⟨rfl, -, -⟩ := Prod.mk.injEq .. |>.mp hC2
        exact OuterTablesEq.refl _
      · rw [if_neg hcl] at hC2
        obtain ⟨rfl, -, -⟩ := Prod.mk.injEq .. |>.mp hC2
        exact ⟨rfl, rfl, rfl⟩
    obtain rfl := Except.ok.inj h
    exact (houterB.trans houterC1).trans houterC2

/-! ### C5: duplicate payloads are skipped but acknowledged -/

/-- C5: processing a queued payload whose updated_at already exists in
the payload archive performs no insert or update on the controller,
callsign or position session tables: the committed state is untouched
(process_datafeed_payload is not run) and the outer transaction's session
tables are untouched; the duplicate is still recorded in the audit table
and its queue row is deleted, so replaying a payload that was already
processed leaves the session tables exactly as after the first
processing.  The decode hypothesis reflects that a replayed copy of a
processed payload deserializes like the original did. -/
theorem process_one_message_duplicate (now : Timestamp) (st : PState) (m : QueuedDatafeed)
    (root : DatafeedRoot) (hok : from_value_datafeed_root m.payload = .ok root)
    (hdup : ∃ p ∈ st.txDb.datafeed_payloads, p.updated_at = m.updated_at) :
    ∃ st', process_one_message now st m = .ok st' ∧
      st'.committed = st.committed ∧
      st'.txDb.controller_sessions = st.txDb.controller_sessions ∧
      st'.txDb.callsign_sessions = st.txDb.callsign_sessions ∧
      st'.txDb.position_sessions = st.txDb.position_sessions ∧
      st'.txDb.datafeed_payloads = st.txDb.datafeed_payloads ∧
      st'.txDb.datafeed_queue = st.txDb.datafeed_queue.filter (fun r => r.id ≠ m.id) ∧
      ∃ msg ∈ st'.txDb.datafeed_messages, msg.queue_id = m.id := by
  obtain ⟨p, hp, hpu⟩ := hdup
  have hfind : (st.txDb.datafeed_payloads.find? fun q => q.updated_at == m.updated_at).isSome := by
    rw [List.find?_isSome]
    exact ⟨p, hp, by rw [beq_iff_eq]; exact hpu⟩
  obtain ⟨p', hp'⟩ := Option.isSome_iff_exists.mp hfind
  refine ⟨{ committed := st.committed,
            txDb := delete_queued_datafeed
              { st.txDb with datafeed_messages := st.txDb.datafeed_messages ++
                  [{ id := st.gen, queue_id := m.id, payload_id := p'.id,
                     enqueued_at := m.created_at, processed_at := now }] } m.id,
            gen := st.gen + 1 }, ?_, rfl, rfl, rfl, rfl, rfl, rfl, ?_⟩
  · simp only [process_one_message, hok, upsert_datafeed_payload, hp',
      insert_datafeed_message, Bool.false_eq_true, if_false]
  · refine ⟨{ id := st.gen, queue_id := m.id, payload_id := p'.id,
              enqueued_at := m.created_at, processed_at := now }, ?_, rfl⟩
    exact List.mem_append_right _ (List.mem_singleton.mpr rfl)

/-- C5 witness: the theorem applied to the replayed snapshot. -/
theorem process_one_message_duplicate_witness :
    ∃ st', process_one_message 9 c5State ⟨41, 0, .valid ⟨0, []⟩, 6⟩ = .ok st' ∧
      st'.committed = c5State.committed ∧
      st'.txDb.controller_sessions = c5State.txDb.controller_sessions ∧
      st'.txDb.callsign_sessions = c5State.txDb.callsign_sessions ∧
      st'.txDb.position_sessions = c5State.txDb.position_sessions ∧
      st'.txDb.datafeed_payloads = c5State.txDb.datafeed_payloads ∧
      st'.txDb.datafeed_queue = c5State.txDb.datafeed_queue.filter (fun r => r.id ≠ 41) ∧
      ∃ msg ∈ st'.txDb.datafeed_messages, msg.queue_id = 41 :=
  process_one_message_duplicate 9 c5State ⟨41, 0, .valid ⟨0, []⟩, 6⟩ ⟨0, []⟩ rfl
    ⟨c5ArchivedRow, by decide, rfl⟩

/-! ### C1: transaction discipline of the batch loop -/

theorem process_one_message_outer {now : Timestamp} {st : PState} {m : QueuedDatafeed}
    {st' : PState} (h : process_one_message now st m = .ok st') :
    OuterTablesEq st.committed st'.committed := by
  rw [process_one_message] at h
  rcases hv : from_value_datafeed_root m.payload with e | root
  · simp only [hv] at h
    exact nomatch h
  · simp only [hv] at h
    rcases hup : upsert_datafeed_payload st.gen st.txDb m with ⟨pid, newp, gen1, txDb1⟩
    simp only [hup] at h
    rcases newp with _ | _
    · simp only [Bool.false_eq_true, if_false] at h
      simp only [insert_datafeed_message] at h
      obtain rfl := Except.ok.inj h
      exact OuterTablesEq.refl _
    · simp only [if_true] at h
      rcases hin : process_datafeed_payload gen1 st.committed root with e | r
      · simp only [hin, Except.map] at h
        exact nomatch h
      · simp only [hin, Except.map, insert_datafeed_message] at h
        obtain rfl := Except.ok.inj h
        exact process_datafeed_payload_outer hin

theorem run_messages_outer_frame {now : Timestamp} {ms : List QueuedDatafeed} :
    ∀ {st : PState} {dbF : Db} {genF : Nat} {e : ProcessError},
    run_messages now st ms = .failRun dbF genF e → OuterTablesEq st.committed dbF := by
  induction ms with
  | nil =>
    intro st dbF genF e h
    exact nomatch h
  | cons m rest ih =>
    intro st dbF genF e h
    rw [run_messages] at h
    rcases hm : process_one_message now st m with e' | st1
    · simp only [hm] at h
      obtain ⟨rfl, -, -⟩ := RunResult.failRun.inj h
      exact OuterTablesEq.refl _
    · simp only [hm] at h
      exact (process_one_message_outer hm).trans (ih h)

/-- C1 counterexample: the claim says all durable effects of processing a
snapshot commit in exactly one transaction, so that when any step of
phases A to D fails none of the effects persists and the queue row
remains.  Processing the batch holding a valid snapshot followed by a
malformed one fails on the second payload, which rolls back the outer
transaction; yet the first snapshot's session writes persist, because
process_datafeed_payload opened and committed its own transaction on the
pool: the failed outcome's durable state holds one controller session
row while the initial state held none (and the queue is unchanged, so
the first snapshot will be reprocessed even though its session writes
are already durable). -/
theorem single_transaction_counterexample :
    batch_outcome_is_failed c1Outcome = true ∧
    (batch_outcome_db c1Outcome).controller_sessions.length = 1 ∧
    (batch_outcome_db c1Outcome).datafeed_queue = c1InitialDb.datafeed_queue ∧
    c1InitialDb.controller_sessions.length = 0 := by decide

/-- C1 amended: the archive upsert, the audit row and the queue-row
deletion of phase D share one outer transaction per batch, while the
session-table writes of phases A to C commit in a separate per-snapshot
transaction opened on the pool.  When any step fails, the outer
transaction rolls back wholly: the queue, archive and audit tables are
unchanged, so every queue row of the batch remains for the next claim
and retry; session writes of snapshots already processed earlier in the
failed batch, however, persist. -/
theorem failed_batch_outer_rollback (now : Timestamp) (gen : Nat) (db : Db) (limit : Nat)
    (dbF : Db) (genF : Nat) (e : ProcessError)
    (h : process_pending_once now gen db limit = .failedBatch dbF genF e) :
    dbF.datafeed_queue = db.datafeed_queue ∧
    dbF.datafeed_payloads = db.datafeed_payloads ∧
    dbF.datafeed_messages = db.datafeed_messages := by
  rw [process_pending_once] at h
  by_cases hempty : (fetch_datafeed_batch db limit).isEmpty = true
  · rw [if_pos hempty] at h
    exact nomatch h
  · rw [if_neg hempty] at h
    rcases hr : run_messages now ⟨db, db, gen⟩ (fetch_datafeed_batch db limit) with st | ⟨d, g, e2⟩
    · simp only [hr] at h
      exact nomatch h
    · simp only [hr] at h
      obtain ⟨rfl, -, -⟩ := BatchOutcome.failedBatch.inj h
      exact run_messages_outer_frame hr

/-- C1 amended witness: the theorem applied to the C1 scenario shows the
archive is unchanged by the failed batch. -/
theorem failed_batch_outer_rollback_witness :
    (batch_outcome_db c1Outcome).datafeed_payloads = c1InitialDb.datafeed_payloads :=
  (failed_batch_outer_rollback 7 0 c1InitialDb 10 (batch_outcome_db c1Outcome) 5
    .deserializeError (by decide)).2.1

/-- C6 amended witness: the inactive second record of the duplicate-CID
snapshot is ignored by the reconciler when the map entry is gone. -/
theorem duplicate_cid_first_consumes_entry_witness :
    reconcile_step
      { active_by_cid := [], controller_actions := [], active_callsign_ids := [],
        active_position_ids := [] }
      { artcc_id := "ZBW", primary_facility_id := "BOS", primary_position_id := "P2",
        is_active := false, is_observer := false, login_time := 2000,
        vatsim_data := ⟨"100", "A", "", .controller1, .controller1, "BOS_TWR"⟩ } =
      { active_by_cid := [], controller_actions := [], active_callsign_ids := [],
        active_position_ids := [] } :=
  duplicate_cid_first_consumes_entry.2 _ _ ⟨100, "BOS", "TWR", "P2"⟩ (by decide) rfl rfl

/-- C3: in every durable state reachable by replaying any sequence of
snapshots from the empty database, at most one active controller session
exists per CID; and within the application of one snapshot from a
reachable state, the ghost trace of the snapshot transaction splits into
a prefix holding no controller session insert and a suffix holding no
controller session close, so every close of phase A is applied before
any new controller session row is inserted. -/
theorem one_active_per_cid_and_close_before_insert (feeds : List DatafeedRoot) :
    (∀ r ∈ (replay feeds).2.controller_sessions,
      ∀ s ∈ (replay feeds).2.controller_sessions,
      r.is_active = true → s.is_active = true → r.cid = s.cid → r.id = s.id) ∧
    (∀ datafeed res,
      process_datafeed_payload (replay feeds).1 (replay feeds).2 datafeed = .ok res →
      ∃ t1 t2, res.trace = t1 ++ t2 ∧
        (∀ op ∈ t1, opInsertsController op = false) ∧
        (∀ op ∈ t2, opClosesControllers op = false)) := by
  refine ⟨(replay_WF feeds).one_cid, ?_⟩
  intro datafeed res h
  exact (snapshot_master (replay_WF feeds) h).2.2.2

/-- C3 witness: processing the one-controller snapshot from the empty
reachable state yields a trace split with the closes ahead of the
inserts. -/
theorem one_active_per_cid_and_close_before_insert_witness :
    ∃ t1 t2, c34Res.trace = t1 ++ t2 ∧
      (∀ op ∈ t1, opInsertsController op = false) ∧
      (∀ op ∈ t2, opClosesControllers op = false) :=
  (one_active_per_cid_and_close_before_insert []).2 c34Feed c34Res (by decide)

/-- C4: after a snapshot is fully applied from a reachable durable
state, a callsign session row is active iff at least one active
controller session references it, and symmetrically for position
session rows; every callsign session id of the loaded active set that
was not recorded as seen is closed with the snapshot's updated_at, and
every seen id stays active. -/
theorem shared_sessions_active_iff_referenced (feeds : List DatafeedRoot)
    (datafeed : DatafeedRoot) (res : SnapshotResult)
    (h : process_datafeed_payload (replay feeds).1 (replay feeds).2 datafeed = .ok res) :
    (∀ cc ∈ res.db.callsign_sessions, cc.is_active = true ↔
      ∃ r ∈ res.db.controller_sessions,
        r.is_active = true ∧ r.callsign_session_id = cc.id) ∧
    (∀ p ∈ res.db.position_sessions, p.is_active = true ↔
      ∃ r ∈ res.db.controller_sessions,
        r.is_active = true ∧ r.position_session_id = p.id) ∧
    (∀ cc ∈ res.db.callsign_sessions,
      cc.id ∈ (load_active_state (replay feeds).2).active_callsign_sessions →
      cc.id ∉ res.active_callsign_ids →
      cc.is_active = false ∧ cc.end_time = some datafeed.updated_at) ∧
    (∀ id ∈ res.active_callsign_ids,
      ∃ cc ∈ res.db.callsign_sessions, cc.is_active = true ∧ cc.id = id) := by
  obtain ⟨hWF, hclosed, hseen, -⟩ := snapshot_master (replay_WF feeds) h
  refine ⟨?_, ?_, hclosed, hseen⟩
  · intro cc hcc
    constructor
    · intro hact
      exact hWF.cs_refd cc hcc hact
    · rintro ⟨r, hr, hra, hrcs⟩
      obtain ⟨c', hc', hc'a, hc'id⟩ := hWF.ref_cs r hr hra
      have hccc : c' = cc := eq_of_nodup_key hWF.cs_nodup hc' hcc (by rw [hc'id, hrcs])
      rw [← hccc]
      exact hc'a
  · intro p hp
    constructor
    · intro hact
      exact hWF.ps_refd p hp hact
    · rintro ⟨r, hr, hra, hrps⟩
      obtain ⟨q, hq, hqa, hqid, -⟩ := hWF.ref_ps r hr hra
      have hqp : q = p := eq_of_nodup_key hWF.ps_nodup hq hp (by rw [hqid, hrps])
      rw [← hqp]
      exact hqa

/-- C4 witness: the one-controller snapshot processed from the empty
reachable state satisfies the callsign active-iff-referenced property at
its concrete result. -/
theorem shared_sessions_active_iff_referenced_witness :
    process_datafeed_payload (replay []).1 (replay []).2 c34Feed = .ok c34Res ∧
    ∀ cc ∈ c34Res.db.callsign_sessions, cc.is_active = true ↔
      ∃ r ∈ c34Res.db.controller_sessions,
        r.is_active = true ∧ r.callsign_session_id = cc.id := by
  have h : process_datafeed_payload (replay []).1 (replay []).2 c34Feed = .ok c34Res := by
    decide
  exact ⟨h, (shared_sessions_active_iff_referenced [] c34Feed c34Res h).1⟩

end VnasStats
